import Mathlib

/-!
# Overblown: collision, shape migration, fish AI and boss state machine

A shallow embedding of the simulation core of `src/definitions.h`.

Conventions of the embedding.

* `real32` / `real64` values are exact rationals (`ℚ`); every statement below is a
  statement about the program in exact arithmetic.  The one exception is the countdown
  `lifespan -= time_delta` of a bubble, which is rounded to single precision by the
  function `real32`: the tick in which a bubble dies depends on that rounding.
* `int`, `int32` are unbounded integers (`ℤ`): none of the modelled paths relies on
  wrap-around.
* `Vector2f::getMagnitude` is a square root.  The program only ever compares a
  magnitude with a non-negative constant, so the embedding compares the squared
  magnitude with the squared constant.
* Mutable objects reached through `state->` are passed and returned explicitly.
* Rendering, sound and texture bookkeeping are not part of the embedding.
-/

namespace Overblown

/-! ## Geometry kernel -/

/-- Two-dimensional vector `Vector2f`. -/
structure Vector2f where
  x : ℚ
  y : ℚ
deriving DecidableEq

namespace Vector2f

/-- Squared value of `getMagnitude`. -/
def magSq (v : Vector2f) : ℚ := v.x * v.x + v.y * v.y

/-- Source: `Vector2f::isZero`. -/
def isZero (v : Vector2f) : Bool := decide (v.x = 0) && decide (v.y = 0)

/-- Source: `operator bool`, true for a non-zero vector. -/
def toBool (v : Vector2f) : Bool := !v.isZero

/-- Source: `operator+`. -/
def add (a b : Vector2f) : Vector2f := ⟨a.x + b.x, a.y + b.y⟩

/-- Source: `operator-` (binary). -/
def sub (a b : Vector2f) : Vector2f := ⟨a.x - b.x, a.y - b.y⟩

/-- Source: `operator-` (unary). -/
def neg (a : Vector2f) : Vector2f := ⟨-a.x, -a.y⟩

/-- Source: scaling `operator*`. -/
def scale (a : Vector2f) (b : ℚ) : Vector2f := ⟨a.x * b, a.y * b⟩

/-- Source: scaling `operator/`. -/
def divide (a : Vector2f) (b : ℚ) : Vector2f := ⟨a.x / b, a.y / b⟩

/-- Source: `dot`. -/
def dot (a b : Vector2f) : ℚ := a.x * b.x + a.y * b.y

end Vector2f

/-- Axis-aligned rectangle `Rect2f`. -/
structure Rect2f where
  x : ℚ
  y : ℚ
  w : ℚ
  h : ℚ
deriving DecidableEq

namespace Rect2f

/-- Source: `Rect2f::getCenter`. -/
def getCenter (r : Rect2f) : Vector2f := ⟨r.x + r.w / 2, r.y + r.h / 2⟩

/-- Source: `Rect2f::contains`. -/
def contains (r : Rect2f) (p : Vector2f) : Bool :=
  decide (p.x ≥ r.x) && decide (p.x ≤ r.x + r.w) && decide (p.y ≥ r.y) && decide (p.y ≤ r.y + r.h)

/-- Source: `Rect2f::collides`. -/
def collides (r other : Rect2f) : Bool :=
  decide (r.x < other.x + other.w) && decide (r.x + r.w > other.x) &&
    decide (r.y < other.y + other.h) && decide (r.y + r.h > other.y)

/-- Source: `Rect2f::collisionDepth`. -/
def collisionDepth (r other : Rect2f) : Vector2f :=
  let dx : ℚ :=
    if r.x < other.x + other.w ∧ r.x + r.w > other.x then
      let overlapLeft := other.x + other.w - r.x
      let overlapRight := r.x + r.w - other.x
      if overlapLeft < overlapRight then -overlapLeft else overlapRight
    else 0
  let dy : ℚ :=
    if r.y < other.y + other.h ∧ r.y + r.h > other.y then
      let overlapTop := other.y + other.h - r.y
      let overlapBottom := r.y + r.h - other.y
      if overlapTop < overlapBottom then -overlapTop else overlapBottom
    else 0
  ⟨dx, dy⟩

end Rect2f

/-! ## Solids, actors, level -/

/-- The fields of `Solid` that the simulation reads. -/
structure Solid where
  position : Vector2f
  width : ℚ
  height : ℚ
  collidable : Bool
  breakable : Bool
deriving DecidableEq

/-- Source: `Solid::operator==`, which compares positions only. -/
def Solid.eqv (a b : Solid) : Bool := decide (a.position = b.position)

/-- Rectangle `solid_rect` built from a solid in `collideAt` and `checkCollision`. -/
def Solid.rect (s : Solid) : Rect2f := ⟨s.position.x, s.position.y, s.width, s.height⟩

/-- The physical fields of `Actor`. -/
structure Actor where
  xRemainder : ℚ
  yRemainder : ℚ
  position : Vector2f
  velocity : Vector2f
  width : ℚ
  height : ℚ
  hitRect : Rect2f
  visible : Bool
  isPuffed : Bool
  accConst : ℚ
  velocityLimit : ℚ
  goingSlow : Bool
  health : ℤ
  maxHealth : ℤ
  dyingTime : ℚ
  isDead : Bool
  diesOnImpact : Bool
  noClip : Bool
  puffingFrames : ℤ
deriving DecidableEq

/-- Source: `Actor::getHitbox(Vector2f customPos)`. -/
def Actor.getHitboxAt (a : Actor) (customPos : Vector2f) : Rect2f :=
  ⟨a.hitRect.x + customPos.x, a.hitRect.y + customPos.y, a.hitRect.w, a.hitRect.h⟩

/-- Source: `Actor::getHitbox()`. -/
def Actor.getHitbox (a : Actor) : Rect2f := a.getHitboxAt a.position

/-- Source: `Actor::getCenter`. -/
def Actor.getCenter (a : Actor) : Vector2f :=
  ⟨a.position.x + a.width / 2, a.position.y + a.height / 2⟩

/-- Source: `Actor::isDying`. -/
def Actor.isDying (a : Actor) : Bool := a.isDead || decide (a.dyingTime ≠ 0)

/-- Source: `Actor::collideAt`: the first collidable solid whose rectangle overlaps the
hitbox placed at `position`. -/
def Actor.collideAt (a : Actor) (solids : List Solid) (position : Vector2f) : Option Solid :=
  solids.find? (fun solid => solid.collidable && (a.getHitboxAt position).collides solid.rect)

/-- Source: `deleteFromVector`, instantiated at `Solid`: erase the first element equal
(by `operator==`) to `valueToRemove`. -/
def deleteFromVector : List Solid → Solid → List Solid
  | [], _ => []
  | s :: rest, valueToRemove =>
    if s.eqv valueToRemove then rest else s :: deleteFromVector rest valueToRemove

/-! ## Collision and movement engine -/

/-- The coordinate `real32& coord` handed to `handleCollision`. -/
inductive Axis where
  | X
  | Y
deriving DecidableEq

/-- The statement `coord += sign`. -/
def Actor.addCoord (a : Actor) (coord : Axis) (sign : ℤ) : Actor :=
  match coord with
  | Axis.X => { a with position := ⟨a.position.x + sign, a.position.y⟩ }
  | Axis.Y => { a with position := ⟨a.position.x, a.position.y + sign⟩ }

/-- Everything `handleCollision` returns or mutates. -/
structure StepResult where
  collided : Bool
  move : ℤ
  actor : Actor
  solids : List Solid

/-- The condition `(actor->isPuffed || actor->puffingFrames > 0) &&
actor->velocity.getMagnitude() > 1200` of `handleCollision`. -/
def Actor.breakingSpeed (actor : Actor) : Bool :=
  (actor.isPuffed || decide (actor.puffingFrames > 0)) &&
    decide (actor.velocity.magSq > 1200 * 1200)

/-- Source: `handleCollision`.  `on_collide` is the optional callback; the callbacks of
the program capture `this` and mutate the actor only. -/
def handleCollision (position : Vector2f) (on_collide : Option (Actor → Actor)) (move sign : ℤ)
    (actor : Actor) (coord : Axis) (solids : List Solid) : StepResult :=
  let solid := actor.collideAt solids position
  let comingToBreak : Bool :=
    match solid with
    | some _ => actor.breakingSpeed
    | none => false
  let breaks : Bool :=
    match solid with
    | some s => s.breakable && comingToBreak
    | none => false
  if solid.isNone || breaks || actor.noClip then
    let actor1 := actor.addCoord coord sign
    let solids1 :=
      match solid with
      | some s => if s.breakable && comingToBreak then deleteFromVector solids s else solids
      | none => solids
    ⟨false, move - sign, actor1, solids1⟩
  else
    match on_collide with
    | some f => ⟨true, move, f actor, solids⟩
    | none => ⟨true, move, actor, solids⟩

/-- Source: `Actor::die`. -/
def Actor.die (a : Actor) : Actor := { a with visible := false, isDead := true }

/-- Source: the `on_collide` lambda that `Actor::update` passes to `moveX`. -/
def Actor.onCollideX (a : Actor) : Actor :=
  let a1 := if a.diesOnImpact then a.die else a
  if a1.isPuffed then { a1 with velocity := ⟨-a1.velocity.x, a1.velocity.y⟩ }
  else { a1 with velocity := ⟨0, a1.velocity.y⟩ }

/-- Source: the `on_collide` lambda that `Actor::update` passes to `moveY`. -/
def Actor.onCollideY (a : Actor) : Actor :=
  let a1 := if a.diesOnImpact then a.die else a
  if a1.isPuffed then { a1 with velocity := ⟨a1.velocity.x, -a1.velocity.y⟩ }
  else { a1 with velocity := ⟨a1.velocity.x, 0⟩ }

/-- Source: `round` (half away from zero) followed by the conversion to `int`. -/
def roundInt (q : ℚ) : ℤ := if 0 ≤ q then ⌊q + 1 / 2⌋ else ⌈q - 1 / 2⌉

/-- Source: macro `SIGN`. -/
def SIGN (a : ℤ) : ℤ := (if a > 0 then 1 else 0) - (if a < 0 then 1 else 0)

/-- What a `moveX` / `moveY` call leaves behind.  `blocked` records whether the loop was
left through `break`, that is, whether some unit step was refused. -/
structure MoveResult where
  actor : Actor
  solids : List Solid
  blocked : Bool

/-- One-unit displacement along an axis. -/
def Axis.unit (coord : Axis) (sign : ℤ) : Vector2f :=
  match coord with
  | Axis.X => ⟨sign, 0⟩
  | Axis.Y => ⟨0, sign⟩

/-- The loop `while (move != 0) { if (handleCollision(...)) break; }` of `moveX` and
`moveY`.  The first argument bounds the number of iterations; the callers pass `|move|`,
which the loop never exceeds because each committed step brings `move` one closer to 0. -/
def moveLoop (coord : Axis) (on_collide : Option (Actor → Actor)) (sign : ℤ) :
    ℕ → ℤ → Actor → List Solid → MoveResult
  | 0, _, actor, solids => ⟨actor, solids, false⟩
  | fuel + 1, move, actor, solids =>
    if move ≠ 0 then
      let r := handleCollision (actor.position.add (coord.unit sign)) on_collide move sign actor
        coord solids
      if r.collided then ⟨r.actor, r.solids, true⟩
      else moveLoop coord on_collide sign fuel r.move r.actor r.solids
    else ⟨actor, solids, false⟩

/-- Source: `Actor::moveX`. -/
def Actor.moveX (a : Actor) (solids : List Solid) (amount : ℚ)
    (on_collide : Option (Actor → Actor)) : MoveResult :=
  let a1 := { a with xRemainder := a.xRemainder + amount }
  let move := roundInt a1.xRemainder
  if move ≠ 0 then
    let a2 := { a1 with xRemainder := a1.xRemainder - move }
    moveLoop Axis.X on_collide (SIGN move) move.natAbs move a2 solids
  else ⟨a1, solids, false⟩

/-- Source: `Actor::moveY`. -/
def Actor.moveY (a : Actor) (solids : List Solid) (amount : ℚ)
    (on_collide : Option (Actor → Actor)) : MoveResult :=
  let a1 := { a with yRemainder := a.yRemainder + amount }
  let move := roundInt a1.yRemainder
  if move ≠ 0 then
    let a2 := { a1 with yRemainder := a1.yRemainder - move }
    moveLoop Axis.Y on_collide (SIGN move) move.natAbs move a2 solids
  else ⟨a1, solids, false⟩

/-- Source: `checkCollision`.  `levelWidth` and `levelHeight` are
`state->currentLevel->width` and `state->currentLevel->height` (`uint32`). -/
def checkCollision (levelWidth levelHeight : ℕ) (solids : List Solid) (hitbox : Rect2f) :
    Vector2f :=
  if hitbox.x < 0 then ⟨hitbox.x, 0⟩
  else if hitbox.x + hitbox.w > levelWidth then ⟨levelWidth - hitbox.x - hitbox.w, 0⟩
  else if hitbox.y < 0 then ⟨0, hitbox.y⟩
  else if hitbox.y + hitbox.h > levelHeight then ⟨0, levelHeight - hitbox.y - hitbox.h⟩
  else
    match solids.find? (fun solid => solid.collidable && hitbox.collides solid.rect) with
    | some solid => hitbox.collisionDepth solid.rect
    | none => ⟨0, 0⟩

/-! ## Player and the shape-migration routine -/

/-- The level data read by the collision queries: the solid list and the pixel size. -/
structure Level where
  solids : List Solid
  width : ℕ
  height : ℕ

/-- Source: `class Player : public Actor`, the fields used by the simulation. -/
structure Player extends Actor where
  puffingTime : ℚ
  puffCooldown : ℚ
  invulTime : ℚ
  inButt : Bool
deriving DecidableEq

/-- Source: `Player::hitRects`, filled in by the constructor and never written again
(`27/2`, `184/2` and `91/2` are integer divisions). -/
def hitRects (i : ℕ) : Rect2f :=
  match i with
  | 0 => ⟨13, 0, 92, 45⟩
  | 1 => ⟨218, 218, 222, 222⟩
  | 2 => ⟨105, 105, 435, 417⟩
  | _ => ⟨77, 74, 499, 487⟩

/-- Source: `Player::puffOffset`. -/
def puffOffset : Vector2f := ⟨236, 294⟩

/-- Source: `Player::normalSize` (`230/2` and `91/2` are integer divisions). -/
def normalSize : Vector2f := ⟨115, 45⟩

/-- Source: `Player::puffedSize`. -/
def puffedSize : Vector2f := ⟨639, 643⟩

/-- The per-call constants computed at the top of `Player::tryHitRectChange`. -/
structure MigrationPlan where
  orgPosition : Vector2f
  deltaPos : Vector2f
  steps : ℤ
  stepDeltaPos : Vector2f
  stepOffsetChange : Vector2f
  stepSizeChange : Vector2f

/-- The prologue of `Player::tryHitRectChange`: total changes, step count, step increments. -/
def Player.migrationPlan (p : Player) (deltaPos : Vector2f) (newHitRect : Rect2f) :
    MigrationPlan :=
  let offsetChange : Vector2f := ⟨newHitRect.x - p.hitRect.x, newHitRect.y - p.hitRect.y⟩
  let totalDeltaPos := deltaPos.add offsetChange
  let totalSizeChange : Vector2f := ⟨newHitRect.w - p.hitRect.w, newHitRect.h - p.hitRect.h⟩
  let steps : ℤ :=
    max (max (max ⌈|totalDeltaPos.x| / 30⌉ ⌈|totalDeltaPos.y| / 30⌉) ⌈|totalSizeChange.x| / 30⌉)
      ⌈|totalSizeChange.y| / 30⌉
  { orgPosition := p.position
    deltaPos := deltaPos
    steps := steps
    stepDeltaPos := deltaPos.divide steps
    stepOffsetChange := offsetChange.divide steps
    stepSizeChange := totalSizeChange.divide steps }

/-- The rectangle `stepHitRect` of one sub-step. -/
def Player.stepHitRect (p : Player) (plan : MigrationPlan) : Rect2f :=
  ⟨p.hitRect.x + plan.stepOffsetChange.x, p.hitRect.y + plan.stepOffsetChange.y,
    p.hitRect.w + plan.stepSizeChange.x, p.hitRect.h + plan.stepSizeChange.y⟩

/-- The rectangle `targetHitBox` of one sub-step. -/
def Player.targetHitBox (p : Player) (plan : MigrationPlan) : Rect2f :=
  ⟨p.position.x + plan.stepDeltaPos.x + (p.stepHitRect plan).x,
    p.position.y + plan.stepDeltaPos.y + (p.stepHitRect plan).y,
    (p.stepHitRect plan).w, (p.stepHitRect plan).h⟩

/-- Source: `leftCollision`, the probe of the left 1-unit-thick edge. -/
def Player.leftCollision (p : Player) (lvl : Level) (plan : MigrationPlan) : Vector2f :=
  checkCollision lvl.width lvl.height lvl.solids
    ⟨(p.targetHitBox plan).x, (p.targetHitBox plan).y, 1, (p.targetHitBox plan).h⟩

/-- Source: `rightCollision`, the probe of the right 1-unit-thick edge. -/
def Player.rightCollision (p : Player) (lvl : Level) (plan : MigrationPlan) : Vector2f :=
  checkCollision lvl.width lvl.height lvl.solids
    ⟨(p.targetHitBox plan).x + (p.targetHitBox plan).w - 1, (p.targetHitBox plan).y, 1,
      (p.targetHitBox plan).h⟩

/-- Source: `topCollision`, the probe of the top 1-unit-thick edge. -/
def Player.topCollision (p : Player) (lvl : Level) (plan : MigrationPlan) : Vector2f :=
  checkCollision lvl.width lvl.height lvl.solids
    ⟨(p.targetHitBox plan).x, (p.targetHitBox plan).y, (p.targetHitBox plan).w, 1⟩

/-- Source: `bottomCollision`, the probe of the bottom 1-unit-thick edge. -/
def Player.bottomCollision (p : Player) (lvl : Level) (plan : MigrationPlan) : Vector2f :=
  checkCollision lvl.width lvl.height lvl.solids
    ⟨(p.targetHitBox plan).x, (p.targetHitBox plan).y + (p.targetHitBox plan).h - 1,
      (p.targetHitBox plan).w, 1⟩

/-- The test `leftCollision && rightCollision && topCollision && bottomCollision`. -/
def Player.allEdgesBlocked (p : Player) (lvl : Level) (plan : MigrationPlan) : Bool :=
  (p.leftCollision lvl plan).toBool && (p.rightCollision lvl plan).toBool &&
    (p.topCollision lvl plan).toBool && (p.bottomCollision lvl plan).toBool

/-- Source: the block `if (leftCollision && !rightCollision) { ... }` with `push = 200`. -/
def Player.pushRight (p : Player) (leftCollision rightCollision : Vector2f) : Player :=
  if leftCollision.toBool && !rightCollision.toBool then
    { p with
      position := ⟨p.position.x + |leftCollision.x|, p.position.y⟩
      velocity := ⟨(if p.velocity.x < 0 then -p.velocity.x else p.velocity.x) + 200,
        p.velocity.y⟩ }
  else p

/-- Source: the block `if (rightCollision && !leftCollision) { ... }`. -/
def Player.pushLeft (p : Player) (leftCollision rightCollision : Vector2f) : Player :=
  if rightCollision.toBool && !leftCollision.toBool then
    { p with
      position := ⟨p.position.x - |rightCollision.x|, p.position.y⟩
      velocity := ⟨(if p.velocity.x > 0 then -p.velocity.x else p.velocity.x) - 200,
        p.velocity.y⟩ }
  else p

/-- Source: the block `if (topCollision && !bottomCollision) { ... }`. -/
def Player.pushDown (p : Player) (topCollision bottomCollision : Vector2f) : Player :=
  if topCollision.toBool && !bottomCollision.toBool then
    { p with
      position := ⟨p.position.x, p.position.y + |topCollision.y|⟩
      velocity := ⟨p.velocity.x,
        (if p.velocity.y < 0 then -p.velocity.y else p.velocity.y) + 200⟩ }
  else p

/-- Source: the block `if (bottomCollision && !topCollision) { ... }`. -/
def Player.pushUp (p : Player) (topCollision bottomCollision : Vector2f) : Player :=
  if bottomCollision.toBool && !topCollision.toBool then
    { p with
      position := ⟨p.position.x, p.position.y - |bottomCollision.y|⟩
      velocity := ⟨p.velocity.x,
        (if p.velocity.y > 0 then -p.velocity.y else p.velocity.y) - 200⟩ }
  else p

/-- The `else` branch of a sub-step: the four one-sided pushes, then
`position += stepDeltaPos; hitRect = stepHitRect`.  The probes and `stepHitRect` are
computed before any push, as in the source. -/
def Player.commitSubStep (p : Player) (lvl : Level) (plan : MigrationPlan) : Player :=
  let leftCollision := p.leftCollision lvl plan
  let rightCollision := p.rightCollision lvl plan
  let topCollision := p.topCollision lvl plan
  let bottomCollision := p.bottomCollision lvl plan
  let stepHitRect := p.stepHitRect plan
  let p4 := (((p.pushRight leftCollision rightCollision).pushLeft leftCollision
    rightCollision).pushDown topCollision bottomCollision).pushUp topCollision bottomCollision
  { p4 with position := p4.position.add plan.stepDeltaPos, hitRect := stepHitRect }

/-- The loop `for (int i = 0; i < steps; ++i)` of `Player::tryHitRectChange`, with the
number of remaining iterations as first argument.  The result is the player left behind
and the returned `bool`. -/
def migrationLoop (lvl : Level) (plan : MigrationPlan) : ℕ → Player → Player × Bool
  | 0, p => (p, true)
  | n + 1, p =>
    if p.allEdgesBlocked lvl plan then
      ({ p with position := plan.orgPosition.add plan.deltaPos }, false)
    else migrationLoop lvl plan n (p.commitSubStep lvl plan)

/-- Source: `Player::tryHitRectChange`. -/
def Player.tryHitRectChange (p : Player) (lvl : Level) (deltaPos : Vector2f)
    (newHitRect : Rect2f) : Player × Bool :=
  let plan := p.migrationPlan deltaPos newHitRect
  migrationLoop lvl plan plan.steps.toNat p

/-! ## Segment tests of the geometry kernel -/

/-- Source: `isPointInAABB`. -/
def isPointInAABB (p : Vector2f) (rect : Rect2f) : Bool :=
  decide (p.x ≥ rect.x) && decide (p.x ≤ rect.x + rect.w) && decide (p.y ≥ rect.y) &&
    decide (p.y ≤ rect.y + rect.h)

/-- Source: the lambda `orientation` of `checkLineSegmentIntersection`. -/
def orientation (p q r : Vector2f) : ℚ := (q.y - p.y) * (r.x - q.x) - (q.x - p.x) * (r.y - q.y)

/-- Source: `checkLineSegmentIntersection`. -/
def checkLineSegmentIntersection (p1 p2 q1 q2 : Vector2f) : Bool :=
  let o1 := orientation p1 p2 q1
  let o2 := orientation p1 p2 q2
  let o3 := orientation q1 q2 p1
  let o4 := orientation q1 q2 p2
  decide (o1 * o2 < 0) && decide (o3 * o4 < 0)

/-- Source: `isLineSegmentIntersectingAABB`. -/
def isLineSegmentIntersectingAABB (p1 p2 : Vector2f) (rect : Rect2f) : Bool :=
  let topLeft : Vector2f := ⟨rect.x, rect.y⟩
  let topRight : Vector2f := ⟨rect.x + rect.w, rect.y⟩
  let bottomLeft : Vector2f := ⟨rect.x, rect.y + rect.h⟩
  let bottomRight : Vector2f := ⟨rect.x + rect.w, rect.y + rect.h⟩
  checkLineSegmentIntersection p1 p2 topLeft topRight ||
    checkLineSegmentIntersection p1 p2 topRight bottomRight ||
    checkLineSegmentIntersection p1 p2 bottomRight bottomLeft ||
    checkLineSegmentIntersection p1 p2 bottomLeft topLeft

/-- Source: `checkAABBLineCollision` called without `deltaPosition` and `normal`
(both `NULL`), as `EnemyFish::think` does. -/
def checkAABBLineCollision (p1 p2 : Vector2f) (rect : Rect2f) : Bool :=
  if isPointInAABB p1 rect && isPointInAABB p2 rect then true
  else if isLineSegmentIntersectingAABB p1 p2 rect then true
  else false

/-- Source: `closestPointOnLineSegment`. -/
def closestPointOnLineSegment (p a b : Vector2f) : Vector2f :=
  let ab := b.sub a
  let ap := p.sub a
  let t : ℚ := (ap.x * ab.x + ap.y * ab.y) / (ab.x * ab.x + ab.y * ab.y)
  let t : ℚ := max 0 (min 1 t)
  a.add (ab.scale t)

/-- The point `a + s (b - a)` of the line through `a` and `b`, as the specification
parametrises the segment. -/
def segmentPoint (a b : Vector2f) (s : ℚ) : Vector2f :=
  ⟨a.x + s * (b.x - a.x), a.y + s * (b.y - a.y)⟩

/-- The parameter of the specification, `clamp(((p - a) · (b - a)) / |b - a|^2, 0, 1)`. -/
def segmentParameter (p a b : Vector2f) : ℚ :=
  max 0 (min 1 (((p.sub a).dot (b.sub a)) / (b.sub a).magSq))

/-- Squared distance between two points. -/
def distSq (p q : Vector2f) : ℚ := (p.sub q).magSq

/-- The rectangle lies within the level bounds `[0, width] x [0, height]`. -/
@[reducible] def Rect2f.withinLevel (r : Rect2f) (levelWidth levelHeight : ℕ) : Prop :=
  0 ≤ r.x ∧ 0 ≤ r.y ∧ r.x + r.w ≤ levelWidth ∧ r.y + r.h ≤ levelHeight

/-! ## Enemies: the fish -/

/-- Source: `struct ControllerInput`, the fields read by the simulation. -/
structure ControllerInput where
  dir_left : ℚ
  dir_right : ℚ
  dir_up : ℚ
  dir_down : ℚ
  button_a : Bool
  button_b : Bool
deriving DecidableEq

/-- The four movement axes of an input are all released. -/
@[reducible] def ControllerInput.noMovement (i : ControllerInput) : Prop :=
  i.dir_left = 0 ∧ i.dir_right = 0 ∧ i.dir_up = 0 ∧ i.dir_down = 0

/-- The default-initialised `ControllerInput`. -/
def ControllerInput.zero : ControllerInput := ⟨0, 0, 0, 0, false, false⟩

/-- Source: `class Enemy : public Actor`. -/
structure Enemy extends Actor where
  spawnPoint : Vector2f
  lastIdeaTime : ℚ
  input : ControllerInput
deriving DecidableEq

/-- Source: `class EnemyFish : public Enemy`. -/
structure EnemyFish extends Enemy where
  chasingPlayer : Bool
  seesPlayer : Bool
deriving DecidableEq

/-- Source: the constructor `EnemyFish::EnemyFish(Vector2f startPos)` on top of
`Enemy::Enemy(startPos, 742, 444)` and the default member initialisers of `Actor`. -/
def EnemyFish.new (startPos : Vector2f) : EnemyFish :=
  let width : ℚ := 742
  let height : ℚ := 444
  let start : Vector2f := ⟨startPos.x - width / 2, startPos.y - height / 2⟩
  { xRemainder := 0, yRemainder := 0, position := ⟨start.x + 100, start.y⟩, velocity := ⟨0, 0⟩,
    width := width, height := height, hitRect := ⟨150, 42, 468, 374⟩, visible := true,
    isPuffed := false, accConst := 550 * 6, velocityLimit := 2000 * 6, goingSlow := false,
    health := 5, maxHealth := 5, dyingTime := 0, isDead := false, diesOnImpact := false,
    noClip := false, puffingFrames := 0, spawnPoint := start, lastIdeaTime := 0,
    input := ControllerInput.zero, chasingPlayer := false, seesPlayer := false }

/-- Source: `EnemyFish::chase`.  Assigning `true` to a `real32` stores 1. -/
def EnemyFish.chase (f : EnemyFish) (target : Vector2f) (input : ControllerInput) :
    ControllerInput :=
  let hDist := |target.x - f.position.x|
  let vDist := |target.y - f.position.y|
  let i1 : ControllerInput :=
    if target.x < f.position.x then { input with dir_left := 1 }
    else if target.x > f.position.x then { input with dir_right := 1 }
    else input
  let i2 : ControllerInput :=
    if target.y < f.position.y then { i1 with dir_up := 1 }
    else if target.y > f.position.y then { i1 with dir_down := 1 }
    else i1
  if hDist < 200 ∧ vDist > 200 then { i2 with dir_left := 0, dir_right := 0 }
  else if vDist < 200 ∧ hDist > 200 then { i2 with dir_up := 0, dir_down := 0 }
  else i2

/-- The statement `input.dir = !input.dir` on a `real32`: 1 if the value was 0, else 0. -/
def flipDir (d : ℚ) : ℚ := if d = 0 then 1 else 0

/-- Source: the guard `state->play_time_passed - lastIdeaTime > thinking_time` of
`EnemyFish::think`, with `thinking_time = seesPlayer ? 0.03f : 0.8f`. -/
def EnemyFish.reevaluates (f : EnemyFish) (playTime : ℚ) : Bool :=
  decide (playTime - f.lastIdeaTime > (if f.seesPlayer then 3 / 100 else 8 / 10))

/-- Source: `EnemyFish::think`.  `playTime` is `state->play_time_passed`, `player` is
`state->player`.  The test `distToPlayer < seeDistance` is taken on the squares. -/
def EnemyFish.think (f : EnemyFish) (playTime : ℚ) (player : Player) (_time_delta : ℚ) :
    EnemyFish :=
  if f.reevaluates playTime then
    let cleared : ControllerInput :=
      { f.input with dir_left := 0, dir_right := 0, dir_up := 0, dir_down := 0 }
    let f1 : EnemyFish := { f with lastIdeaTime := playTime, input := cleared,
                                   chasingPlayer := false }
    let distSq := (player.position.sub f1.position).magSq
    let seeDistance : ℚ := if f1.seesPlayer then 1800 else 900
    if distSq < seeDistance * seeDistance then
      if !f1.seesPlayer then { f1 with seesPlayer := true }
      else
        let f2 : EnemyFish := { f1 with goingSlow := false }
        if player.isPuffed then
          let playerInTheWay :=
            checkAABBLineCollision f2.getCenter f2.spawnPoint player.getHitbox
          if playerInTheWay then
            let i := f2.chase player.position f2.input
            { f2 with input := { i with dir_left := flipDir i.dir_left,
                                        dir_right := flipDir i.dir_right,
                                        dir_down := flipDir i.dir_down,
                                        dir_up := flipDir i.dir_up } }
          else { f2 with input := f2.chase f2.spawnPoint f2.input }
        else
          let f3 : EnemyFish := { f2 with chasingPlayer := true }
          { f3 with input := f3.chase player.position f3.input }
    else
      if f1.seesPlayer then { f1 with seesPlayer := false }
      else
        let f2 : EnemyFish := { f1 with goingSlow := true }
        { f2 with input := f2.chase f2.spawnPoint f2.input }
  else f

/-! ## Enemies: bubbles and the boss -/

/-- The two operations of the geometry kernel that need a square root or a trigonometric
function, `Vector2f::getNormalized` and `getUnitVectorFromDegrees`.  They are parameters
of the embedding. -/
structure RealOps where
  getNormalized : Vector2f → Vector2f
  getUnitVectorFromDegrees : ℚ → Vector2f

/-- The `Enemy* creator` of a bubble: the boss (`state->boss`) or another enemy. -/
inductive Creator where
  | boss
  | other (index : ℕ)
deriving DecidableEq

/-- Source: `class EnemyBubble : public Enemy`. -/
structure EnemyBubble extends Enemy where
  lifespan : ℚ
  isBig : Bool
  bounced : Bool
  creator : Creator
deriving DecidableEq

/-- Source: the constructor `EnemyBubble::EnemyBubble(startPos, target, creator, speed,
isBig, lifespan)` on top of `Enemy::Enemy`. -/
def EnemyBubble.new (startPos target : Vector2f) (creator : Creator) (speed : ℚ) (isBig : Bool)
    (lifespan : ℚ) : EnemyBubble :=
  let width : ℚ := if isBig then 267 * 3 else 267
  let height : ℚ := if isBig then 203 * 3 else 203
  let start : Vector2f := ⟨startPos.x - width / 2, startPos.y - height / 2⟩
  { xRemainder := 0, yRemainder := 0, position := start, velocity := target.scale speed,
    width := width, height := height,
    hitRect := if isBig then ⟨69, 72, 552, 477⟩ else ⟨23, 24, 184, 159⟩, visible := true,
    isPuffed := false, accConst := 100 * 6, velocityLimit := speed, goingSlow := false,
    health := 1, maxHealth := 1, dyingTime := 0, isDead := false, diesOnImpact := true,
    noClip := false, puffingFrames := 0, spawnPoint := start, lastIdeaTime := 0,
    input := ControllerInput.zero, lifespan := lifespan, isBig := isBig, bounced := false,
    creator := creator }

/-- Source: `enum class BossState`. -/
inductive BossState where
  | Waiting
  | Idle
  | Bubbles
  | BigBubble
  | Sweep
  | Stunned
  | Hurt
deriving DecidableEq

/-- Source: `enum class SweepState`. -/
inductive SweepState where
  | Windup
  | BeforeSlash
  | Slash
  | AfterSlash
  | Bringback
deriving DecidableEq

/-- Source: `enum class BigBubbleState`. -/
inductive BigBubbleState where
  | Windup
  | Shoot
deriving DecidableEq

/-- Source: `class EnemyBoss : public Enemy`.  The render-only angles `clawAngleWave`,
`clawPosYWave` and `smallclawAngle` (sines of the play time) are left out. -/
structure EnemyBoss extends Enemy where
  active : Bool
  shootCooldown : ℚ
  idleDelay : ℚ
  lastStateTime : ℚ
  lastSweepStateTime : ℚ
  lastBBStateTime : ℚ
  cycleCount : ℤ
  bubbleShootCount : ℤ
  clawRotationSpeed : ℚ
  clawAngle : ℚ
  stun_frame : ℤ
  clawFrame : ℤ
  bossState : BossState
  sweepState : SweepState
  bbState : BigBubbleState
deriving DecidableEq

/-- Source: the constructor `EnemyBoss::EnemyBoss(Vector2f startPos)` and the default member
initialisers. -/
def EnemyBoss.new (startPos : Vector2f) : EnemyBoss :=
  let width : ℚ := 1800
  let height : ℚ := 1800
  let start : Vector2f := ⟨startPos.x - width / 2, startPos.y - height / 2⟩
  { xRemainder := 0, yRemainder := 0, position := start, velocity := ⟨0, 0⟩, width := width,
    height := height, hitRect := ⟨272, 639, 1369, 899⟩, visible := true, isPuffed := false,
    accConst := 100 * 6, velocityLimit := 100 * 6, goingSlow := false, health := 30,
    maxHealth := 30, dyingTime := 0, isDead := false, diesOnImpact := false, noClip := false,
    puffingFrames := 0, spawnPoint := start, lastIdeaTime := 0, input := ControllerInput.zero,
    active := false, shootCooldown := 1, idleDelay := 0, lastStateTime := 0,
    lastSweepStateTime := 0, lastBBStateTime := 0, cycleCount := 0, bubbleShootCount := 0,
    clawRotationSpeed := 0, clawAngle := -30, stun_frame := 0, clawFrame := 0,
    bossState := BossState.Waiting, sweepState := SweepState.Windup,
    bbState := BigBubbleState.Windup }

/-- Source: `EnemyBoss::mouthOffset`. -/
def mouthOffset : Vector2f := ⟨864, 1073⟩

/-- Source: `EnemyBoss::buttRect`. -/
def buttRect : Rect2f := ⟨129, 929, 434, 388⟩

/-- Source: `EnemyBoss::shootPeriod`. -/
def shootPeriod : ℚ := 1

/-- The part of `GameState` that the boss reads and writes. -/
structure BossWorld where
  play_time_passed : ℚ
  bossStarted : Bool
  player : Player
  newEnemiesQueue : List EnemyBubble

/-- Source: the conversion `int(x)` of a real, truncating toward zero. -/
def truncInt (q : ℚ) : ℤ := if 0 ≤ q then ⌊q⌋ else ⌈q⌉

/-- Source: `fmod`. -/
def fmodQ (x y : ℚ) : ℚ := x - y * truncInt (x / y)

/-- Source: `EnemyBoss::changeState`. -/
def EnemyBoss.changeState (b : EnemyBoss) (w : BossWorld) (newState : BossState) : EnemyBoss :=
  { b with
    lastStateTime := w.play_time_passed
    bossState := newState
    cycleCount := b.cycleCount + 1
    bubbleShootCount := 0
    sweepState := SweepState.Windup
    lastSweepStateTime := w.play_time_passed
    bbState := BigBubbleState.Windup
    lastBBStateTime := w.play_time_passed
    idleDelay := 1 }

/-- The three `targets` of a first-phase volley in `EnemyBoss::shootBubbles`, after the
`playerIsBehind` mirroring. -/
def volleyTargets (bubbleShootCount : ℤ) (playerIsBehind : Bool) : List Vector2f :=
  let targets : List Vector2f :=
    if Int.tmod bubbleShootCount 2 = 0 then [⟨-1, -1⟩, ⟨-1, 0⟩, ⟨-1, 1⟩]
    else [⟨-924 / 1000, -383 / 1000⟩, ⟨-924 / 1000, 383 / 1000⟩, ⟨0, 0⟩]
  if playerIsBehind then targets.map (fun t => ⟨-t.x, t.y⟩) else targets

/-- Source: `EnemyBoss::shootBubbles`. -/
def EnemyBoss.shootBubbles (ops : RealOps) (b : EnemyBoss) (w : BossWorld) (_time_delta : ℚ) :
    EnemyBoss × BossWorld :=
  let mouthVector := b.position.add mouthOffset
  let bubbleLife : ℚ := 2
  let playerIsBehind : Bool := decide (b.getCenter.x < w.player.getCenter.x)
  let r : EnemyBoss × BossWorld :=
    if b.bubbleShootCount < 8 then
      let bubbleSpeed : ℚ := 3600
      let targets := volleyTargets b.bubbleShootCount playerIsBehind
      let t0 := targets.getD 0 ⟨0, 0⟩
      let t1 := targets.getD 1 ⟨0, 0⟩
      let t2 := targets.getD 2 ⟨0, 0⟩
      let q1 := w.newEnemiesQueue ++
        [EnemyBubble.new mouthVector (ops.getNormalized t0) Creator.boss bubbleSpeed false
          bubbleLife]
      let q2 := q1 ++
        [EnemyBubble.new mouthVector (ops.getNormalized t1) Creator.boss bubbleSpeed false
          bubbleLife]
      let q3 :=
        if t2.toBool then
          q2 ++ [EnemyBubble.new mouthVector (ops.getNormalized t2) Creator.boss bubbleSpeed
            false bubbleLife]
        else q2
      ({ b with shootCooldown := shootPeriod * (1 - (1 / 10) * b.bubbleShootCount) },
        { w with newEnemiesQueue := q3 })
    else if b.bubbleShootCount < 40 then
      let bubbleSpeed : ℚ := 2800
      let step : ℚ := -(Int.tmod (b.bubbleShootCount - 8) 20 : ℤ) * 5 + 10
      let angle1 : ℚ := if playerIsBehind then -45 else 135
      let q3 := w.newEnemiesQueue ++
        [EnemyBubble.new mouthVector (ops.getUnitVectorFromDegrees (angle1 + step)) Creator.boss
            bubbleSpeed false bubbleLife,
          EnemyBubble.new mouthVector (ops.getUnitVectorFromDegrees (angle1 + 45 + step))
            Creator.boss bubbleSpeed false bubbleLife,
          EnemyBubble.new mouthVector (ops.getUnitVectorFromDegrees (angle1 + 90 + step))
            Creator.boss bubbleSpeed false bubbleLife]
      ({ b with shootCooldown := 1 / 10 }, { w with newEnemiesQueue := q3 })
    else (b.changeState w BossState.BigBubble, w)
  ({ r.1 with bubbleShootCount := r.1.bubbleShootCount + 1 }, r.2)

/-- Source: `EnemyBoss::sweepAttack`. -/
def EnemyBoss.sweepAttack (ops : RealOps) (b : EnemyBoss) (w : BossWorld) (time_delta : ℚ) :
    EnemyBoss × BossWorld :=
  let r : EnemyBoss × BossWorld :=
    match b.sweepState with
    | SweepState.Windup =>
      if b.clawAngle < 0 then
        let posDiff := ops.getNormalized (b.getCenter.sub w.player.getCenter)
        ({ b with clawRotationSpeed := 45 },
          { w with player := { w.player with
              velocity := w.player.velocity.add (posDiff.scale 40) } })
      else
        ({ b with clawRotationSpeed := 0, sweepState := SweepState.BeforeSlash,
                  lastSweepStateTime := w.play_time_passed }, w)
    | SweepState.BeforeSlash =>
      let b1 : EnemyBoss := { b with clawRotationSpeed := 0 }
      let timePassed := w.play_time_passed - b1.lastSweepStateTime
      if timePassed > 3 / 10 then
        ({ b1 with sweepState := SweepState.Slash, lastSweepStateTime := w.play_time_passed }, w)
      else if timePassed < 15 / 100 then
        ({ b1 with clawFrame := Int.tmod (truncInt (timePassed / (3 / 100))) 5 }, w)
      else (b1, w)
    | SweepState.Slash =>
      if b.clawAngle > -160 then ({ b with clawRotationSpeed := -600 }, w)
      else
        ({ b with clawRotationSpeed := 0, sweepState := SweepState.AfterSlash,
                  lastSweepStateTime := w.play_time_passed }, w)
    | SweepState.AfterSlash =>
      let b1 : EnemyBoss := { b with clawRotationSpeed := 0 }
      if w.play_time_passed - b1.lastSweepStateTime > 8 / 10 then
        ({ b1 with sweepState := SweepState.Bringback,
                   lastSweepStateTime := w.play_time_passed }, w)
      else (b1, w)
    | SweepState.Bringback =>
      if b.clawAngle < -30 then ({ b with clawRotationSpeed := 150 }, w)
      else
        (({ b with lastSweepStateTime := w.play_time_passed } : EnemyBoss).changeState w
          BossState.Idle, w)
  ({ r.1 with clawAngle := r.1.clawAngle + r.1.clawRotationSpeed * time_delta }, r.2)

/-- Source: `EnemyBoss::bigBubbleAttack`. -/
def EnemyBoss.bigBubbleAttack (ops : RealOps) (b : EnemyBoss) (w : BossWorld)
    (_time_delta : ℚ) : EnemyBoss × BossWorld :=
  let bubbleSpeed : ℚ := 3800
  match b.bbState with
  | BigBubbleState.Windup =>
    if w.play_time_passed - b.lastBBStateTime > 3 then
      ({ b with bbState := BigBubbleState.Shoot, lastBBStateTime := w.play_time_passed }, w)
    else (b, w)
  | BigBubbleState.Shoot =>
    let targetVector := w.player.getCenter.sub b.getCenter
    let q := w.newEnemiesQueue ++
      [EnemyBubble.new (b.position.add mouthOffset) (ops.getNormalized targetVector)
        Creator.boss bubbleSpeed true (3 / 2)]
    let b1 : EnemyBoss := { b with shootCooldown := shootPeriod }
    (b1.changeState w BossState.Idle, { w with newEnemiesQueue := q })

/-- Source: the statement `switch (bossState) { ... }` that ends `EnemyBoss::update`.
`draw` is the value of `rngDist(rng)`, should the branch taken ask for it. -/
def EnemyBoss.updateSwitch (ops : RealOps) (b : EnemyBoss) (w : BossWorld) (draw : ℤ)
    (time_delta : ℚ) : EnemyBoss × BossWorld :=
  match b.bossState with
  | BossState.Waiting =>
    if w.bossStarted then
      ({ b.changeState w BossState.Idle with idleDelay := 2 }, w)
    else (b, w)
  | BossState.Idle =>
    let b1 : EnemyBoss := { b with idleDelay := b.idleDelay - time_delta }
    if b1.idleDelay ≤ 0 then
      if b1.cycleCount < 3 then (b1.changeState w BossState.Bubbles, w)
      else if draw = 1 then (b1.changeState w BossState.Sweep, w)
      else (b1.changeState w BossState.Bubbles, w)
    else (b1, w)
  | BossState.Bubbles =>
    let r : EnemyBoss × BossWorld :=
      if b.shootCooldown ≤ 0 then
        if w.player.isPuffed then
          if draw = 1 then b.shootBubbles ops w time_delta
          else (b.changeState w BossState.Sweep, w)
        else b.shootBubbles ops w time_delta
      else (b, w)
    ({ r.1 with shootCooldown := r.1.shootCooldown - time_delta }, r.2)
  | BossState.BigBubble => b.bigBubbleAttack ops w time_delta
  | BossState.Sweep => b.sweepAttack ops w time_delta
  | BossState.Stunned =>
    if w.play_time_passed - b.lastStateTime > 10 then
      let w1 : BossWorld :=
        if w.player.inButt then
          { w with player := { w.player with
              inButt := false
              visible := true
              position := b.position.add buttRect.getCenter
              velocity := ⟨-5000, 300⟩ } }
        else w
      (b.changeState w1 BossState.Idle, w1)
    else
      let buttBox : Rect2f :=
        ⟨buttRect.x + b.position.x, buttRect.y + b.position.y, buttRect.w, buttRect.h⟩
      let w1 : BossWorld :=
        if !w.player.inButt && buttBox.collides w.player.getHitbox then
          if w.player.isPuffed then
            { w with player := { w.player with velocity := w.player.velocity.neg } }
          else { w with player := { w.player with inButt := true, visible := false } }
        else w
      ({ b with stun_frame := truncInt (fmodQ ((w.play_time_passed - b.lastStateTime) * 10) 5) },
        w1)
  | BossState.Hurt =>
    if w.play_time_passed - b.lastStateTime > 3 then (b.changeState w BossState.Idle, w)
    else (b, w)

/-- What one simulation tick feeds to the boss besides the play time: the `Enemy` part of
the boss as the statements of `EnemyBoss::update` before the `switch` leave it
(`Actor::update` and the contact damage write no other boss field), the rest of the game
state, and the random draw. -/
structure BossTick where
  body : Enemy
  bossStarted : Bool
  player : Player
  newEnemiesQueue : List EnemyBubble
  draw : ℤ

/-- One boss tick at play time `t`. -/
def bossTick (ops : RealOps) (time_delta t : ℚ) (e : BossTick) (b : EnemyBoss) : EnemyBoss :=
  (EnemyBoss.updateSwitch ops { b with toEnemy := e.body }
    ⟨t, e.bossStarted, e.player, e.newEnemiesQueue⟩ e.draw time_delta).1

/-- The boss after `n` ticks of `time_delta`, the first at play time `t` with the inputs
`env 0`, the next at `t + time_delta` with `env 1`, and so on (`playingUpdate` adds
`time_delta` to the play time after every tick). -/
def bossRun (ops : RealOps) (time_delta : ℚ) : ℕ → ℚ → (ℕ → BossTick) → EnemyBoss → EnemyBoss
  | 0, _, _, b => b
  | n + 1, t, env, b =>
    bossRun ops time_delta n (t + time_delta) (fun k => env (k + 1))
      (bossTick ops time_delta t (env 0) b)

/-! ## The actor integration step -/

/-- The library functions of `Actor::update` and of the shrimp that have no exact rational
value (`pow`, `atan2`, `sinf`), next to those of `RealOps`.  They are parameters of the
embedding. -/
structure MathOps extends RealOps where
  pow : ℚ → ℚ → ℚ
  atan2 : ℚ → ℚ → ℚ
  sinf : ℚ → ℚ

/-- Source: macro `Pi32`. -/
def Pi32 : ℚ := 314159265358979 / 100000000000000

/-- The dynamic type of an actor, where the shared code depends on it: the virtual `die()`
and the checks `dynamic_cast<EnemyBoss*>(this)`. -/
inductive ActorKind where
  | player
  | fish
  | jelly
  | shrimp
  | bubble
  | boss
  | other
deriving DecidableEq

/-- The effect of the virtual `die()` on the actor: `Actor::die` (through `Enemy::die` and
`Player::die`) for every kind but the boss, whose `EnemyBoss::die` only asks for the ending
screen. -/
def ActorKind.die (kind : ActorKind) (a : Actor) : Actor :=
  match kind with
  | ActorKind.boss => a
  | _ => a.die

/-- Source: `Actor::hurt`.  `hurterCenter` is `hurter->getCenter()`. -/
def Actor.hurt (ops : RealOps) (kind : ActorKind) (a : Actor) (hurterCenter : Vector2f)
    (damage : ℤ) : Actor :=
  let a1 : Actor := { a with health := a.health - damage }
  let a2 : Actor := if a1.health ≤ 0 then { a1 with dyingTime := 1 } else a1
  if kind ≠ ActorKind.boss then
    let knockAmount : ℚ := 1500
    let knockDir := ops.getNormalized (a2.getCenter.sub hurterCenter)
    { a2 with velocity := knockDir.scale knockAmount }
  else a2

/-- Source: `Player::hurt` (the screen shake and the sound are left out). -/
def Player.hurt (ops : RealOps) (p : Player) (hurterCenter : Vector2f) (damage : ℤ) : Player :=
  let p1 : Player := { p with toActor := p.toActor.hurt ops ActorKind.player hurterCenter damage }
  if !p1.isDying then { p1 with invulTime := 175 / 100 } else p1

/-- Source: the block `if (dyingTime > 0) { ... }` that opens `Actor::update`. -/
def Actor.tickDeath (kind : ActorKind) (a : Actor) (time_delta : ℚ) : Actor :=
  if a.dyingTime > 0 then
    let a1 : Actor := { a with dyingTime := a.dyingTime - time_delta }
    if a1.dyingTime ≤ 0 then kind.die { a1 with dyingTime := 0 } else a1
  else a

/-- Source: `move_x` and `move_y` of `Actor::update`. -/
def Actor.controlAxes (a : Actor) (input : Option ControllerInput) : ℚ × ℚ :=
  match input with
  | some i =>
    if !a.isPuffed && !a.isDying then (i.dir_right - i.dir_left, i.dir_down - i.dir_up)
    else (0, 0)
  | none => (0, 0)

/-- Source: acceleration, drag and dead zone of `Actor::update`
(`water_friction = 0.6f`, `velocity_deadzone = 3.f * 6.f`). -/
def Actor.accelerate (ops : MathOps) (a : Actor) (move : ℚ × ℚ) (time_delta : ℚ) : Actor :=
  let acceleration : Vector2f := ⟨move.1 * a.accConst, move.2 * a.accConst⟩
  let acceleration := if a.goingSlow then acceleration.divide 4 else acceleration
  let v1 := a.velocity.add (acceleration.scale time_delta)
  let v2 := v1.scale (ops.pow (1 - 6 / 10) time_delta)
  let v3 : Vector2f :=
    if move.1 = 0 ∧ move.2 = 0 ∧ v2.magSq < (3 * 6) * (3 * 6) then ⟨0, 0⟩ else v2
  { a with velocity := v3 }

/-- Source: the block "Top limit for velocity" of `Actor::update`, one `if / else if`
chain over the four tests. -/
def Actor.clampVelocity (a : Actor) : Actor :=
  if a.velocity.y < -a.velocityLimit then
    { a with velocity := ⟨a.velocity.x, -a.velocityLimit⟩ }
  else if a.velocity.y > a.velocityLimit then
    { a with velocity := ⟨a.velocity.x, a.velocityLimit⟩ }
  else if a.velocity.x < -a.velocityLimit then
    { a with velocity := ⟨-a.velocityLimit, a.velocity.y⟩ }
  else if a.velocity.x > a.velocityLimit then
    { a with velocity := ⟨a.velocityLimit, a.velocity.y⟩ }
  else a

/-- Source: the lambda that `Actor::update` passes to `moveX`, with the virtual `die()`. -/
def ActorKind.onCollideX (kind : ActorKind) (a : Actor) : Actor :=
  let a1 := if a.diesOnImpact then kind.die a else a
  if a1.isPuffed then { a1 with velocity := ⟨-a1.velocity.x, a1.velocity.y⟩ }
  else { a1 with velocity := ⟨0, a1.velocity.y⟩ }

/-- Source: the lambda that `Actor::update` passes to `moveY`, with the virtual `die()`. -/
def ActorKind.onCollideY (kind : ActorKind) (a : Actor) : Actor :=
  let a1 := if a.diesOnImpact then kind.die a else a
  if a1.isPuffed then { a1 with velocity := ⟨a1.velocity.x, -a1.velocity.y⟩ }
  else { a1 with velocity := ⟨a1.velocity.x, 0⟩ }

/-- The actor as `Actor::update` has it just before "Apply velocity": death countdown,
control, acceleration, drag, dead zone and velocity clamp.  Facing, angle and animation
frame are rendering state and left out. -/
def Actor.beforeMove (ops : MathOps) (kind : ActorKind) (a : Actor) (time_delta : ℚ)
    (input : Option ControllerInput) : Actor :=
  let a1 := a.tickDeath kind time_delta
  ((a1.accelerate ops (a1.controlAxes input) time_delta)).clampVelocity

/-- Source: `Actor::update`.  `blocked` records whether one of the two collision callbacks
ran. -/
def Actor.update (ops : MathOps) (kind : ActorKind) (a : Actor) (solids : List Solid)
    (time_delta : ℚ) (input : Option ControllerInput) : MoveResult :=
  let a1 := a.beforeMove ops kind time_delta input
  let rx := a1.moveX solids (a1.velocity.x * time_delta) (some kind.onCollideX)
  let ry := rx.actor.moveY rx.solids (rx.actor.velocity.y * time_delta) (some kind.onCollideY)
  ⟨ry.actor, ry.solids, rx.blocked || ry.blocked⟩

/-- A predicate on actors that ignores the position and the two remainders. -/
def IgnoresMotion (P : Actor → Prop) : Prop :=
  (∀ (b : Actor) (p : Vector2f), P b → P { b with position := p }) ∧
    (∀ (b : Actor) (r : ℚ), P b → P { b with xRemainder := r }) ∧
    (∀ (b : Actor) (r : ℚ), P b → P { b with yRemainder := r })

/-- The rectangle `hitRect` carried to the position `p`, as `Actor::getHitbox` does. -/
def Rect2f.placedAt (hitRect : Rect2f) (p : Vector2f) : Rect2f :=
  ⟨hitRect.x + p.x, hitRect.y + p.y, hitRect.w, hitRect.h⟩

/-- The level is walled for `hitRect`: every unit step that takes the rectangle from
inside the level bounds to outside them lands on a collidable solid. -/
def Level.walled (lvl : Level) (hitRect : Rect2f) : Prop :=
  ∀ (p : Vector2f) (coord : Axis) (sign : ℤ), sign = 1 ∨ sign = -1 →
    (hitRect.placedAt p).withinLevel lvl.width lvl.height →
    ¬ (hitRect.placedAt (p.add (coord.unit sign))).withinLevel lvl.width lvl.height →
    ∃ s ∈ lvl.solids, s.collidable = true ∧
      (hitRect.placedAt (p.add (coord.unit sign))).collides s.rect = true

/-! ## Species updates: fish, bubble, shrimp -/

/-- The part of `GameState` that `EnemyFish::update` reads and writes. -/
structure FishWorld where
  play_time_passed : ℚ
  player : Player
  solids : List Solid

/-- Source: the argument `speedDiff / hurtLimit` of `hurt`, converted to `int32`, where
`speedDiff` is the magnitude of `v` and `hurtLimit = 1000`: the integer part of
`sqrt(|v|^2) / 1000` is the integer square root of the integer part of `|v|^2 / 1000^2`. -/
def speedDamage (v : Vector2f) : ℤ := (Nat.sqrt ⌊v.magSq / (1000 * 1000)⌋.toNat : ℕ)

/-- Source: the block "Collide with player" of `EnemyFish::update`. -/
def EnemyFish.collideWithPlayer (ops : RealOps) (f : EnemyFish) (player : Player) :
    EnemyFish × Player :=
  if player.invulTime = 0 ∧ player.isDying = false then
    if f.getHitbox.collides player.getHitbox then
      if player.isPuffed = true ∨ player.puffingTime > 0 then
        let diff := f.velocity.sub player.velocity
        if diff.magSq > 1000 * 1000 then
          let hurtActor := f.toActor.hurt ops ActorKind.fish player.getCenter (speedDamage diff)
          ({ f with toActor := hurtActor }, player)
        else (f, player)
      else (f, player.hurt ops f.getCenter 1)
    else (f, player)
  else (f, player)

/-- Source: `EnemyFish::update`.  Its only caller passes `&enemy->input`, so the input
handed to `Actor::update` is the fish's own input, after `think`. -/
def EnemyFish.update (ops : MathOps) (f : EnemyFish) (w : FishWorld) (time_delta : ℚ) :
    EnemyFish × FishWorld :=
  let f1 := f.think w.play_time_passed w.player time_delta
  let r := f1.toActor.update ops ActorKind.fish w.solids time_delta (some f1.input)
  let f2 : EnemyFish := { f1 with toActor := r.actor }
  if f2.dyingTime ≠ 0 then
    ({ f2 with visible := !f2.visible }, { w with solids := r.solids })
  else
    let c := f2.collideWithPlayer ops.toRealOps w.player
    (c.1, { w with solids := r.solids, player := c.2 })

/-- The part of `GameState` that `EnemyBubble::update` reads and writes: the game state of
`BossWorld`, the solids, the boss (`state->boss`), and the enemy that `creator` points to
when it is not the boss. -/
structure BubbleWorld where
  game : BossWorld
  solids : List Solid
  boss : EnemyBoss
  creatorEnemy : Enemy

/-- Source: `creator->getHitbox()` in `EnemyBubble::update`. -/
def EnemyBubble.creatorHitbox (b : EnemyBubble) (w : BubbleWorld) : Rect2f :=
  match b.creator with
  | Creator.boss => w.boss.getHitbox
  | Creator.other _ => w.creatorEnemy.getHitbox

/-- Source: `die()` on a bubble (`Enemy::die`, that is `Actor::die`). -/
def EnemyBubble.die (b : EnemyBubble) : EnemyBubble := { b with toActor := b.toActor.die }

/-- Round to the nearest integer, a tie to the even neighbour (the IEEE 754 default). -/
def roundHalfEven (x : ℚ) : ℤ :=
  if x - ⌊x⌋ < 1 / 2 then ⌊x⌋
  else if 1 / 2 < x - ⌊x⌋ then ⌊x⌋ + 1
  else if ⌊x⌋ % 2 = 0 then ⌊x⌋ else ⌊x⌋ + 1

/-- Two to the power `e`, for every integer `e`. -/
def pow2 (e : ℤ) : ℚ :=
  if 0 ≤ e then ((2 ^ e.toNat : ℕ) : ℚ) else 1 / ((2 ^ (-e).toNat : ℕ) : ℚ)

/-- The binary logarithm of `n`, rounded down, by at most `fuel` halvings (`fuel = n` is
always enough); 0 for `n = 0`. -/
def log2Floor : ℕ → ℕ → ℕ
  | 0, _ => 0
  | fuel + 1, n => if 2 ≤ n then log2Floor fuel (n / 2) + 1 else 0

/-- The binary exponent of a positive rational `q`: the `e` with `2 ^ e ≤ q < 2 ^ (e + 1)`.
With `a` and `b` the binary logarithms of numerator and denominator, rounded down, `e` is
`a - b` or `a - b - 1`. -/
def binaryExponent (q : ℚ) : ℤ :=
  let e : ℤ := (log2Floor q.num.toNat q.num.toNat : ℤ) - (log2Floor q.den q.den : ℤ)
  if pow2 e ≤ q then e else e - 1

/-- Source: `using real32 = float;`.  The value a `real32` variable holds after the exact
result `q` of an operation is stored in it: `q` rounded to the nearest number with a 24 bit
significand, ties to even, with the subnormal spacing `2 ^ (-149)` below `2 ^ (-126)`.
Results beyond the largest finite `float` are not turned into an infinity; no quantity of
this development gets near it. -/
def real32 (q : ℚ) : ℚ :=
  if q = 0 then 0
  else
    let ulp := pow2 (max (binaryExponent |q|) (-126) - 23)
    if q < 0 then -((roundHalfEven (-q / ulp) : ℤ) : ℚ) * ulp
    else ((roundHalfEven (q / ulp) : ℤ) : ℚ) * ulp

/-- Source: the first two statements of `EnemyBubble::update`: `Actor::update` with the
bubble's own input, then `lifespan -= time_delta` on the `real32` member `lifespan`, which
stores the difference rounded to single precision.  The flag tells whether a collision
callback ran. -/
def EnemyBubble.integrate (ops : MathOps) (b : EnemyBubble) (w : BubbleWorld)
    (time_delta : ℚ) : (EnemyBubble × BubbleWorld) × Bool :=
  let r := b.toActor.update ops ActorKind.bubble w.solids time_delta (some b.input)
  (({ b with toActor := r.actor, lifespan := real32 (b.lifespan - time_delta) },
    { w with solids := r.solids }), r.blocked)

/-- Source: the block "Collide with player" of `EnemyBubble::update`. -/
def EnemyBubble.collideWithPlayer (ops : RealOps) (b : EnemyBubble) (player : Player) :
    EnemyBubble × Player :=
  if b.bounced = false ∧ player.invulTime = 0 ∧ player.isDying = false then
    if b.getHitbox.collides player.getHitbox then
      if player.puffingFrames > 0 then
        let b1 : EnemyBubble := { b with velocity := b.velocity.neg, bounced := true }
        if b.isBig then (b1, { player with isPuffed := false, puffCooldown := 0 })
        else (b1, player)
      else
        if player.isPuffed = false ∨ b.isBig = true then
          ((b.die), player.hurt ops b.getCenter 1)
        else (b.die, player)
    else (b, player)
  else (b, player)

/-- Source: the block `if (bounced && creator->getHitbox().collides(getHitbox())) { ... }`
of `EnemyBubble::update`. -/
def EnemyBubble.collideWithCreator (ops : RealOps) (b : EnemyBubble) (w : BubbleWorld) :
    EnemyBubble × BubbleWorld :=
  if b.bounced = true ∧ (b.creatorHitbox w).collides b.getHitbox = true then
    let w1 : BubbleWorld :=
      match b.creator with
      | Creator.boss =>
        if b.isBig then { w with boss := w.boss.changeState w.game BossState.Stunned } else w
      | Creator.other _ =>
        let hurtActor := w.creatorEnemy.toActor.hurt ops ActorKind.other b.getCenter 1
        { w with creatorEnemy := { w.creatorEnemy with toActor := hurtActor } }
    (b.die, w1)
  else (b, w)

/-- The bubble and the world just before the creator test of `EnemyBubble::update`. -/
def EnemyBubble.beforeCreatorTest (ops : MathOps) (b : EnemyBubble) (w : BubbleWorld)
    (time_delta : ℚ) : EnemyBubble × BubbleWorld :=
  let i := (b.integrate ops w time_delta).1
  let c := i.1.collideWithPlayer ops.toRealOps i.2.game.player
  (c.1, { i.2 with game := { i.2.game with player := c.2 } })

/-- Source: `EnemyBubble::update`. -/
def EnemyBubble.update (ops : MathOps) (b : EnemyBubble) (w : BubbleWorld) (time_delta : ℚ) :
    EnemyBubble × BubbleWorld :=
  let m := b.beforeCreatorTest ops w time_delta
  let c := m.1.collideWithCreator ops.toRealOps m.2
  if c.1.lifespan ≤ 0 then (c.1.die, c.2) else c

/-- Source: the guard of the block "Collide with player" of `EnemyBubble::update`,
`!bounced && !state->player.invulTime && !state->player.isDying()` together with
`getHitbox().collides(state->player.getHitbox())`: whether the block acts on the bubble. -/
def EnemyBubble.touchesPlayer (b : EnemyBubble) (player : Player) : Bool :=
  (!b.bounced && decide (player.invulTime = 0) && !player.isDying) &&
    b.getHitbox.collides player.getHitbox

/-- Source: the guard `bounced && creator->getHitbox().collides(getHitbox())` of
`EnemyBubble::update`: whether the creator block acts on the bubble. -/
def EnemyBubble.touchesCreator (b : EnemyBubble) (w : BubbleWorld) : Bool :=
  b.bounced && (b.creatorHitbox w).collides b.getHitbox

/-- No solid, player or creator contact in the tick that `EnemyBubble::update` runs from
`b` in `w`: no collision callback runs in `Actor::update`, and with the hitbox the bubble
has after it neither the player block nor the creator block of the update acts.  A bubble
that has not bounced may overlap its creator, as every bubble does when it is shot. -/
def EnemyBubble.noContact (ops : MathOps) (b : EnemyBubble) (w : BubbleWorld)
    (time_delta : ℚ) : Bool :=
  !(b.integrate ops w time_delta).2 &&
    !(b.integrate ops w time_delta).1.1.touchesPlayer w.game.player &&
    !(b.integrate ops w time_delta).1.1.touchesCreator w

/-- The bubble after the ticks of the list, each with its duration and its world. -/
def bubbleRun (ops : MathOps) : List (ℚ × BubbleWorld) → EnemyBubble → EnemyBubble
  | [], b => b
  | tick :: rest, b => bubbleRun ops rest (b.update ops tick.2 tick.1).1

/-- Every tick of the list has positive duration and runs without contact. -/
def quietTicks (ops : MathOps) : List (ℚ × BubbleWorld) → EnemyBubble → Bool
  | [], _ => true
  | tick :: rest, b =>
    decide (0 < tick.1) && b.noContact ops tick.2 tick.1 &&
      quietTicks ops rest (b.update ops tick.2 tick.1).1

/-- Cumulated duration of the ticks. -/
def totalTime (ticks : List (ℚ × BubbleWorld)) : ℚ := (ticks.map (fun t => t.1)).sum

/-- Source: `lifespan -= time_delta` of `EnemyBubble::update`, once per tick of the list:
the value of the `real32` member `lifespan` after the ticks, started at `lifespan`. -/
def lifespanCountdown : List (ℚ × BubbleWorld) → ℚ → ℚ
  | [], lifespan => lifespan
  | tick :: rest, lifespan => lifespanCountdown rest (real32 (lifespan - tick.1))

/-- Every subtraction of the countdown is exact: the difference is a `real32` value. -/
def exactCountdown : List (ℚ × BubbleWorld) → ℚ → Bool
  | [], _ => true
  | tick :: rest, lifespan =>
    decide (real32 (lifespan - tick.1) = lifespan - tick.1) &&
      exactCountdown rest (lifespan - tick.1)

/-- Source: `class EnemyShrimp : public Enemy`.  `angle` is `Actor::angle`, which
`Actor::update` leaves alone for a shrimp and `think` steers. -/
structure EnemyShrimp extends Enemy where
  angle : ℚ
  currentClawFrame : ℕ
  targetingPlayer : Bool
  vigilant : Bool
  waveTimer : ℚ
  shootCooldown : ℚ
  claw_offset : Vector2f
  isInverted : Bool
deriving DecidableEq

/-- Source: the constructor `EnemyShrimp::EnemyShrimp(Vector2f startPos, bool isInverted)`
on top of `Enemy::Enemy(startPos, 353, 445)` and the default member initialisers. -/
def EnemyShrimp.new (startPos : Vector2f) (isInverted : Bool) : EnemyShrimp :=
  let width : ℚ := 353
  let height : ℚ := 445
  let start : Vector2f := ⟨startPos.x - width / 2, startPos.y - height / 2⟩
  { xRemainder := 0, yRemainder := 0, position := start, velocity := ⟨0, 0⟩, width := width,
    height := height,
    hitRect := if isInverted then ⟨67, 0, 203, 153⟩ else ⟨78, 293, 193, 143⟩,
    visible := true, isPuffed := false, accConst := 100 * 6, velocityLimit := 100 * 6,
    goingSlow := false, health := 1, maxHealth := 1, dyingTime := 0, isDead := false,
    diesOnImpact := false, noClip := false, puffingFrames := 0, spawnPoint := start,
    lastIdeaTime := 0, input := ControllerInput.zero, angle := 0, currentClawFrame := 0,
    targetingPlayer := false, vigilant := false, waveTimer := 0, shootCooldown := 18 / 10,
    claw_offset := if isInverted then ⟨189, 148⟩ else ⟨209, 305⟩, isInverted := isInverted }

/-- Source: the guard `state->play_time_passed - lastIdeaTime > thinking_time` of
`EnemyShrimp::think`, with `thinking_time = vigilant ? 0.03f : 0.75f`. -/
def EnemyShrimp.reevaluates (s : EnemyShrimp) (playTime : ℚ) : Bool :=
  decide (playTime - s.lastIdeaTime > (if s.vigilant then 3 / 100 else 75 / 100))

/-- Source: the idle branch of `EnemyShrimp::think`, taken when the player is out of range
and the shrimp is not targeting. -/
def EnemyShrimp.idleSway (ops : MathOps) (s : EnemyShrimp) (time_delta : ℚ) : EnemyShrimp :=
  if s.vigilant then
    if |s.angle| > 1 then { s with angle := s.angle + (-s.angle) * (2 / 100) }
    else { s with vigilant := false }
  else
    let wavePeriod : ℚ := 2
    let waveAmount : ℚ := 10
    let waveTimer := fmodQ (s.waveTimer + time_delta) wavePeriod
    { s with waveTimer := waveTimer,
             angle := waveAmount * ops.sinf (2 * Pi32 * (waveTimer / wavePeriod)) }

/-- Source: `EnemyShrimp::think`.  `playTime` is `state->play_time_passed`, `player` is
`state->player`.  The test `distToPlayer < seeDistance` is taken on the squares. -/
def EnemyShrimp.think (ops : MathOps) (s : EnemyShrimp) (playTime : ℚ) (player : Player)
    (time_delta : ℚ) : EnemyShrimp :=
  if s.reevaluates playTime then
    let s1 : EnemyShrimp := { s with input := { s.input with button_b := false } }
    let targetVector := player.getCenter.sub s1.getCenter
    let seeDistance : ℚ := if s1.targetingPlayer then 1600 else 800
    if targetVector.magSq < seeDistance * seeDistance then
      if !s1.targetingPlayer then { s1 with targetingPlayer := true, vigilant := true }
      else
        { s1 with angle := ops.atan2 targetVector.y targetVector.x * (180 / Pi32) + 90,
                  input := { s1.input with button_b := true } }
    else
      if s1.targetingPlayer then { s1 with targetingPlayer := false }
      else s1.idleSway ops time_delta
  else s

/-- Tick `m` of the run takes the boss out of `Idle`: it is in `Idle` after `m` ticks and
in another state after `m + 1`. -/
def idleExitAt (ops : RealOps) (time_delta t : ℚ) (env : ℕ → BossTick) (b : EnemyBoss)
    (m : ℕ) : Prop :=
  (bossRun ops time_delta m t env b).bossState = BossState.Idle ∧
    (bossRun ops time_delta (m + 1) t env b).bossState ≠ BossState.Idle

/-! ## The boss update and the puff attack -/

/-- The cosine and sine of `rotatePoint` (`std::cos`, `std::sin`), next to the functions
of `MathOps`.  They are parameters of the embedding. -/
structure TrigOps extends MathOps where
  cos : ℚ → ℚ
  sin : ℚ → ℚ

/-- Source: macro `M_PI`. -/
def M_PI : ℚ := 314159265358979323846 / 100000000000000000000

/-- Source: `rotatePoint`. -/
def rotatePoint (ops : TrigOps) (point pivot : Vector2f) (angleInDegrees : ℚ) : Vector2f :=
  let angleInRadians := angleInDegrees * M_PI / 180
  let translatedX := point.x - pivot.x
  let translatedY := point.y - pivot.y
  let rotatedX := translatedX * ops.cos angleInRadians - translatedY * ops.sin angleInRadians
  let rotatedY := translatedX * ops.sin angleInRadians + translatedY * ops.cos angleInRadians
  ⟨rotatedX + pivot.x, rotatedY + pivot.y⟩

/-- Source: `EnemyBoss::clawHitRects`. -/
def clawHitRects : List Rect2f :=
  [⟨673, 215, 548, 570⟩, ⟨699, 702, 441, 305⟩, ⟨765, 1014, 298, 260⟩]

/-- Source: `EnemyBoss::claw_normal_offset`. -/
def claw_normal_offset : Vector2f := ⟨-63, -493⟩

/-- Source: `EnemyBoss::claw_joint_offset`. -/
def claw_joint_offset : Vector2f := ⟨898, 1464⟩

/-- Source: the assignment `clawAngleWave = 3.f * sinf(2 * Pi32 * fmod(play_time_passed, 4.f)/4.f)`
that `EnemyBoss::update` runs before the contact test. -/
def clawAngleWave (ops : TrigOps) (playTime : ℚ) : ℚ :=
  3 * ops.sinf (2 * Pi32 * fmodQ playTime 4 / 4)

/-- Source: the body of the loop `for (Rect2f rect : clawHitRects)` of `EnemyBoss::update`
up to the collision test: the claw rectangle carried to its rotated centre. -/
def EnemyBoss.clawBox (ops : TrigOps) (b : EnemyBoss) (playTime : ℚ) (rect : Rect2f) : Rect2f :=
  let center := rect.getCenter
  let rotated := rotatePoint ops
    ⟨center.x + claw_normal_offset.x + b.position.x, center.y + claw_normal_offset.y + b.position.y⟩
    ⟨claw_joint_offset.x + b.position.x, claw_joint_offset.y + b.position.y⟩
    ((b.clawAngle + clawAngleWave ops playTime) * (75 / 100))
  ⟨rotated.x - rect.w / 2, rotated.y - rect.h / 2, rect.w, rect.h⟩

/-- Source: one iteration of the loop over `clawHitRects`: `playerHitbox` was taken before
the loop, the player is the one the previous iterations left. -/
def EnemyBoss.clawStrike (ops : TrigOps) (b : EnemyBoss) (playTime : ℚ) (playerHitbox : Rect2f)
    (player : Player) (rect : Rect2f) : Player :=
  if (b.clawBox ops playTime rect).collides playerHitbox then
    player.hurt ops.toRealOps b.getCenter 1
  else player

/-- Source: the contact block of `EnemyBoss::update`, between `Actor::update` and the
`switch`. -/
def EnemyBoss.contactDamage (ops : TrigOps) (b : EnemyBoss) (w : BossWorld) : BossWorld :=
  if w.player.isDying = false ∧ w.player.invulTime = 0 ∧ b.bossState ≠ BossState.Stunned ∧
      b.bossState ≠ BossState.Hurt then
    let playerHitbox := w.player.getHitbox
    if b.getHitbox.collides playerHitbox then
      { w with player := w.player.hurt ops.toRealOps b.getCenter 1 }
    else
      { w with player :=
          clawHitRects.foldl (b.clawStrike ops w.play_time_passed playerHitbox) w.player }
  else w

/-- Source: `EnemyBoss::update`.  Its caller passes `&enemy->input`; `draw` is the value of
`rngDist(rng)`, should the `switch` ask for it. -/
def EnemyBoss.update (ops : TrigOps) (b : EnemyBoss) (w : BossWorld) (solids : List Solid)
    (draw : ℤ) (time_delta : ℚ) : (EnemyBoss × BossWorld) × List Solid :=
  let r := b.toActor.update ops.toMathOps ActorKind.boss solids time_delta (some b.input)
  let b1 : EnemyBoss := { b with toActor := r.actor }
  let w1 := b1.contactDamage ops w
  (b1.updateSwitch ops.toRealOps w1 draw time_delta, r.solids)

/-- The part of `GameState` that `Player::puffUp` reads and writes besides the player:
the play time, the current level and `state->boss` (null when the level has no boss). -/
structure PuffWorld where
  play_time_passed : ℚ
  level : Level
  boss : Option EnemyBoss

/-- Source: `Player::puffingTimeStep`. -/
def puffingTimeStep : ℚ := 5 / 100

/-- Source: `Player::puffMaxCooldown`. -/
def puffMaxCooldown : ℚ := 2

/-- Source: `Player::resetPuffCooldown`. -/
def Player.resetPuffCooldown (p : Player) : Player :=
  { p with puffCooldown := if p.puffingFrames < 0 then puffMaxCooldown else puffMaxCooldown / 2 }

/-- Source: the branch `if (inButt && state->boss) { ... }` of `Player::puffUp`.
`changeState` reads the play time only. -/
def Player.buttAttack (ops : RealOps) (p : Player) (w : PuffWorld) (boss : EnemyBoss) :
    Player × PuffWorld :=
  let hurtActor := boss.toActor.hurt ops ActorKind.boss p.getCenter 10
  let hurtBoss : EnemyBoss := { boss with toActor := hurtActor }
  let p1 : Player :=
    { p with inButt := false, visible := true,
             position := hurtBoss.position.add buttRect.getCenter, velocity := ⟨-5000, 300⟩ }
  (p1, { w with boss := some (hurtBoss.changeState ⟨w.play_time_passed, false, p1, []⟩
    BossState.Hurt) })

/-- Source: the `else` branch of `Player::puffUp`, the start of an inflation. -/
def Player.startPuffing (p : Player) (w : PuffWorld) : Player :=
  let p1 : Player :=
    { p with puffingTime := 3 * puffingTimeStep, puffingFrames := 2, width := puffedSize.x,
             height := puffedSize.y }
  let r := p1.tryHitRectChange w.level puffOffset.neg (hitRects 1)
  if r.2 then r.1 else { r.1 with puffingFrames := -1, puffingTime := 2 * puffingTimeStep }

/-- Source: `Player::puffUp`. -/
def Player.puffUp (ops : RealOps) (p : Player) (w : PuffWorld) : Player × PuffWorld :=
  let r : Player × PuffWorld :=
    match (if p.inButt then w.boss else none) with
    | some boss => p.buttAttack ops w boss
    | none => (p.startPuffing w, w)
  (r.1.resetPuffCooldown, r.2)

/-- The player after the four one-sided pushes of a sub-step of `Player::tryHitRectChange`,
before `position += stepDeltaPos; hitRect = stepHitRect`. -/
def Player.afterPushes (p : Player) (lvl : Level) (plan : MigrationPlan) : Player :=
  (((p.pushRight (p.leftCollision lvl plan) (p.rightCollision lvl plan)).pushLeft
    (p.leftCollision lvl plan) (p.rightCollision lvl plan)).pushDown (p.topCollision lvl plan)
    (p.bottomCollision lvl plan)).pushUp (p.topCollision lvl plan) (p.bottomCollision lvl plan)

/-! ## The actor bookkeeping of `playingUpdate` -/

/-- An entry of `state->enemies` or of `state->newEnemiesQueue`: the address of the object
that the `unique_ptr` owns, and the object. -/
structure EnemySlot where
  addr : ℕ
  body : Enemy

/-- An entry of `state->AllActors` (an `Actor*`): an enemy, by its address, or one of the
other actors (player, key, door, heart, grampa, decors, diagonals, buttons). -/
inductive ActorRef where
  | enemy (addr : ℕ)
  | other (index : ℕ)
deriving DecidableEq

/-- The containers of `GameState` that `playingUpdate` keeps in step, with two ghost
fields: `nextAddr`, a bound above which no object has been allocated yet, and the logs
`called` (addresses of the enemies that received `think` and `update` in this tick) and
`created` (addresses of the enemies constructed in this tick). -/
structure Roster where
  enemies : List EnemySlot
  AllActors : List ActorRef
  newEnemiesQueue : List EnemySlot
  nextAddr : ℕ
  called : List ℕ
  created : List ℕ

/-- What the virtual calls of a tick do, as far as the bookkeeping can see it.  `act i`
is `think` followed by `update` of the enemy at index `i` of `enemies`: from the objects of
all enemies (a call may write to other enemies through pointers, as a bubble does to its
creator) it gives the objects afterwards and the objects it constructs and queues.
`onCamera` is the test `getHitbox().collides(extendedCamera)`.  `before` and `after` are
the writes to enemy objects by the updates that run before the enemy loop (the player) and
after it (decors, diagonals, buttons, key, door, heart, grampa); none of these calls
touches `enemies`, `AllActors` or `newEnemiesQueue` otherwise. -/
structure Behaviour where
  act : ℕ → List Enemy → List Enemy × List Enemy
  onCamera : Enemy → Bool
  before : List Enemy → List Enemy
  after : List Enemy → List Enemy

/-- The objects of `enemies` overwritten in place: entry `j` takes the object at index `j`
of `bodies`; the addresses and the length of the vector do not change. -/
def writeBodies : List EnemySlot → List Enemy → List EnemySlot
  | [], _ => []
  | s :: rest, [] => s :: rest
  | s :: rest, e :: bodies => ⟨s.addr, e⟩ :: writeBodies rest bodies

/-- The roster after a call that wrote to the enemy objects: the vector `enemies` with the
objects `bodies` in place of the old ones. -/
def Roster.withBodies (r : Roster) (bodies : List Enemy) : Roster :=
  { r with enemies := writeBodies r.enemies bodies }

/-- The objects of the enemy vector, in order. -/
def Roster.bodies (r : Roster) : List Enemy := r.enemies.map fun e => e.body

/-- Source: `state->newEnemiesQueue.push_back(std::make_unique<...>(...))`, once for every
object of the list: each new object gets an address that is not in use. -/
def Roster.enqueue (r : Roster) : List Enemy → Roster
  | [] => r
  | e :: rest =>
    Roster.enqueue
      { r with newEnemiesQueue := r.newEnemiesQueue ++ [⟨r.nextAddr, e⟩],
               nextAddr := r.nextAddr + 1, created := r.created ++ [r.nextAddr] } rest

/-- Source: the body of the loop `for (auto& enemy : state->enemies)` of `playingUpdate`,
for the enemy at index `i`. -/
def Roster.updateEnemy (beh : Behaviour) (r : Roster) (i : ℕ) : Roster :=
  match r.enemies.get? i with
  | none => r
  | some s =>
    if !s.body.isDead && beh.onCamera s.body then
      let out := beh.act i r.bodies
      Roster.enqueue { r.withBodies out.1 with called := r.called ++ [s.addr] } out.2
    else r

/-- Source: the loop `for (auto& enemy : state->enemies)` of `playingUpdate`. -/
def Roster.updateEnemies (beh : Behaviour) (r : Roster) : Roster :=
  (List.range r.enemies.length).foldl (Roster.updateEnemy beh) r

/-- Source: `deleteFromVector`, instantiated at `Actor*`: erase the first occurrence. -/
def deleteActorFromVector : List ActorRef → ActorRef → List ActorRef
  | [], _ => []
  | a :: rest, valueToRemove =>
    if a = valueToRemove then rest else a :: deleteActorFromVector rest valueToRemove

/-- Source: the body of the loop "Clean dead bodies" for the index `i`. -/
def Roster.cleanAt (r : Roster) (i : ℕ) : Roster :=
  match r.enemies.get? i with
  | none => r
  | some s =>
    if s.body.isDead then
      { r with AllActors := deleteActorFromVector r.AllActors (ActorRef.enemy s.addr),
               enemies := r.enemies.eraseIdx i }
    else r

/-- Source: the loop `for (int32 i = state->enemies.size()-1; i >= 0; i--)`, with the number
of indices still to visit as first argument. -/
def Roster.cleanLoop : ℕ → Roster → Roster
  | 0, r => r
  | i + 1, r => Roster.cleanLoop i (r.cleanAt i)

/-- Source: the block "Clean dead bodies" of `playingUpdate`. -/
def Roster.cleanDead (r : Roster) : Roster := Roster.cleanLoop r.enemies.length r

/-- Source: the loop `for (auto& enemy : state->newEnemiesQueue)` of the block "Add queued
enemies". -/
def Roster.pushQueued (r : Roster) : List EnemySlot → Roster
  | [] => r
  | s :: rest =>
    Roster.pushQueued
      { r with AllActors := r.AllActors ++ [ActorRef.enemy s.addr],
               enemies := r.enemies ++ [s] } rest

/-- Source: the block "Add queued enemies" of `playingUpdate`. -/
def Roster.addQueued (r : Roster) : Roster :=
  if r.newEnemiesQueue.length > 0 then
    { r.pushQueued r.newEnemiesQueue with newEnemiesQueue := [] }
  else r

/-- Source: `playingUpdate` on a tick that is not paused, restricted to the containers:
the player update, the enemy loop, the other updates, the cleaning of dead enemies and the
merge of the queue.  The logs start empty. -/
def Roster.playingUpdate (beh : Behaviour) (r : Roster) : Roster :=
  let r0 : Roster := { r with called := [], created := [] }
  let r1 := r0.withBodies (beh.before r0.bodies)
  let r2 := r1.updateEnemies beh
  let r3 := r2.withBodies (beh.after r2.bodies)
  r3.cleanDead.addQueued

/-- The addresses of the entries of a list of slots. -/
def addrs (l : List EnemySlot) : List ℕ := l.map fun s => s.addr

/-- The enemy entries of `AllActors` are exactly the members of `enemies`, each once. -/
def Roster.inSync (r : Roster) : Prop :=
  (addrs r.enemies).Nodup ∧
    ∀ a : ℕ, r.AllActors.count (ActorRef.enemy a) = (addrs r.enemies).count a

/-- The state of the containers at the start of a tick: the allocator bound is above every
address in use, the queued objects are distinct from each other and from the enemies, and
no queued enemy is dead (an enemy in the queue has not been updated yet). -/
def Roster.wellFormed (r : Roster) : Prop :=
  (∀ a ∈ addrs r.enemies ++ addrs r.newEnemiesQueue, a < r.nextAddr) ∧
    (addrs r.enemies ++ addrs r.newEnemiesQueue).Nodup ∧
    ∀ s ∈ r.newEnemiesQueue, s.body.isDead = false

/-- The containers `r` in the course of the enemy loop of a tick that began in `r0`: the
enemy vector holds the same addresses, `AllActors` is untouched, only enemies of the vector
have been called, the objects created have fresh addresses and make up the tail of the
queue, and nothing queued is dead. -/
def Roster.midTick (r0 r : Roster) : Prop :=
  addrs r.enemies = addrs r0.enemies ∧ r.AllActors = r0.AllActors ∧
    (∀ a ∈ r.called, a ∈ addrs r0.enemies) ∧
    (∀ a ∈ r.created, r0.nextAddr ≤ a ∧ a < r.nextAddr) ∧
    r0.nextAddr ≤ r.nextAddr ∧
    addrs r.newEnemiesQueue = addrs r0.newEnemiesQueue ++ r.created ∧
    r.created.Nodup ∧
    ∀ s ∈ r.newEnemiesQueue, s.body.isDead = false

/-- Every object an enemy constructs is alive, as every constructor leaves it
(`bool isDead = false`). -/
def Behaviour.createsAlive (beh : Behaviour) : Prop :=
  ∀ (i : ℕ) (bodies : List Enemy), ∀ e ∈ (beh.act i bodies).2, e.isDead = false

/-- The boss reaches `Idle` after finitely many ticks from play time `t`, whatever the
inputs of the ticks are. -/
def ReachesIdle (ops : RealOps) (time_delta t : ℚ) (b : EnemyBoss) : Prop :=
  ∀ env : ℕ → BossTick, ∃ n, (bossRun ops time_delta n t env b).bossState = BossState.Idle

/-! ## Concrete scenes used to exercise the definitions -/

/-- A generic deflated actor with a 10 by 10 hitbox at the origin. -/
def wallActor : Actor :=
  { xRemainder := 0, yRemainder := 0, position := ⟨0, 0⟩, velocity := ⟨150, 0⟩, width := 10,
    height := 10, hitRect := ⟨0, 0, 10, 10⟩, visible := true, isPuffed := false, accConst := 0,
    velocityLimit := 6000, goingSlow := false, health := 3, maxHealth := 3, dyingTime := 0,
    isDead := false, diesOnImpact := false, noClip := false, puffingFrames := 0 }

/-- An inflated actor moving right at speed 2000, with a 10 by 10 hitbox at the origin. -/
def tunnelActor : Actor :=
  { xRemainder := 0, yRemainder := 0, position := ⟨0, 0⟩, velocity := ⟨2000, 0⟩, width := 10,
    height := 10, hitRect := ⟨0, 0, 10, 10⟩, visible := true, isPuffed := true, accConst := 0,
    velocityLimit := 6000, goingSlow := false, health := 3, maxHealth := 3, dyingTime := 0,
    isDead := false, diesOnImpact := false, noClip := false, puffingFrames := 0 }

/-- The actor `tunnelActor` deflated, at the same speed 2000. -/
def deflatedActor : Actor := { tunnelActor with isPuffed := false }

/-- The actor `tunnelActor` not yet inflated, in the first frame of an inflation. -/
def inflatingActor : Actor := { tunnelActor with isPuffed := false, puffingFrames := 1 }

/-- The actor `tunnelActor`, inflated, at speed 1200, the threshold itself. -/
def slowActor : Actor := { tunnelActor with velocity := ⟨1200, 0⟩ }

/-- A breakable tile touching the right edge of `tunnelActor`. -/
def tunnelBlock : Solid := ⟨⟨10, 0⟩, 5, 5, true, true⟩

/-- An unbreakable tile directly below `tunnelBlock`. -/
def tunnelWall : Solid := ⟨⟨10, 5⟩, 5, 5, true, false⟩

/-- A deflated 10 by 10 player at (100, 100). -/
def smallPlayer : Player :=
  { xRemainder := 0, yRemainder := 0, position := ⟨100, 100⟩, velocity := ⟨0, 0⟩, width := 10,
    height := 10, hitRect := ⟨0, 0, 10, 10⟩, visible := true, isPuffed := false, accConst := 3600,
    velocityLimit := 6000, goingSlow := false, health := 3, maxHealth := 3, dyingTime := 0,
    isDead := false, diesOnImpact := false, noClip := false, puffingFrames := 0,
    puffingTime := 0, puffCooldown := 0, invulTime := 0, inButt := false }

/-- A 1000 by 1000 level with three tiles placed so that a 40 by 40 box at (100, 100) is
free while a 70 by 70 box there touches tiles with all four edges. -/
def pocketLevel : Level :=
  { solids := [⟨⟨95, 150⟩, 10, 10, true, false⟩, ⟨⟨150, 95⟩, 10, 10, true, false⟩,
      ⟨⟨165, 165⟩, 10, 10, true, false⟩]
    width := 1000
    height := 1000 }

/-- An empty 1000 by 1000 level. -/
def openLevel : Level := { solids := [], width := 1000, height := 1000 }

/-- The player as `Player()` and `GameState::reset` leave it, placed at (10, 10). -/
def freshPlayer : Player :=
  { xRemainder := 0, yRemainder := 0, position := ⟨10, 10⟩, velocity := ⟨0, 0⟩,
    width := normalSize.x, height := normalSize.y, hitRect := hitRects 0, visible := true,
    isPuffed := false, accConst := 3600, velocityLimit := 6000, goingSlow := false, health := 3,
    maxHealth := 3, dyingTime := 0, isDead := false, diesOnImpact := false, noClip := false,
    puffingFrames := 0, puffingTime := 0, puffCooldown := 0, invulTime := 0, inButt := false }

/-- An empty level of 150 by 100 units, too small for the inflated player. -/
def crampedLevel : Level := { solids := [], width := 150, height := 100 }

/-- A fish as constructed for the spawner at (1000, 1000). -/
def freshFish : EnemyFish := EnemyFish.new ⟨1000, 1000⟩

/-- The fresh player placed `d` units to the right of `freshFish`. -/
def playerRightOfFish (d : ℚ) : Player :=
  { freshPlayer with position := ⟨freshFish.position.x + d, freshFish.position.y⟩ }

/-- The fresh player placed at (400, 400), in the middle of `openLevel`. -/
def centredPlayer : Player := { freshPlayer with position := ⟨400, 400⟩ }

/-- A stand-in for the square-root and trigonometric operations: no normalisation, and
the angle stored in the `x` component. -/
def plainOps : RealOps := { getNormalized := fun v => v, getUnitVectorFromDegrees := fun a => ⟨a, 0⟩ }

/-- The boss as constructed for the spawner at (6000, 3000). -/
def freshBoss : EnemyBoss := EnemyBoss.new ⟨6000, 3000⟩

/-- The boss in state `Bubbles`, about to fire its eighth volley. -/
def bossAtSeven : EnemyBoss :=
  { freshBoss with bossState := BossState.Bubbles, bubbleShootCount := 7, shootCooldown := 0 }

/-- A game state at play time 20 with the fresh player and an empty spawn queue. -/
def quietWorld : BossWorld :=
  { play_time_passed := 20, bossStarted := false, player := freshPlayer, newEnemiesQueue := [] }

/-- The inputs of a tick in which nothing happens around the fresh boss and the encounter
has not been triggered. -/
def quietTick : BossTick :=
  { body := freshBoss.toEnemy, bossStarted := false, player := freshPlayer,
    newEnemiesQueue := [], draw := 1 }

/-- A stand-in for the real-valued library functions: `pow` is exact for the exponents 0
and 1 and returns 1 elsewhere, `atan2` and `sinf` return 0, the rest is `plainOps`. -/
def plainMath : MathOps :=
  { toRealOps := plainOps
    pow := fun base e => if e = 1 then base else 1
    atan2 := fun _ _ => 0
    sinf := fun _ => 0 }

/-- A deflated actor with a 10 by 10 hitbox at the origin, drifting left at 150. -/
def leftwardActor : Actor := { wallActor with velocity := ⟨-150, 0⟩ }

/-- An actor capped at 600 whose velocity exceeds the cap on both axes. -/
def diagonalActor : Actor := { wallActor with velocity := ⟨1000, 1000⟩, velocityLimit := 600 }

/-- A 100 by 100 level closed by four 60-unit-thick tiles lying just outside its bounds. -/
def walledLevel : Level :=
  { solids := [⟨⟨-60, -60⟩, 60, 220, true, false⟩, ⟨⟨100, -60⟩, 60, 220, true, false⟩,
      ⟨⟨0, -60⟩, 100, 60, true, false⟩, ⟨⟨0, 100⟩, 100, 60, true, false⟩]
    width := 100
    height := 100 }

/-- The fully inflated player moving right at 6000, centred on the centre of `freshFish`. -/
def puffedPlayerOnFish : Player :=
  { freshPlayer with
    position := ⟨freshFish.getCenter.x - puffedSize.x / 2, freshFish.getCenter.y - puffedSize.y / 2⟩
    velocity := ⟨6000, 0⟩
    width := puffedSize.x
    height := puffedSize.y
    hitRect := hitRects 3
    isPuffed := true }

/-- The game state around `freshFish` at play time `t`: `puffedPlayerOnFish`, no solids. -/
def ramWorld (t : ℚ) : FishWorld :=
  { play_time_passed := t, player := puffedPlayerOnFish, solids := [] }

/-- The fresh fish after the first tick of half a second under the ramming player. -/
def fishAfterRam : EnemyFish := (freshFish.update plainMath (ramWorld 0) (1 / 2)).1

/-- The fish after three ticks of half a second under the ramming player. -/
def fishAfterThreeTicks : EnemyFish :=
  (((freshFish.update plainMath (ramWorld 0) (1 / 2)).1.update plainMath (ramWorld (1 / 2))
    (1 / 2)).1.update plainMath (ramWorld 1) (1 / 2)).1

/-- A shrimp as constructed for the spawner at (1000, 1000). -/
def freshShrimp : EnemyShrimp := EnemyShrimp.new ⟨1000, 1000⟩ false

/-- The fresh player some 360 units to the right of `freshShrimp`. -/
def playerNearShrimp : Player := { freshPlayer with position := ⟨1300, 1000⟩ }

/-- A slow small bubble of lifespan 1.5 shot to the right from (2000, 2000) by the boss. -/
def freshBubble : EnemyBubble := EnemyBubble.new ⟨2000, 2000⟩ ⟨1, 0⟩ Creator.boss 240 false (3 / 2)

/-- A game state with no solids, the fresh player in its corner and the fresh boss. -/
def emptyBubbleWorld : BubbleWorld :=
  { game := quietWorld, solids := [], boss := freshBoss, creatorEnemy := freshShrimp.toEnemy }

/-- The `real32` value nearest to one sixtieth of a second, `0x3C888889`. -/
def frameTime : ℚ := 8947849 / 536870912

/-- A slow small bubble of the default lifespan 1.5, created at the mouth of the fresh boss
with the boss as its creator and flying to the left. -/
def mouthBubble : EnemyBubble :=
  EnemyBubble.new (freshBoss.position.add mouthOffset) ⟨-1, 0⟩ Creator.boss 240 false (3 / 2)

/-- A big bubble of the boss, already bounced, resting at the boss's mouth. -/
def bouncedBigBubble : EnemyBubble :=
  { EnemyBubble.new (freshBoss.position.add mouthOffset) ⟨0, 0⟩ Creator.boss 3800 true (3 / 2) with
    bounced := true }


/-- A small bubble of the boss centred on the centre of `freshPlayer`. -/
def bubbleOnPlayer : EnemyBubble :=
  EnemyBubble.new freshPlayer.getCenter ⟨1, 0⟩ Creator.boss 240 false (3 / 2)

/-- The fresh player in the first frame of an inflation. -/
def inflatingPlayer : Player := { freshPlayer with puffingFrames := 2 }

/-- The game state `quietWorld` with the player fully inflated. -/
def puffedWorld : BossWorld := { quietWorld with player := { freshPlayer with isPuffed := true } }

/-- The boss in state `Bubbles` with 40 volleys fired, ready for the next shot. -/
def bossAtForty : EnemyBoss :=
  { freshBoss with bossState := BossState.Bubbles, bubbleShootCount := 40, shootCooldown := 0 }

/-- The boss at the end of a sweep: state `Sweep`, sub-state `Bringback`, the claw back at
-30 degrees. -/
def bossBringback : EnemyBoss :=
  { freshBoss with bossState := BossState.Sweep, sweepState := SweepState.Bringback,
                   clawAngle := -30 }

/-- The tick inputs of an encounter that is started, with the player inflated, the boss
body as constructed, and the draw 2 in the first ten ticks and 1 afterwards. -/
def sweepEnv (k : ℕ) : BossTick :=
  { body := freshBoss.toEnemy, bossStarted := true, player := { freshPlayer with isPuffed := true },
    newEnemiesQueue := [], draw := if k < 10 then 2 else 1 }

/-- The fresh player inside the boss, invisible, as the `Stunned` branch leaves it. -/
def playerInButt : Player := { freshPlayer with inButt := true, visible := false }

/-- The game state of a puff attack at play time 20, in the empty level, on the boss after
`k` earlier attacks. -/
def buttWorld (k : ℕ) : PuffWorld :=
  { play_time_passed := 20, level := openLevel,
    boss := some { freshBoss with health := 30 - 10 * (k : ℤ), bossState := BossState.Stunned } }

/-- A stand-in for the library functions of the boss: `cos` is exact at 0 and returns 0
elsewhere, `sin` returns 0 (exact at 0), the rest is `plainMath`. -/
def plainTrig : TrigOps :=
  { toMathOps := plainMath
    cos := fun a => if a = 0 then 1 else 0
    sin := fun _ => 0 }

/-- The fresh boss in the middle of a sweep, its claw at 0 degrees. -/
def bossClawLevel : EnemyBoss :=
  { freshBoss with bossState := BossState.Sweep, sweepState := SweepState.BeforeSlash,
                   clawAngle := 0 }

/-- The game state at play time 20 with the fresh player placed under the claw of
`bossClawLevel`, where the first two claw rectangles overlap. -/
def clawWorld : BossWorld := { quietWorld with player := { freshPlayer with position := ⟨5887, 2330⟩ } }

/-- Two enemies at the addresses 0 and 1 (a fish and a shrimp), registered in `AllActors`
next to one other actor; nothing queued; the addresses from 2 on are free. -/
def sampleRoster : Roster :=
  { enemies := [⟨0, freshFish.toEnemy⟩, ⟨1, freshShrimp.toEnemy⟩]
    AllActors := [ActorRef.enemy 0, ActorRef.enemy 1, ActorRef.other 0]
    newEnemiesQueue := []
    nextAddr := 2
    called := []
    created := [] }

/-- Enemy code for `sampleRoster`: the enemy at index 0 dies in its update, the enemy at
index 1 shoots one bubble; every enemy is on camera and no other update writes to an
enemy. -/
def sampleBehaviour : Behaviour :=
  { act := fun i bodies =>
      if i = 1 then (bodies, [freshBubble.toEnemy])
      else
        match bodies with
        | [] => ([], [])
        | e :: rest => ({ e with isDead := true, visible := false } :: rest, [])
    onCamera := fun _ => true
    before := fun bodies => bodies
    after := fun bodies => bodies }
/-! ## Theorems -/

/-! ### Rounding and the unit-step loop -/

theorem SIGN_eq_sign (a : ℤ) : SIGN a = Int.sign a := by
  unfold SIGN
  rcases lt_trichotomy a 0 with h | h | h
  · rw [Int.sign_eq_neg_one_of_neg h]; simp [h, not_lt.mpr h.le]
  · subst h; simp
  · rw [Int.sign_eq_one_of_pos h]; simp [h, not_lt.mpr h.le]

theorem SIGN_mul_natAbs (a : ℤ) : SIGN a * (a.natAbs : ℤ) = a := by
  rw [SIGN_eq_sign]; exact Int.sign_mul_natAbs a

theorem addCoord_zero (a : Actor) (coord : Axis) : a.addCoord coord 0 = a := by
  cases coord <;> simp [Actor.addCoord]

theorem addCoord_addCoord (a : Actor) (coord : Axis) (s t : ℤ) :
    (a.addCoord coord s).addCoord coord t = a.addCoord coord (s + t) := by
  cases coord <;> simp [Actor.addCoord, add_assoc]

theorem handleCollision_not_collided (position : Vector2f) (cb : Option (Actor → Actor))
    (move sign : ℤ) (a : Actor) (coord : Axis) (ss : List Solid)
    (h : (handleCollision position cb move sign a coord ss).collided = false) :
    (handleCollision position cb move sign a coord ss).actor = a.addCoord coord sign ∧
      (handleCollision position cb move sign a coord ss).move = move - sign := by
  unfold handleCollision at h ⊢
  simp only at h ⊢
  split_ifs at h ⊢ with hc
  · exact ⟨rfl, rfl⟩
  · cases cb <;> simp at h

theorem moveLoop_unblocked (coord : Axis) (cb : Option (Actor → Actor)) (sign : ℤ) :
    ∀ (n : ℕ) (move : ℤ) (a : Actor) (ss : List Solid), move = sign * n →
      (moveLoop coord cb sign n move a ss).blocked = false →
      (moveLoop coord cb sign n move a ss).actor = a.addCoord coord move := by
  intro n
  induction n with
  | zero => intro move a ss hmove _; subst hmove; simp [moveLoop, addCoord_zero]
  | succ k ih =>
    intro move a ss hmove h
    by_cases hm : move = 0
    · subst hm; simp [moveLoop, addCoord_zero]
    · rw [moveLoop] at h ⊢
      rw [if_pos hm] at h ⊢
      by_cases hcol : (handleCollision (a.position.add (coord.unit sign)) cb move sign a coord
          ss).collided = true
      · simp [hcol] at h
      · simp only [hcol, Bool.false_eq_true, if_false] at h ⊢
        obtain ⟨ha, hmv⟩ := handleCollision_not_collided _ cb _ sign a coord ss
          (Bool.eq_false_iff.mpr hcol)
        have hk : (handleCollision (a.position.add (coord.unit sign)) cb move sign a coord
            ss).move = sign * (k : ℤ) := by
          rw [hmv, hmove]; push_cast; ring
        rw [ih _ _ _ hk h, ha, addCoord_addCoord, hmv]
        congr 1; ring


/-! ### No tunnelling (C1) -/

theorem collideAt_some_mem {a : Actor} {ss : List Solid} {p : Vector2f} {s : Solid}
    (h : a.collideAt ss p = some s) : s ∈ ss :=
  List.mem_of_find?_eq_some h

theorem addCoord_position (a : Actor) (coord : Axis) (sign : ℤ) :
    (a.addCoord coord sign).position = a.position.add (coord.unit sign) := by
  cases coord <;> simp [Actor.addCoord, Axis.unit, Vector2f.add]

theorem collideAt_congr (a b : Actor) (h : a.hitRect = b.hitRect) (ss : List Solid)
    (p : Vector2f) : a.collideAt ss p = b.collideAt ss p := by
  unfold Actor.collideAt Actor.getHitboxAt
  rw [h]

theorem collideAt_some_collidable {a : Actor} {ss : List Solid} {p : Vector2f} {s : Solid}
    (h : a.collideAt ss p = some s) : s.collidable = true := by
  have := List.find?_some h
  simp only [Bool.and_eq_true] at this
  exact this.1

/-- As long as no block can be broken, a committed unit step never enters a solid. -/
theorem moveLoop_no_overlap (coord : Axis) (cb : Option (Actor → Actor)) (sign : ℤ)
    (hcb : ∀ f, cb = some f → ∀ b : Actor,
      (f b).position = b.position ∧ (f b).hitRect = b.hitRect) :
    ∀ (n : ℕ) (move : ℤ) (a : Actor) (ss : List Solid), a.noClip = false →
      (∀ s ∈ ss, s.collidable = true → s.breakable = true → a.breakingSpeed = false) →
      a.collideAt ss a.position = none →
      (moveLoop coord cb sign n move a ss).solids = ss ∧
        (moveLoop coord cb sign n move a ss).actor.collideAt ss
          (moveLoop coord cb sign n move a ss).actor.position = none := by
  intro n
  induction n with
  | zero => intro move a ss _ _ h; exact ⟨rfl, h⟩
  | succ k ih =>
    intro move a ss hclip hbr hfree
    rw [moveLoop]
    by_cases hm : move = 0
    · simp [hm, hfree]
    · rw [if_pos hm]
      simp only
      cases hsolid : a.collideAt ss (a.position.add (coord.unit sign)) with
      | none =>
        have hres : handleCollision (a.position.add (coord.unit sign)) cb move sign a coord ss
            = ⟨false, move - sign, a.addCoord coord sign, ss⟩ := by
          simp [handleCollision, hsolid]
        rw [hres]
        simp only [Bool.false_eq_true, if_false]
        have hfree' : (a.addCoord coord sign).collideAt ss (a.addCoord coord sign).position
            = none := by
          rw [addCoord_position, collideAt_congr (a.addCoord coord sign) a (by cases coord <;> rfl)]
          exact hsolid
        exact ih _ _ _ (by cases coord <;> exact hclip)
          (fun s hs h1 h2 => by
            have := hbr s hs h1 h2
            cases coord <;> exact this) hfree'
      | some s =>
        have hnb : (s.breakable && a.breakingSpeed) = false := by
          cases hb : s.breakable with
          | false => rfl
          | true =>
            rw [hbr s (collideAt_some_mem hsolid) (collideAt_some_collidable hsolid) hb]
            rfl
        cases cb with
        | none =>
          have hres : handleCollision (a.position.add (coord.unit sign)) none move sign a coord ss
              = ⟨true, move, a, ss⟩ := by
            simp [handleCollision, hsolid, hnb, hclip]
          rw [hres]
          exact ⟨rfl, hfree⟩
        | some f =>
          have hres : handleCollision (a.position.add (coord.unit sign)) (some f) move sign a
              coord ss = ⟨true, move, f a, ss⟩ := by
            simp [handleCollision, hsolid, hnb, hclip]
          rw [hres]
          obtain ⟨h1, h2⟩ := hcb f rfl a
          refine ⟨rfl, ?_⟩
          simp only [if_true]
          rw [h1, collideAt_congr (f a) a h2]
          exact hfree

/-- Without a breakable block in reach of a fast inflated actor, `moveX` never leaves the
hitbox inside a collidable solid it did not start in. -/
theorem moveX_no_overlap_without_breaking (a : Actor) (solids : List Solid) (amount : ℚ)
    (on_collide : Option (Actor → Actor))
    (hcb : ∀ f, on_collide = some f → ∀ b : Actor,
      (f b).position = b.position ∧ (f b).hitRect = b.hitRect)
    (hclip : a.noClip = false)
    (hbr : ∀ s ∈ solids, s.collidable = true → s.breakable = true → a.breakingSpeed = false)
    (hfree : a.collideAt solids a.position = none) :
    (a.moveX solids amount on_collide).solids = solids ∧
      (a.moveX solids amount on_collide).actor.collideAt solids
        (a.moveX solids amount on_collide).actor.position = none := by
  unfold Actor.moveX
  simp only
  split_ifs with hm
  · exact moveLoop_no_overlap Axis.X on_collide _ hcb _ _ _ _ hclip hbr hfree
  · exact ⟨rfl, hfree⟩

/-- Claim C1 fails on the code: an inflated actor at breaking speed, free of every solid,
takes one unit step to the right into a column made of a breakable block (listed first)
and an ordinary tile.  `collideAt` reports only the block, the block is deleted, the step
is committed, and the hitbox ends inside the ordinary tile, which is still in the level. -/
theorem moveX_breaks_block_and_enters_wall :
    tunnelActor.noClip = false ∧
      tunnelActor.collideAt [tunnelBlock, tunnelWall] tunnelActor.position = none ∧
      (tunnelActor.moveX [tunnelBlock, tunnelWall] 1 none).solids = [tunnelWall] ∧
      (tunnelActor.moveX [tunnelBlock, tunnelWall] 1 none).actor.position = ⟨1, 0⟩ ∧
      (tunnelActor.moveX [tunnelBlock, tunnelWall] 1 none).actor.collideAt
          (tunnelActor.moveX [tunnelBlock, tunnelWall] 1 none).solids
          (tunnelActor.moveX [tunnelBlock, tunnelWall] 1 none).actor.position
        = some tunnelWall := by
  decide!

/-! ### Remainder accounting (C2) -/

theorem deleteFromVector_of_mem :
    ∀ (ss : List Solid) (s : Solid), ss.Pairwise (fun a b => a.position ≠ b.position) → s ∈ ss →
      ∃ l₁ l₂, ss = l₁ ++ s :: l₂ ∧ deleteFromVector ss s = l₁ ++ l₂ := by
  intro ss
  induction ss with
  | nil => intro s _ hs; simp at hs
  | cons t rest ih =>
    intro s hd hs
    rw [List.pairwise_cons] at hd
    by_cases hts : t.position = s.position
    · have hst : s = t := by
        rcases List.mem_cons.mp hs with h | h
        · exact h
        · exact absurd hts (hd.1 s h)
      subst hst
      exact ⟨[], rest, rfl, by simp [deleteFromVector, Solid.eqv]⟩
    · have hmem : s ∈ rest := by
        rcases List.mem_cons.mp hs with h | h
        · subst h; exact absurd rfl hts
        · exact h
      obtain ⟨l₁, l₂, h1, h2⟩ := ih s hd.2 hmem
      refine ⟨t :: l₁, l₂, by rw [h1]; rfl, ?_⟩
      simp [deleteFromVector, Solid.eqv, hts, h2]

theorem not_mem_of_split {ss l₁ l₂ : List Solid} {s : Solid}
    (hd : ss.Pairwise (fun a b => a.position ≠ b.position)) (h : ss = l₁ ++ s :: l₂) :
    s ∉ l₁ ++ l₂ := by
  subst h
  rw [List.pairwise_append] at hd
  obtain ⟨_, h2, h3⟩ := hd
  rw [List.pairwise_cons] at h2
  intro hmem
  rcases List.mem_append.mp hmem with hm | hm
  · exact h3 s hm s (List.mem_cons_self _ _) rfl
  · exact h2.1 s hm rfl

/-- The condition `breakingSpeed` spelled out: the actor is inflated or inflating, and its
speed is above 1200 (compared on the squares). -/
theorem breakingSpeed_iff (actor : Actor) :
    actor.breakingSpeed = true ↔
      (actor.isPuffed = true ∨ 0 < actor.puffingFrames) ∧
        1200 ^ 2 < actor.velocity.x ^ 2 + actor.velocity.y ^ 2 := by
  unfold Actor.breakingSpeed Vector2f.magSq
  simp only [Bool.and_eq_true, Bool.or_eq_true, decide_eq_true_eq, gt_iff_lt]
  have e : actor.velocity.x * actor.velocity.x + actor.velocity.y * actor.velocity.y
      = actor.velocity.x ^ 2 + actor.velocity.y ^ 2 := by ring
  have e2 : (1200 : ℚ) * 1200 = 1200 ^ 2 := by norm_num
  rw [e, e2]

/-- One `handleCollision` step in terms of the code's own test `breakingSpeed`. -/
theorem handleCollision_breaks_iff (position : Vector2f)
    (on_collide : Option (Actor → Actor)) (move sign : ℤ) (actor : Actor) (coord : Axis)
    (solids : List Solid)
    (hdistinct : solids.Pairwise (fun a b => a.position ≠ b.position)) :
    ((handleCollision position on_collide move sign actor coord solids).solids ≠ solids ↔
        ∃ s, actor.collideAt solids position = some s ∧ s.breakable = true ∧
          actor.breakingSpeed = true) ∧
      (∀ s, actor.collideAt solids position = some s → s.breakable = true →
        actor.breakingSpeed = true →
          (∃ l₁ l₂, solids = l₁ ++ s :: l₂ ∧
            (handleCollision position on_collide move sign actor coord solids).solids = l₁ ++ l₂) ∧
          s ∉ (handleCollision position on_collide move sign actor coord solids).solids ∧
          (handleCollision position on_collide move sign actor coord solids).solids.length + 1
            = solids.length ∧
          (handleCollision position on_collide move sign actor coord solids).collided = false ∧
          (handleCollision position on_collide move sign actor coord solids).actor
            = actor.addCoord coord sign ∧
          (handleCollision position on_collide move sign actor coord solids).move = move - sign) := by
  have key : ∀ s, actor.collideAt solids position = some s → s.breakable = true →
      actor.breakingSpeed = true →
      handleCollision position on_collide move sign actor coord solids
        = ⟨false, move - sign, actor.addCoord coord sign, deleteFromVector solids s⟩ := by
    intro s hs hb hc
    simp [handleCollision, hs, hb, hc]
  have other : ¬ (∃ s, actor.collideAt solids position = some s ∧ s.breakable = true ∧
      actor.breakingSpeed = true) →
      (handleCollision position on_collide move sign actor coord solids).solids = solids := by
    intro hno
    unfold handleCollision
    cases hs : actor.collideAt solids position with
    | none => simp
    | some s =>
      have hf : (s.breakable && actor.breakingSpeed) = false := by
        by_contra hne
        have : (s.breakable && actor.breakingSpeed) = true := by simpa using hne
        rw [Bool.and_eq_true] at this
        exact hno ⟨s, hs, this.1, this.2⟩
      simp only [hf, Option.isNone_some, Bool.false_or, Bool.false_eq_true, if_false]
      split_ifs
      · rfl
      · cases on_collide <;> rfl
  constructor
  · constructor
    · intro hne
      by_contra hno
      exact hne (other hno)
    · rintro ⟨s, hs, hb, hc⟩
      rw [key s hs hb hc]
      obtain ⟨l₁, l₂, h1, h2⟩ := deleteFromVector_of_mem solids s hdistinct (collideAt_some_mem hs)
      simp only [h2]
      intro heq
      have := congrArg List.length heq
      rw [h1] at this
      simp at this
  · intro s hs hb hc
    rw [key s hs hb hc]
    obtain ⟨l₁, l₂, h1, h2⟩ := deleteFromVector_of_mem solids s hdistinct (collideAt_some_mem hs)
    refine ⟨⟨l₁, l₂, h1, h2⟩, ?_, ?_, rfl, rfl, rfl⟩
    · simp only [h2]; exact not_mem_of_split hdistinct h1
    · simp only [h2]; rw [h1]; simp; omega

/-- Claim C3: in a level whose solids have pairwise distinct positions, one
`handleCollision` step changes the solid list exactly when the collidable solid found under
the tentative hitbox is breakable and the actor is inflated or inflating (`isPuffed` or
`puffingFrames > 0`) with velocity magnitude above 1200 (stated on the squares:
`1200 ^ 2 < velocity.x ^ 2 + velocity.y ^ 2`); then exactly that solid is removed (one
element fewer, the solid no longer present) and the step is committed; otherwise the list
is unchanged. -/
theorem handleCollision_breakable_consistency (position : Vector2f)
    (on_collide : Option (Actor → Actor)) (move sign : ℤ) (actor : Actor) (coord : Axis)
    (solids : List Solid)
    (hdistinct : solids.Pairwise (fun a b => a.position ≠ b.position)) :
    ((handleCollision position on_collide move sign actor coord solids).solids ≠ solids ↔
        ∃ s, actor.collideAt solids position = some s ∧ s.breakable = true ∧
          (actor.isPuffed = true ∨ 0 < actor.puffingFrames) ∧
          1200 ^ 2 < actor.velocity.x ^ 2 + actor.velocity.y ^ 2) ∧
      (∀ s, actor.collideAt solids position = some s → s.breakable = true →
        (actor.isPuffed = true ∨ 0 < actor.puffingFrames) →
        1200 ^ 2 < actor.velocity.x ^ 2 + actor.velocity.y ^ 2 →
          (∃ l₁ l₂, solids = l₁ ++ s :: l₂ ∧
            (handleCollision position on_collide move sign actor coord solids).solids = l₁ ++ l₂) ∧
          s ∉ (handleCollision position on_collide move sign actor coord solids).solids ∧
          (handleCollision position on_collide move sign actor coord solids).solids.length + 1
            = solids.length ∧
          (handleCollision position on_collide move sign actor coord solids).collided = false ∧
          (handleCollision position on_collide move sign actor coord solids).actor
            = actor.addCoord coord sign ∧
          (handleCollision position on_collide move sign actor coord solids).move = move - sign) ∧
      ((¬ ∃ s, actor.collideAt solids position = some s ∧ s.breakable = true ∧
          (actor.isPuffed = true ∨ 0 < actor.puffingFrames) ∧
          1200 ^ 2 < actor.velocity.x ^ 2 + actor.velocity.y ^ 2) →
        (handleCollision position on_collide move sign actor coord solids).solids = solids) := by
  obtain ⟨h1, h2⟩ := handleCollision_breaks_iff position on_collide move sign actor coord solids
    hdistinct
  simp only [breakingSpeed_iff] at h1 h2
  refine ⟨h1, fun s hs hb hp hv => h2 s hs hb ⟨hp, hv⟩, fun hno => ?_⟩
  by_contra hne
  exact hno (h1.mp hne)

/-- Witness for C3, on the breakable block `tunnelBlock` above the wall `tunnelWall`: the
inflated actor at speed 2000 and the inflating one break the block; the deflated actor at
speed 2000 and the inflated actor at speed 1200 leave the solids as they are. -/
theorem handleCollision_breakable_consistency_witness :
    [tunnelBlock, tunnelWall].Pairwise (fun a b => a.position ≠ b.position) ∧
      (handleCollision ⟨1, 0⟩ none 1 1 tunnelActor Axis.X [tunnelBlock, tunnelWall]).solids
        ≠ [tunnelBlock, tunnelWall] ∧
      (handleCollision ⟨1, 0⟩ none 1 1 inflatingActor Axis.X [tunnelBlock, tunnelWall]).solids
        ≠ [tunnelBlock, tunnelWall] ∧
      (handleCollision ⟨1, 0⟩ none 1 1 deflatedActor Axis.X [tunnelBlock, tunnelWall]).solids
        = [tunnelBlock, tunnelWall] ∧
      (handleCollision ⟨1, 0⟩ none 1 1 slowActor Axis.X [tunnelBlock, tunnelWall]).solids
        = [tunnelBlock, tunnelWall] :=
  ⟨by decide!,
    ((handleCollision_breakable_consistency ⟨1, 0⟩ none 1 1 tunnelActor Axis.X
      [tunnelBlock, tunnelWall] (by decide!)).1).mpr
      ⟨tunnelBlock, by decide!, by decide!, by decide!, by decide!⟩,
    ((handleCollision_breakable_consistency ⟨1, 0⟩ none 1 1 inflatingActor Axis.X
      [tunnelBlock, tunnelWall] (by decide!)).1).mpr
      ⟨tunnelBlock, by decide!, by decide!, by decide!, by decide!⟩,
    (handleCollision_breakable_consistency ⟨1, 0⟩ none 1 1 deflatedActor Axis.X
      [tunnelBlock, tunnelWall] (by decide!)).2.2
      (fun ⟨_, _, _, hp, _⟩ => absurd hp (by decide!)),
    (handleCollision_breakable_consistency ⟨1, 0⟩ none 1 1 slowActor Axis.X
      [tunnelBlock, tunnelWall] (by decide!)).2.2
      (fun ⟨_, _, _, _, hv⟩ => absurd hv (by decide!))⟩

/-! ### Shape migration (C4, C5, C6) -/

theorem commitSubStep_hitRect (p : Player) (lvl : Level) (plan : MigrationPlan) :
    (p.commitSubStep lvl plan).hitRect = p.stepHitRect plan := rfl

theorem pushRight_size (p : Player) (l r : Vector2f) :
    (p.pushRight l r).width = p.width ∧ (p.pushRight l r).height = p.height := by
  unfold Player.pushRight; split_ifs <;> exact ⟨rfl, rfl⟩

theorem pushLeft_size (p : Player) (l r : Vector2f) :
    (p.pushLeft l r).width = p.width ∧ (p.pushLeft l r).height = p.height := by
  unfold Player.pushLeft; split_ifs <;> exact ⟨rfl, rfl⟩

theorem pushDown_size (p : Player) (t b : Vector2f) :
    (p.pushDown t b).width = p.width ∧ (p.pushDown t b).height = p.height := by
  unfold Player.pushDown; split_ifs <;> exact ⟨rfl, rfl⟩

theorem pushUp_size (p : Player) (t b : Vector2f) :
    (p.pushUp t b).width = p.width ∧ (p.pushUp t b).height = p.height := by
  unfold Player.pushUp; split_ifs <;> exact ⟨rfl, rfl⟩

theorem commitSubStep_size (p : Player) (lvl : Level) (plan : MigrationPlan) :
    (p.commitSubStep lvl plan).width = p.width ∧ (p.commitSubStep lvl plan).height = p.height := by
  have h1 := pushRight_size p (p.leftCollision lvl plan) (p.rightCollision lvl plan)
  have h2 := pushLeft_size (p.pushRight (p.leftCollision lvl plan) (p.rightCollision lvl plan))
    (p.leftCollision lvl plan) (p.rightCollision lvl plan)
  have h3 := pushDown_size ((p.pushRight (p.leftCollision lvl plan)
    (p.rightCollision lvl plan)).pushLeft (p.leftCollision lvl plan) (p.rightCollision lvl plan))
    (p.topCollision lvl plan) (p.bottomCollision lvl plan)
  have h4 := pushUp_size (((p.pushRight (p.leftCollision lvl plan)
    (p.rightCollision lvl plan)).pushLeft (p.leftCollision lvl plan)
    (p.rightCollision lvl plan)).pushDown (p.topCollision lvl plan) (p.bottomCollision lvl plan))
    (p.topCollision lvl plan) (p.bottomCollision lvl plan)
  exact ⟨h4.1.trans (h3.1.trans (h2.1.trans h1.1)), h4.2.trans (h3.2.trans (h2.2.trans h1.2))⟩

theorem iterate_commit_hitRect (lvl : Level) (plan : MigrationPlan) (k : ℕ) (p : Player) :
    ((fun q : Player => q.commitSubStep lvl plan)^[k] p).hitRect
      = ⟨p.hitRect.x + k * plan.stepOffsetChange.x, p.hitRect.y + k * plan.stepOffsetChange.y,
          p.hitRect.w + k * plan.stepSizeChange.x, p.hitRect.h + k * plan.stepSizeChange.y⟩ := by
  induction k generalizing p with
  | zero => simp
  | succ k ih =>
    rw [Function.iterate_succ_apply, ih, commitSubStep_hitRect]
    simp only [Player.stepHitRect]
    push_cast
    congr 1 <;> ring

theorem iterate_commit_size (lvl : Level) (plan : MigrationPlan) (k : ℕ) (p : Player) :
    ((fun q : Player => q.commitSubStep lvl plan)^[k] p).width = p.width ∧
      ((fun q : Player => q.commitSubStep lvl plan)^[k] p).height = p.height := by
  induction k generalizing p with
  | zero => simp
  | succ k ih =>
    rw [Function.iterate_succ_apply]
    obtain ⟨h1, h2⟩ := ih (p.commitSubStep lvl plan)
    obtain ⟨h3, h4⟩ := commitSubStep_size p lvl plan
    exact ⟨h1.trans h3, h2.trans h4⟩

/-- A refused migration is refused at the first sub-step `k` whose four probes all collide;
the player left behind is the player after `k` committed sub-steps, moved to
`orgPosition + deltaPos`. -/
theorem migrationLoop_false (lvl : Level) (plan : MigrationPlan) :
    ∀ (n : ℕ) (p : Player), (migrationLoop lvl plan n p).2 = false →
      ∃ k, k < n ∧
        (∀ j, j < k →
          ((fun q : Player => q.commitSubStep lvl plan)^[j] p).allEdgesBlocked lvl plan = false) ∧
        ((fun q : Player => q.commitSubStep lvl plan)^[k] p).allEdgesBlocked lvl plan = true ∧
        (migrationLoop lvl plan n p).1
          = { ((fun q : Player => q.commitSubStep lvl plan)^[k] p) with
              position := plan.orgPosition.add plan.deltaPos } := by
  intro n
  induction n with
  | zero => intro p h; simp [migrationLoop] at h
  | succ n ih =>
    intro p h
    rw [migrationLoop] at h ⊢
    by_cases hb : p.allEdgesBlocked lvl plan = true
    · refine ⟨0, Nat.succ_pos n, ?_, ?_, ?_⟩
      · intro j hj; omega
      · simpa using hb
      · simp [hb]
    · rw [if_neg hb] at h ⊢
      obtain ⟨k, hk, hlt, hblk, heq⟩ := ih _ h
      refine ⟨k + 1, Nat.succ_lt_succ hk, ?_, ?_, ?_⟩
      · intro j hj
        cases j with
        | zero => simpa using hb
        | succ j => rw [Function.iterate_succ_apply]; exact hlt j (by omega)
      · rw [Function.iterate_succ_apply]; exact hblk
      · rw [Function.iterate_succ_apply]; exact heq

theorem migrationLoop_false_of_blocked (lvl : Level) (plan : MigrationPlan) :
    ∀ (n : ℕ) (p : Player) (k : ℕ), k < n →
      ((fun q : Player => q.commitSubStep lvl plan)^[k] p).allEdgesBlocked lvl plan = true →
      (migrationLoop lvl plan n p).2 = false := by
  intro n
  induction n with
  | zero => intro p k hk; omega
  | succ n ih =>
    intro p k hk hb
    rw [migrationLoop]
    by_cases hb0 : p.allEdgesBlocked lvl plan = true
    · simp [hb0]
    · rw [if_neg hb0]
      cases k with
      | zero => exact absurd hb hb0
      | succ k =>
        rw [Function.iterate_succ_apply] at hb
        exact ih _ k (by omega) hb

theorem migrationLoop_true (lvl : Level) (plan : MigrationPlan) :
    ∀ (n : ℕ) (p : Player), (migrationLoop lvl plan n p).2 = true →
      (migrationLoop lvl plan n p).1 = (fun q : Player => q.commitSubStep lvl plan)^[n] p := by
  intro n
  induction n with
  | zero => intro p _; rfl
  | succ n ih =>
    intro p h
    rw [migrationLoop] at h ⊢
    by_cases hb : p.allEdgesBlocked lvl plan = true
    · simp [hb] at h
    · rw [if_neg hb] at h ⊢
      rw [Function.iterate_succ_apply]
      exact ih _ h

theorem migrationPlan_steps_nonneg (p : Player) (deltaPos : Vector2f) (newHitRect : Rect2f) :
    0 ≤ (p.migrationPlan deltaPos newHitRect).steps := by
  unfold Player.migrationPlan
  simp only
  apply le_max_of_le_right
  exact Int.ceil_nonneg (div_nonneg (abs_nonneg _) (by norm_num))

/-- Claim C4 fails as stated: a migration from a 10 by 10 to a 70 by 70 rectangle takes two
sub-steps; the first is committed, the second is refused, and the refused call returns with
the 40 by 40 rectangle of the first sub-step in `hitRect`. -/
theorem tryHitRectChange_refusal_changes_hitRect :
    (smallPlayer.tryHitRectChange pocketLevel ⟨0, 0⟩ ⟨0, 0, 70, 70⟩).2 = false ∧
      (smallPlayer.tryHitRectChange pocketLevel ⟨0, 0⟩ ⟨0, 0, 70, 70⟩).1.hitRect = ⟨0, 0, 40, 40⟩ ∧
      (smallPlayer.tryHitRectChange pocketLevel ⟨0, 0⟩ ⟨0, 0, 70, 70⟩).1.hitRect
        ≠ smallPlayer.hitRect := by
  decide!

/-- Claim C4, amended: when `Player::tryHitRectChange` returns false, `width` and `height`
are unchanged, and `hitRect` is the rectangle before the call advanced by the `k` sub-steps
committed before the refusing one (`k` below the step count, all four probes colliding
after `k` committed sub-steps); it is the rectangle before the call when the very first
sub-step is the refusing one. -/
theorem tryHitRectChange_refused_hitRect (p : Player) (lvl : Level) (deltaPos : Vector2f)
    (newHitRect : Rect2f) (h : (p.tryHitRectChange lvl deltaPos newHitRect).2 = false) :
    (p.tryHitRectChange lvl deltaPos newHitRect).1.width = p.width ∧
      (p.tryHitRectChange lvl deltaPos newHitRect).1.height = p.height ∧
      (p.allEdgesBlocked lvl (p.migrationPlan deltaPos newHitRect) = true →
        (p.tryHitRectChange lvl deltaPos newHitRect).1.hitRect = p.hitRect) ∧
      ∃ k : ℕ, k < (p.migrationPlan deltaPos newHitRect).steps.toNat ∧
        ((fun q : Player => q.commitSubStep lvl (p.migrationPlan deltaPos newHitRect))^[k]
          p).allEdgesBlocked lvl (p.migrationPlan deltaPos newHitRect) = true ∧
        (p.tryHitRectChange lvl deltaPos newHitRect).1.hitRect
          = ⟨p.hitRect.x + k * (p.migrationPlan deltaPos newHitRect).stepOffsetChange.x,
              p.hitRect.y + k * (p.migrationPlan deltaPos newHitRect).stepOffsetChange.y,
              p.hitRect.w + k * (p.migrationPlan deltaPos newHitRect).stepSizeChange.x,
              p.hitRect.h + k * (p.migrationPlan deltaPos newHitRect).stepSizeChange.y⟩ := by
  unfold Player.tryHitRectChange at h ⊢
  simp only at h ⊢
  obtain ⟨k, hk, hlt, hblk, heq⟩ := migrationLoop_false lvl _ _ p h
  rw [heq]
  have hsz := iterate_commit_size lvl (p.migrationPlan deltaPos newHitRect) k p
  have hhr := iterate_commit_hitRect lvl (p.migrationPlan deltaPos newHitRect) k p
  refine ⟨hsz.1, hsz.2, ?_, k, hk, hblk, hhr⟩
  intro hb
  cases k with
  | zero => rfl
  | succ k =>
    have := hlt 0 (Nat.succ_pos k)
    simp only [Function.iterate_zero, id_eq] at this
    rw [hb] at this
    exact absurd this (by simp)

/-- Witness for C4: the refused two-step migration in the pocket level. -/
theorem tryHitRectChange_refused_hitRect_witness :
    (smallPlayer.tryHitRectChange pocketLevel ⟨0, 0⟩ ⟨0, 0, 70, 70⟩).2 = false ∧
      (smallPlayer.tryHitRectChange pocketLevel ⟨0, 0⟩ ⟨0, 0, 70, 70⟩).1.width
        = smallPlayer.width ∧
      (smallPlayer.tryHitRectChange pocketLevel ⟨0, 0⟩ ⟨0, 0, 70, 70⟩).1.height
        = smallPlayer.height :=
  ⟨by decide!,
    (tryHitRectChange_refused_hitRect smallPlayer pocketLevel ⟨0, 0⟩ ⟨0, 0, 70, 70⟩
      (by decide!)).1,
    (tryHitRectChange_refused_hitRect smallPlayer pocketLevel ⟨0, 0⟩ ⟨0, 0, 70, 70⟩
      (by decide!)).2.1⟩

/-- Counterexample to claim C5 as stated for every `deltaPos` and `newHitRect`: when the
offset change is cancelled by `deltaPos` and the size does not change, the step count is
0, the loop body never runs, and the call returns true with `hitRect` still at its old
offset.  Neither call of the program is of this kind. -/
theorem tryHitRectChange_zero_steps :
    (smallPlayer.migrationPlan ⟨-5, 0⟩ ⟨5, 0, 10, 10⟩).steps = 0 ∧
      (smallPlayer.tryHitRectChange openLevel ⟨-5, 0⟩ ⟨5, 0, 10, 10⟩).2 = true ∧
      (smallPlayer.tryHitRectChange openLevel ⟨-5, 0⟩ ⟨5, 0, 10, 10⟩).1.hitRect = ⟨0, 0, 10, 10⟩ ∧
      (smallPlayer.tryHitRectChange openLevel ⟨-5, 0⟩ ⟨5, 0, 10, 10⟩).1.hitRect
        ≠ (⟨5, 0, 10, 10⟩ : Rect2f) := by
  decide!

/-- Whenever at least one sub-step is needed, a successful `Player::tryHitRectChange` leaves
exactly `newHitRect` in `hitRect` (exact arithmetic). -/
theorem tryHitRectChange_success_of_steps_pos (p : Player) (lvl : Level) (deltaPos : Vector2f)
    (newHitRect : Rect2f) (hsteps : 1 ≤ (p.migrationPlan deltaPos newHitRect).steps)
    (h : (p.tryHitRectChange lvl deltaPos newHitRect).2 = true) :
    (p.tryHitRectChange lvl deltaPos newHitRect).1.hitRect = newHitRect := by
  unfold Player.tryHitRectChange at h ⊢
  simp only at h ⊢
  rw [migrationLoop_true lvl _ _ p h, iterate_commit_hitRect]
  have hn : (((p.migrationPlan deltaPos newHitRect).steps.toNat : ℕ) : ℚ)
      = ((p.migrationPlan deltaPos newHitRect).steps : ℚ) := by
    have h0 : ((p.migrationPlan deltaPos newHitRect).steps.toNat : ℤ)
        = (p.migrationPlan deltaPos newHitRect).steps := Int.toNat_of_nonneg (by omega)
    exact_mod_cast congrArg (fun z : ℤ => (z : ℚ)) h0
  have hne : ((p.migrationPlan deltaPos newHitRect).steps : ℚ) ≠ 0 := by
    have : (1 : ℚ) ≤ ((p.migrationPlan deltaPos newHitRect).steps : ℚ) := by exact_mod_cast hsteps
    linarith
  rw [hn]
  generalize hs : ((p.migrationPlan deltaPos newHitRect).steps : ℚ) = s at hne
  have e1 : (p.migrationPlan deltaPos newHitRect).stepOffsetChange
      = ⟨(newHitRect.x - p.hitRect.x) / s, (newHitRect.y - p.hitRect.y) / s⟩ := by
    rw [← hs]; rfl
  have e2 : (p.migrationPlan deltaPos newHitRect).stepSizeChange
      = ⟨(newHitRect.w - p.hitRect.w) / s, (newHitRect.h - p.hitRect.h) / s⟩ := by
    rw [← hs]; rfl
  rw [e1, e2]
  cases newHitRect
  simp only [Rect2f.mk.injEq]
  refine ⟨?_, ?_, ?_, ?_⟩ <;> field_simp

/-- The step count of `Player::tryHitRectChange` is 0 exactly when the total position
change (`deltaPos` plus the offset change) and the size change are both zero. -/
theorem migrationPlan_steps_eq_zero_iff (p : Player) (deltaPos : Vector2f)
    (newHitRect : Rect2f) :
    (p.migrationPlan deltaPos newHitRect).steps = 0 ↔
      deltaPos.x + (newHitRect.x - p.hitRect.x) = 0 ∧
        deltaPos.y + (newHitRect.y - p.hitRect.y) = 0 ∧
        newHitRect.w - p.hitRect.w = 0 ∧ newHitRect.h - p.hitRect.h = 0 := by
  have hc : ∀ t : ℚ, 0 ≤ ⌈|t| / 30⌉ := fun t =>
    Int.ceil_nonneg (div_nonneg (abs_nonneg _) (by norm_num))
  have hz : ∀ t : ℚ, ⌈|t| / 30⌉ = 0 ↔ t = 0 := by
    intro t
    constructor
    · intro h
      have h1 : |t| / 30 ≤ ((0 : ℤ) : ℚ) := Int.ceil_le.mp (le_of_eq h)
      have h2 : |t| ≤ 0 := by
        have := (div_le_iff₀ (by norm_num : (0 : ℚ) < 30)).mp h1
        simpa using this
      exact abs_eq_zero.mp (le_antisymm h2 (abs_nonneg t))
    · intro h
      rw [h]
      simp
  have hsteps : (p.migrationPlan deltaPos newHitRect).steps =
      max (max (max ⌈|deltaPos.x + (newHitRect.x - p.hitRect.x)| / 30⌉
        ⌈|deltaPos.y + (newHitRect.y - p.hitRect.y)| / 30⌉)
        ⌈|newHitRect.w - p.hitRect.w| / 30⌉) ⌈|newHitRect.h - p.hitRect.h| / 30⌉ := rfl
  rw [hsteps, ← hz (deltaPos.x + (newHitRect.x - p.hitRect.x)),
    ← hz (deltaPos.y + (newHitRect.y - p.hitRect.y)), ← hz (newHitRect.w - p.hitRect.w),
    ← hz (newHitRect.h - p.hitRect.h)]
  have a := hc (deltaPos.x + (newHitRect.x - p.hitRect.x))
  have b := hc (deltaPos.y + (newHitRect.y - p.hitRect.y))
  have c := hc (newHitRect.w - p.hitRect.w)
  have d := hc (newHitRect.h - p.hitRect.h)
  generalize ⌈|deltaPos.x + (newHitRect.x - p.hitRect.x)| / 30⌉ = A at a ⊢
  generalize ⌈|deltaPos.y + (newHitRect.y - p.hitRect.y)| / 30⌉ = B at b ⊢
  generalize ⌈|newHitRect.w - p.hitRect.w| / 30⌉ = C at c ⊢
  generalize ⌈|newHitRect.h - p.hitRect.h| / 30⌉ = D at d ⊢
  omega

/-- The call `tryHitRectChange(-puffOffset, hitRects[1])` of `Player::puffUp` needs at
least one sub-step, whichever of the four `hitRects` the player has. -/
theorem puffUp_call_steps_pos (p : Player) (i : ℕ) (h : p.hitRect = hitRects i) :
    1 ≤ (p.migrationPlan puffOffset.neg (hitRects 1)).steps := by
  have hn := migrationPlan_steps_nonneg p puffOffset.neg (hitRects 1)
  have hne : (p.migrationPlan puffOffset.neg (hitRects 1)).steps ≠ 0 := by
    rw [Ne, migrationPlan_steps_eq_zero_iff, h]
    rintro ⟨h1, -, h3, -⟩
    match i with
    | 0 => norm_num [hitRects] at h3
    | 1 => norm_num [hitRects, puffOffset, Vector2f.neg] at h1
    | 2 => norm_num [hitRects] at h3
    | n + 3 =>
      have e : hitRects (n + 3) = ⟨77, 74, 499, 487⟩ := rfl
      rw [e] at h3
      norm_num [hitRects] at h3
  omega

/-- Claim C5, amended.  When `Player::tryHitRectChange` returns true, the player's
`hitRect` equals `newHitRect` exactly (offset and size, exact arithmetic) whenever the call
needs at least one sub-step, and whenever `deltaPos` is `{0, 0}` as in the call of
`Player::update`; so it does after the call `tryHitRectChange(-puffOffset, hitRects[1])` of
`Player::puffUp` from each of the four `hitRects`.  A call with step count 0 returns true
and leaves the player, and so `hitRect`, as it was. -/
theorem tryHitRectChange_true_installs_newHitRect (p : Player) (lvl : Level) (deltaPos : Vector2f)
    (newHitRect : Rect2f) (h : (p.tryHitRectChange lvl deltaPos newHitRect).2 = true) :
    (1 ≤ (p.migrationPlan deltaPos newHitRect).steps →
        (p.tryHitRectChange lvl deltaPos newHitRect).1.hitRect = newHitRect) ∧
      (deltaPos = ⟨0, 0⟩ →
        (p.tryHitRectChange lvl deltaPos newHitRect).1.hitRect = newHitRect) ∧
      (∀ i, p.hitRect = hitRects i → deltaPos = puffOffset.neg → newHitRect = hitRects 1 →
        (p.tryHitRectChange lvl deltaPos newHitRect).1.hitRect = newHitRect) ∧
      ((p.migrationPlan deltaPos newHitRect).steps = 0 →
        (p.tryHitRectChange lvl deltaPos newHitRect).1 = p) := by
  have hzero : (p.migrationPlan deltaPos newHitRect).steps = 0 →
      (p.tryHitRectChange lvl deltaPos newHitRect).1 = p := by
    intro h0
    unfold Player.tryHitRectChange
    simp only [h0]
    rfl
  refine ⟨fun hs => tryHitRectChange_success_of_steps_pos p lvl deltaPos newHitRect hs h,
    fun hd => ?_, fun i hi hd hn => ?_, hzero⟩
  · rcases lt_or_ge 0 (p.migrationPlan deltaPos newHitRect).steps with hs | hs
    · exact tryHitRectChange_success_of_steps_pos p lvl deltaPos newHitRect (by omega) h
    · have h0 : (p.migrationPlan deltaPos newHitRect).steps = 0 :=
        le_antisymm hs (migrationPlan_steps_nonneg p deltaPos newHitRect)
      rw [hzero h0]
      obtain ⟨h1, h2, h3, h4⟩ := (migrationPlan_steps_eq_zero_iff p deltaPos newHitRect).mp h0
      rw [hd] at h1 h2
      simp only [zero_add] at h1 h2
      cases hr : p.hitRect with
      | mk x y w hh =>
        cases newHitRect with
        | mk x2 y2 w2 hh2 =>
          rw [hr] at h1 h2 h3 h4
          simp only at h1 h2 h3 h4
          simp only [Rect2f.mk.injEq]
          exact ⟨by linarith, by linarith, by linarith, by linarith⟩
  · subst hd hn
    exact tryHitRectChange_success_of_steps_pos p lvl _ _ (puffUp_call_steps_pos p i hi) h

/-- Witness for C5: the deflated player in the middle of the open level starts to inflate
(the call of `Player::puffUp`) and goes on to the next frame (the call of
`Player::update`, with `deltaPos = {0, 0}`), both successfully. -/
theorem tryHitRectChange_true_installs_newHitRect_witness :
    (centredPlayer.tryHitRectChange openLevel puffOffset.neg (hitRects 1)).2 = true ∧
      centredPlayer.hitRect = hitRects 0 ∧
      (centredPlayer.tryHitRectChange openLevel puffOffset.neg (hitRects 1)).1.hitRect
        = hitRects 1 ∧
      ((centredPlayer.tryHitRectChange openLevel puffOffset.neg (hitRects 1)).1.tryHitRectChange
        openLevel ⟨0, 0⟩ (hitRects 2)).2 = true ∧
      ((centredPlayer.tryHitRectChange openLevel puffOffset.neg (hitRects 1)).1.tryHitRectChange
        openLevel ⟨0, 0⟩ (hitRects 2)).1.hitRect = hitRects 2 :=
  ⟨by decide!, by decide!,
    (tryHitRectChange_true_installs_newHitRect centredPlayer openLevel puffOffset.neg (hitRects 1)
      (by decide!)).2.2.1 0 (by decide!) rfl rfl,
    by decide!,
    (tryHitRectChange_true_installs_newHitRect
      (centredPlayer.tryHitRectChange openLevel puffOffset.neg (hitRects 1)).1 openLevel ⟨0, 0⟩
      (hitRects 2) (by decide!)).2.1 rfl⟩

/-- Claim C6 fails as stated: the first inflation frame of the fresh player in a level too
small for it is refused, and the player is left at its old position plus `deltaPos`
(`-puffOffset`), not at its old position. -/
theorem tryHitRectChange_refusal_moves_player :
    (freshPlayer.tryHitRectChange crampedLevel puffOffset.neg (hitRects 1)).2 = false ∧
      (freshPlayer.tryHitRectChange crampedLevel puffOffset.neg (hitRects 1)).1.position
        = ⟨-226, -284⟩ ∧
      (freshPlayer.tryHitRectChange crampedLevel puffOffset.neg (hitRects 1)).1.position
        ≠ freshPlayer.position := by
  decide!

/-- Claim C6, amended: `Player::tryHitRectChange` returns false exactly when some sub-step
is reached (no earlier sub-step refused) at which the left, right, top and bottom edge
probes all report a collision; and whenever it returns false the player is left at its
position before the call plus `deltaPos`. -/
theorem tryHitRectChange_false_iff (p : Player) (lvl : Level) (deltaPos : Vector2f)
    (newHitRect : Rect2f) :
    ((p.tryHitRectChange lvl deltaPos newHitRect).2 = false ↔
        ∃ k : ℕ, k < (p.migrationPlan deltaPos newHitRect).steps.toNat ∧
          (∀ j, j < k →
            ((fun q : Player => q.commitSubStep lvl (p.migrationPlan deltaPos newHitRect))^[j]
              p).allEdgesBlocked lvl (p.migrationPlan deltaPos newHitRect) = false) ∧
          ((fun q : Player => q.commitSubStep lvl (p.migrationPlan deltaPos newHitRect))^[k]
            p).allEdgesBlocked lvl (p.migrationPlan deltaPos newHitRect) = true) ∧
      ((p.tryHitRectChange lvl deltaPos newHitRect).2 = false →
        (p.tryHitRectChange lvl deltaPos newHitRect).1.position = p.position.add deltaPos) := by
  constructor
  · constructor
    · intro h
      obtain ⟨k, hk, hlt, hb, _⟩ := migrationLoop_false lvl _ _ p h
      exact ⟨k, hk, hlt, hb⟩
    · rintro ⟨k, hk, _, hb⟩
      exact migrationLoop_false_of_blocked lvl _ _ p k hk hb
  · intro h
    obtain ⟨k, _, _, _, heq⟩ := migrationLoop_false lvl _ _ p h
    unfold Player.tryHitRectChange
    simp only
    rw [heq]
    rfl

/-- Witness for C6: the refused migration in the pocket level leaves the player at its
position plus `deltaPos`. -/
theorem tryHitRectChange_false_iff_witness :
    (smallPlayer.tryHitRectChange pocketLevel ⟨3, 0⟩ ⟨0, 0, 70, 70⟩).2 = false ∧
      (smallPlayer.tryHitRectChange pocketLevel ⟨3, 0⟩ ⟨0, 0, 70, 70⟩).1.position
        = smallPlayer.position.add ⟨3, 0⟩ :=
  ⟨by decide!,
    (tryHitRectChange_false_iff smallPlayer pocketLevel ⟨3, 0⟩ ⟨0, 0, 70, 70⟩).2 (by decide!)⟩

/-! ### Fish perception and chase (C9, C10) -/

theorem chase_horizontal (f : EnemyFish) (target : Vector2f) (i : ControllerInput)
    (hl : i.dir_left = 0) (hr : i.dir_right = 0) :
    (0 < (f.chase target i).dir_right - (f.chase target i).dir_left →
        f.position.x < target.x) ∧
      ((f.chase target i).dir_right - (f.chase target i).dir_left < 0 →
        target.x < f.position.x) := by
  unfold EnemyFish.chase
  simp only
  split_ifs <;> simp [hl, hr] <;> linarith

theorem chase_vertical (f : EnemyFish) (target : Vector2f) (i : ControllerInput)
    (hu : i.dir_up = 0) (hd : i.dir_down = 0) :
    (0 < (f.chase target i).dir_down - (f.chase target i).dir_up →
        f.position.y < target.y) ∧
      ((f.chase target i).dir_down - (f.chase target i).dir_up < 0 →
        target.y < f.position.y) := by
  unfold EnemyFish.chase
  simp only
  split_ifs <;> simp [hu, hd] <;> linarith

theorem chase_noMovement_iff (f : EnemyFish) (target : Vector2f) (i : ControllerInput)
    (h : i.noMovement) : (f.chase target i).noMovement ↔ target = f.position := by
  obtain ⟨hl, hr, hu, hd⟩ := h
  constructor
  · intro hz
    unfold ControllerInput.noMovement EnemyFish.chase at hz
    simp only at hz
    by_contra hne
    have hxy : target.x ≠ f.position.x ∨ target.y ≠ f.position.y := by
      by_contra hcon
      push_neg at hcon
      apply hne
      cases target; cases hp : f.position
      simp only [hp] at hcon
      simp [hcon.1, hcon.2]
    split_ifs at hz <;> simp [hl, hr, hu, hd] at hz
    all_goals
      try casesm* _ ∧ _
      rcases abs_cases (target.x - f.position.x) with ⟨e1, _⟩ | ⟨e1, _⟩ <;>
      rcases abs_cases (target.y - f.position.y) with ⟨e2, _⟩ | ⟨e2, _⟩ <;>
      simp only [e1, e2] at * <;>
      rcases hxy with h | h <;>
      rcases lt_or_gt_of_ne h with h' | h' <;> linarith
  · intro ht
    subst ht
    unfold ControllerInput.noMovement EnemyFish.chase
    norm_num [hl, hr, hu, hd]

theorem chase_position_congr (f g : EnemyFish) (h : f.position = g.position)
    (target : Vector2f) (i : ControllerInput) : f.chase target i = g.chase target i := by
  unfold EnemyFish.chase
  rw [h]

/-- Claim C9 fails as stated, at its own witness: the freshly constructed fish sits 100
units to the right of its spawn point, so with a deflated player 2500 units away its first
re-evaluation steers it back to the spawn point with `dir_left = 1`. -/
theorem think_fresh_fish_far_player_moves :
    freshFish.seesPlayer = false ∧ (playerRightOfFish 2500).isPuffed = false ∧
      freshFish.reevaluates 1 = true ∧
      ((playerRightOfFish 2500).position.sub freshFish.position).magSq = 2500 * 2500 ∧
      (freshFish.think 1 (playerRightOfFish 2500) (1 / 60)).input.dir_left = 1 ∧
      (freshFish.think 1 (playerRightOfFish 2500) (1 / 60)).input.dir_left ≠ 0 := by
  decide!

/-- Claim C9, amended: a fish that does not see the player and re-evaluates with the player
at distance at least 900 stays unseeing, goes slow, and gets the input that chases its own
spawn point: no movement exactly when it is at its spawn point, and otherwise net
horizontal and vertical components that, when non-zero, point to the spawn point. -/
theorem think_out_of_range (f : EnemyFish) (player : Player) (playTime time_delta : ℚ)
    (hsees : f.seesPlayer = false) (hre : f.reevaluates playTime = true)
    (hfar : 900 * 900 ≤ (player.position.sub f.position).magSq) :
    ((f.think playTime player time_delta).input.noMovement ↔ f.spawnPoint = f.position) ∧
      (f.think playTime player time_delta).seesPlayer = false ∧
      (f.think playTime player time_delta).chasingPlayer = false ∧
      (f.think playTime player time_delta).goingSlow = true ∧
      (0 < (f.think playTime player time_delta).input.dir_right
            - (f.think playTime player time_delta).input.dir_left →
          f.position.x < f.spawnPoint.x) ∧
      ((f.think playTime player time_delta).input.dir_right
            - (f.think playTime player time_delta).input.dir_left < 0 →
          f.spawnPoint.x < f.position.x) ∧
      (0 < (f.think playTime player time_delta).input.dir_down
            - (f.think playTime player time_delta).input.dir_up →
          f.position.y < f.spawnPoint.y) ∧
      ((f.think playTime player time_delta).input.dir_down
            - (f.think playTime player time_delta).input.dir_up < 0 →
          f.spawnPoint.y < f.position.y) := by
  have hnot : ¬ (player.position.sub f.position).magSq < 900 * 900 := not_lt.mpr hfar
  have hthink : f.think playTime player time_delta
      = { f with lastIdeaTime := playTime, chasingPlayer := false, goingSlow := true,
                 input := ({ f with goingSlow := true } : EnemyFish).chase f.spawnPoint
                   { f.input with dir_left := 0, dir_right := 0, dir_up := 0, dir_down := 0 } } := by
    unfold EnemyFish.think
    simp [hre, hsees, hnot]
    exact chase_position_congr _ _ rfl _ _
  rw [hthink]
  have hz : ({ f.input with dir_left := 0, dir_right := 0, dir_up := 0, dir_down := 0 } :
      ControllerInput).noMovement := ⟨rfl, rfl, rfl, rfl⟩
  have h1 := chase_noMovement_iff ({ f with goingSlow := true } : EnemyFish) f.spawnPoint _ hz
  have h2 := chase_horizontal ({ f with goingSlow := true } : EnemyFish) f.spawnPoint _ hz.1 hz.2.1
  have h3 := chase_vertical ({ f with goingSlow := true } : EnemyFish) f.spawnPoint _ hz.2.2.1
    hz.2.2.2
  exact ⟨h1, hsees, rfl, rfl, h2.1, h2.2, h3.1, h3.2⟩

/-- Witness for C9: the fresh fish with the player 2500 units away. -/
theorem think_out_of_range_witness :
    freshFish.seesPlayer = false ∧ freshFish.reevaluates 1 = true ∧
      (900 * 900 : ℚ) ≤ ((playerRightOfFish 2500).position.sub freshFish.position).magSq ∧
      (freshFish.think 1 (playerRightOfFish 2500) (1 / 60)).seesPlayer = false ∧
      (freshFish.think 1 (playerRightOfFish 2500) (1 / 60)).chasingPlayer = false ∧
      (freshFish.think 1 (playerRightOfFish 2500) (1 / 60)).goingSlow = true :=
  ⟨by decide!, by decide!, by decide!,
    (think_out_of_range freshFish (playerRightOfFish 2500) 1 (1 / 60) (by decide!) (by decide!)
      (by decide!)).2.1,
    (think_out_of_range freshFish (playerRightOfFish 2500) 1 (1 / 60) (by decide!) (by decide!)
      (by decide!)).2.2.1,
    (think_out_of_range freshFish (playerRightOfFish 2500) 1 (1 / 60) (by decide!) (by decide!)
      (by decide!)).2.2.2.1⟩

/-- Claim C10: with a deflated player, a re-evaluation of a fish that does not see the
player at distance below 900 sets `seesPlayer`; and a re-evaluation of a fish that sees the
player, at distance below 1800 and at a different position, keeps `seesPlayer`, sets
`chasingPlayer`, and yields a non-zero input whose net horizontal and vertical components,
when non-zero, have the sign of `player.position - fish.position` on that axis. -/
theorem think_detects_and_chases (f : EnemyFish) (player : Player) (playTime time_delta : ℚ)
    (hre : f.reevaluates playTime = true) (hflat : player.isPuffed = false) :
    (f.seesPlayer = false → (player.position.sub f.position).magSq < 900 * 900 →
        (f.think playTime player time_delta).seesPlayer = true) ∧
      (f.seesPlayer = true → (player.position.sub f.position).magSq < 1800 * 1800 →
        player.position ≠ f.position →
          (f.think playTime player time_delta).seesPlayer = true ∧
          (f.think playTime player time_delta).chasingPlayer = true ∧
          ¬ (f.think playTime player time_delta).input.noMovement ∧
          (0 < (f.think playTime player time_delta).input.dir_right
                - (f.think playTime player time_delta).input.dir_left →
              f.position.x < player.position.x) ∧
          ((f.think playTime player time_delta).input.dir_right
                - (f.think playTime player time_delta).input.dir_left < 0 →
              player.position.x < f.position.x) ∧
          (0 < (f.think playTime player time_delta).input.dir_down
                - (f.think playTime player time_delta).input.dir_up →
              f.position.y < player.position.y) ∧
          ((f.think playTime player time_delta).input.dir_down
                - (f.think playTime player time_delta).input.dir_up < 0 →
              player.position.y < f.position.y)) := by
  constructor
  · intro hsees hnear
    unfold EnemyFish.think
    simp [hre, hsees, hnear]
  · intro hsees hnear hne
    have hthink : f.think playTime player time_delta
        = { f with lastIdeaTime := playTime, chasingPlayer := true, goingSlow := false,
                   input := ({ f with goingSlow := false } : EnemyFish).chase player.position
                     { f.input with dir_left := 0, dir_right := 0, dir_up := 0,
                                    dir_down := 0 } } := by
      unfold EnemyFish.think
      simp [hre, hsees, hnear, hflat]
      exact chase_position_congr _ _ rfl _ _
    rw [hthink]
    have hz : ({ f.input with dir_left := 0, dir_right := 0, dir_up := 0, dir_down := 0 } :
        ControllerInput).noMovement := ⟨rfl, rfl, rfl, rfl⟩
    have h1 := chase_noMovement_iff ({ f with goingSlow := false } : EnemyFish) player.position
      _ hz
    have h2 := chase_horizontal ({ f with goingSlow := false } : EnemyFish) player.position _
      hz.1 hz.2.1
    have h3 := chase_vertical ({ f with goingSlow := false } : EnemyFish) player.position _
      hz.2.2.1 hz.2.2.2
    exact ⟨hsees, rfl, fun h => hne (h1.mp h), h2.1, h2.2, h3.1, h3.2⟩

/-- Witness for C10: the fresh fish with the deflated player 800 units to its right sees the
player at its first re-evaluation and chases it at the second. -/
theorem think_detects_and_chases_witness :
    (freshFish.think 1 (playerRightOfFish 800) (1 / 60)).seesPlayer = true ∧
      ((freshFish.think 1 (playerRightOfFish 800) (1 / 60)).think 2 (playerRightOfFish 800)
        (1 / 60)).chasingPlayer = true ∧
      ¬ ((freshFish.think 1 (playerRightOfFish 800) (1 / 60)).think 2 (playerRightOfFish 800)
        (1 / 60)).input.noMovement :=
  ⟨(think_detects_and_chases freshFish (playerRightOfFish 800) 1 (1 / 60) (by decide!)
      (by decide!)).1 (by decide!) (by decide!),
    ((think_detects_and_chases (freshFish.think 1 (playerRightOfFish 800) (1 / 60))
      (playerRightOfFish 800) 2 (1 / 60) (by decide!) (by decide!)).2 (by decide!) (by decide!)
      (by decide!)).2.1,
    ((think_detects_and_chases (freshFish.think 1 (playerRightOfFish 800) (1 / 60))
      (playerRightOfFish 800) 2 (1 / 60) (by decide!) (by decide!)).2 (by decide!) (by decide!)
      (by decide!)).2.2.1⟩

/-! ### Boss volleys (C7) -/

/-- Claim C7 fails as stated: at `bubbleShootCount = 7` the third target is the zero
vector, the guard `if (targets[2])` skips it, and only 2 bubbles are enqueued. -/
theorem shootBubbles_at_seven_enqueues_two :
    bossAtSeven.bubbleShootCount = 7 ∧ quietWorld.newEnemiesQueue = [] ∧
      (bossAtSeven.shootBubbles plainOps quietWorld (1 / 60)).2.newEnemiesQueue.length = 2 ∧
      (bossAtSeven.shootBubbles plainOps quietWorld (1 / 60)).1.bubbleShootCount = 8 := by
  decide!

theorem volleyTargets_third (c : ℤ) (behind : Bool) :
    ((volleyTargets c behind).getD 2 ⟨0, 0⟩).toBool = decide (Int.tmod c 2 = 0) := by
  unfold volleyTargets
  by_cases hc : Int.tmod c 2 = 0 <;> cases behind <;>
    simp [hc, Vector2f.toBool, Vector2f.isZero]

/-- Claim C7, amended: for `bubbleShootCount` in 0..7 one `EnemyBoss::shootBubbles` call
appends 3 bubbles to `newEnemiesQueue` when the count is even and 2 when it is odd (so 2 at
count 7), increases `bubbleShootCount` by one and stays in the same boss state. -/
theorem shootBubbles_first_phase (ops : RealOps) (b : EnemyBoss) (w : BossWorld)
    (time_delta : ℚ) (h0 : 0 ≤ b.bubbleShootCount) (h7 : b.bubbleShootCount ≤ 7) :
    ∃ added : List EnemyBubble,
      (b.shootBubbles ops w time_delta).2.newEnemiesQueue = w.newEnemiesQueue ++ added ∧
      added.length = (if Even b.bubbleShootCount then 3 else 2) ∧
      (b.bubbleShootCount = 7 → added.length = 2) ∧
      (b.shootBubbles ops w time_delta).1.bubbleShootCount = b.bubbleShootCount + 1 ∧
      (b.shootBubbles ops w time_delta).1.bossState = b.bossState := by
  have h8 : b.bubbleShootCount < 8 := by omega
  have hpar : Even b.bubbleShootCount ↔ Int.tmod b.bubbleShootCount 2 = 0 := by
    rw [even_iff_two_dvd, Int.dvd_iff_tmod_eq_zero]
  have h7' : b.bubbleShootCount = 7 → ¬ Int.tmod b.bubbleShootCount 2 = 0 := by
    intro h; rw [h]; decide
  by_cases hc : Int.tmod b.bubbleShootCount 2 = 0
  · have hq : (b.shootBubbles ops w time_delta).2.newEnemiesQueue = w.newEnemiesQueue ++
        [EnemyBubble.new (b.position.add mouthOffset) (ops.getNormalized
            ((volleyTargets b.bubbleShootCount
              (decide (b.getCenter.x < w.player.getCenter.x))).getD 0 ⟨0, 0⟩))
            Creator.boss 3600 false 2,
          EnemyBubble.new (b.position.add mouthOffset) (ops.getNormalized
            ((volleyTargets b.bubbleShootCount
              (decide (b.getCenter.x < w.player.getCenter.x))).getD 1 ⟨0, 0⟩))
            Creator.boss 3600 false 2,
          EnemyBubble.new (b.position.add mouthOffset) (ops.getNormalized
            ((volleyTargets b.bubbleShootCount
              (decide (b.getCenter.x < w.player.getCenter.x))).getD 2 ⟨0, 0⟩))
            Creator.boss 3600 false 2] := by
      unfold EnemyBoss.shootBubbles
      simp only [h8, if_true, volleyTargets_third, hc, decide_True, List.append_assoc,
        List.singleton_append]
      rfl
    refine ⟨_, hq, ?_, ?_, ?_, ?_⟩
    · rw [if_pos (hpar.mpr hc)]; rfl
    · intro h; exact absurd hc (h7' h)
    · unfold EnemyBoss.shootBubbles; simp only [h8, if_true]
    · unfold EnemyBoss.shootBubbles; simp only [h8, if_true]
  · have hq : (b.shootBubbles ops w time_delta).2.newEnemiesQueue = w.newEnemiesQueue ++
        [EnemyBubble.new (b.position.add mouthOffset) (ops.getNormalized
            ((volleyTargets b.bubbleShootCount
              (decide (b.getCenter.x < w.player.getCenter.x))).getD 0 ⟨0, 0⟩))
            Creator.boss 3600 false 2,
          EnemyBubble.new (b.position.add mouthOffset) (ops.getNormalized
            ((volleyTargets b.bubbleShootCount
              (decide (b.getCenter.x < w.player.getCenter.x))).getD 1 ⟨0, 0⟩))
            Creator.boss 3600 false 2] := by
      unfold EnemyBoss.shootBubbles
      simp only [h8, if_true, volleyTargets_third, hc, decide_False, List.append_assoc,
        List.singleton_append, Bool.false_eq_true, if_false]
    refine ⟨_, hq, ?_, ?_, ?_, ?_⟩
    · rw [if_neg (fun he => hc (hpar.mp he))]; rfl
    · intro _; rfl
    · unfold EnemyBoss.shootBubbles; simp only [h8, if_true]
    · unfold EnemyBoss.shootBubbles; simp only [h8, if_true]

/-- Witness for C7: the boss about to fire its eighth volley. -/
theorem shootBubbles_first_phase_witness :
    (0 : ℤ) ≤ bossAtSeven.bubbleShootCount ∧ bossAtSeven.bubbleShootCount ≤ 7 ∧
      ∃ added : List EnemyBubble,
        (bossAtSeven.shootBubbles plainOps quietWorld (1 / 60)).2.newEnemiesQueue
          = quietWorld.newEnemiesQueue ++ added ∧
        added.length = (if Even bossAtSeven.bubbleShootCount then 3 else 2) ∧
        (bossAtSeven.bubbleShootCount = 7 → added.length = 2) ∧
        (bossAtSeven.shootBubbles plainOps quietWorld (1 / 60)).1.bubbleShootCount
          = bossAtSeven.bubbleShootCount + 1 ∧
        (bossAtSeven.shootBubbles plainOps quietWorld (1 / 60)).1.bossState
          = bossAtSeven.bossState :=
  ⟨by decide, by decide,
    shootBubbles_first_phase plainOps bossAtSeven quietWorld (1 / 60) (by decide) (by decide)⟩

/-! ### Boss state totality (C8) -/

theorem reachesIdle_of_idle (ops : RealOps) (dt t : ℚ) (b : EnemyBoss)
    (h : b.bossState = BossState.Idle) : ReachesIdle ops dt t b :=
  fun _ => ⟨0, h⟩

theorem reachesIdle_of_tick (ops : RealOps) (dt t : ℚ) (b : EnemyBoss)
    (h : ∀ e, ReachesIdle ops dt (t + dt) (bossTick ops dt t e b)) : ReachesIdle ops dt t b := by
  intro env
  obtain ⟨n, hn⟩ := h (env 0) (fun k => env (k + 1))
  exact ⟨n + 1, hn⟩

theorem exists_nat_mul_gt (c : ℚ) (hc : 0 < c) (x : ℚ) : ∃ k : ℕ, x < k * c := by
  obtain ⟨k, hk⟩ := exists_nat_gt (x / c)
  exact ⟨k, by rwa [div_lt_iff₀ hc] at hk⟩

/-- A stage of the boss that either hands over to a configuration known to reach `Idle`, or
stays in the stage while a non-negative measure drops by a fixed positive amount, reaches
`Idle`. -/
theorem reachesIdle_of_measure (ops : RealOps) (dt : ℚ) (P : EnemyBoss → Prop)
    (m : ℚ → EnemyBoss → ℚ) (c : ℚ) (hc : 0 < c)
    (hstep : ∀ t b, P b → ∀ e,
      ReachesIdle ops dt (t + dt) (bossTick ops dt t e b) ∨
        (0 ≤ m t b ∧ P (bossTick ops dt t e b) ∧
          m (t + dt) (bossTick ops dt t e b) ≤ m t b - c)) :
    ∀ t b, P b → ReachesIdle ops dt t b := by
  intro t b hP
  obtain ⟨k, hk⟩ := exists_nat_mul_gt c hc (m t b)
  induction k generalizing t b with
  | zero =>
    apply reachesIdle_of_tick
    intro e
    rcases hstep t b hP e with h | ⟨h0, _, _⟩
    · exact h
    · simp at hk; linarith
  | succ k ih =>
    apply reachesIdle_of_tick
    intro e
    rcases hstep t b hP e with h | ⟨_, hP', hm⟩
    · exact h
    · apply ih _ _ hP'
      push_cast at hk; linarith

/-! #### `Hurt` and `Stunned` -/

theorem tick_hurt (ops : RealOps) (dt t : ℚ) (e : BossTick) (b : EnemyBoss)
    (hs : b.bossState = BossState.Hurt) :
    (t - b.lastStateTime > 3 → (bossTick ops dt t e b).bossState = BossState.Idle) ∧
      (¬ t - b.lastStateTime > 3 → (bossTick ops dt t e b).bossState = BossState.Hurt ∧
        (bossTick ops dt t e b).lastStateTime = b.lastStateTime) := by
  constructor <;> intro ht <;>
    simp [bossTick, EnemyBoss.updateSwitch, hs, ht, EnemyBoss.changeState]

theorem reachesIdle_hurt (ops : RealOps) (dt : ℚ) (hdt : 0 < dt) (t : ℚ) (b : EnemyBoss)
    (hs : b.bossState = BossState.Hurt) : ReachesIdle ops dt t b := by
  refine reachesIdle_of_measure ops dt (fun b => b.bossState = BossState.Hurt)
    (fun t b => 3 - (t - b.lastStateTime)) dt hdt ?_ t b hs
  intro t b hP e
  obtain ⟨h1, h2⟩ := tick_hurt ops dt t e b hP
  by_cases ht : t - b.lastStateTime > 3
  · exact Or.inl (reachesIdle_of_idle _ _ _ _ (h1 ht))
  · obtain ⟨h3, h4⟩ := h2 ht
    refine Or.inr ⟨?_, h3, ?_⟩
    · have := not_lt.mp ht; dsimp only; linarith
    · dsimp only; rw [h4]; linarith

theorem tick_stunned (ops : RealOps) (dt t : ℚ) (e : BossTick) (b : EnemyBoss)
    (hs : b.bossState = BossState.Stunned) :
    (t - b.lastStateTime > 10 → (bossTick ops dt t e b).bossState = BossState.Idle) ∧
      (¬ t - b.lastStateTime > 10 → (bossTick ops dt t e b).bossState = BossState.Stunned ∧
        (bossTick ops dt t e b).lastStateTime = b.lastStateTime) := by
  constructor <;> intro ht <;>
    simp [bossTick, EnemyBoss.updateSwitch, hs, ht, EnemyBoss.changeState]

theorem reachesIdle_stunned (ops : RealOps) (dt : ℚ) (hdt : 0 < dt) (t : ℚ) (b : EnemyBoss)
    (hs : b.bossState = BossState.Stunned) : ReachesIdle ops dt t b := by
  refine reachesIdle_of_measure ops dt (fun b => b.bossState = BossState.Stunned)
    (fun t b => 10 - (t - b.lastStateTime)) dt hdt ?_ t b hs
  intro t b hP e
  obtain ⟨h1, h2⟩ := tick_stunned ops dt t e b hP
  by_cases ht : t - b.lastStateTime > 10
  · exact Or.inl (reachesIdle_of_idle _ _ _ _ (h1 ht))
  · obtain ⟨h3, h4⟩ := h2 ht
    refine Or.inr ⟨?_, h3, ?_⟩
    · have := not_lt.mp ht; dsimp only; linarith
    · dsimp only; rw [h4]; linarith

/-! #### `BigBubble` -/

theorem tick_bigBubble_shoot (ops : RealOps) (dt t : ℚ) (e : BossTick) (b : EnemyBoss)
    (hs : b.bossState = BossState.BigBubble) (hb : b.bbState = BigBubbleState.Shoot) :
    (bossTick ops dt t e b).bossState = BossState.Idle := by
  simp [bossTick, EnemyBoss.updateSwitch, hs, hb, EnemyBoss.bigBubbleAttack,
    EnemyBoss.changeState]

theorem tick_bigBubble_windup (ops : RealOps) (dt t : ℚ) (e : BossTick) (b : EnemyBoss)
    (hs : b.bossState = BossState.BigBubble) (hb : b.bbState = BigBubbleState.Windup) :
    (bossTick ops dt t e b).bossState = BossState.BigBubble ∧
      (t - b.lastBBStateTime > 3 → (bossTick ops dt t e b).bbState = BigBubbleState.Shoot) ∧
      (¬ t - b.lastBBStateTime > 3 → (bossTick ops dt t e b).bbState = BigBubbleState.Windup ∧
        (bossTick ops dt t e b).lastBBStateTime = b.lastBBStateTime) := by
  refine ⟨?_, ?_, ?_⟩
  · by_cases ht : t - b.lastBBStateTime > 3 <;>
      simp [bossTick, EnemyBoss.updateSwitch, hs, hb, EnemyBoss.bigBubbleAttack, ht]
  · intro ht
    simp [bossTick, EnemyBoss.updateSwitch, hs, hb, EnemyBoss.bigBubbleAttack, ht]
  · intro ht
    simp [bossTick, EnemyBoss.updateSwitch, hs, hb, EnemyBoss.bigBubbleAttack, ht]

theorem reachesIdle_bigBubble (ops : RealOps) (dt : ℚ) (hdt : 0 < dt) (t : ℚ) (b : EnemyBoss)
    (hs : b.bossState = BossState.BigBubble) : ReachesIdle ops dt t b := by
  have hshoot : ∀ t b, b.bossState = BossState.BigBubble → b.bbState = BigBubbleState.Shoot →
      ReachesIdle ops dt t b := by
    intro t b h1 h2
    apply reachesIdle_of_tick
    intro e
    exact reachesIdle_of_idle _ _ _ _ (tick_bigBubble_shoot ops dt t e b h1 h2)
  cases hb : b.bbState with
  | Shoot => exact hshoot t b hs hb
  | Windup =>
    refine reachesIdle_of_measure ops dt
      (fun b => b.bossState = BossState.BigBubble ∧ b.bbState = BigBubbleState.Windup)
      (fun t b => 3 - (t - b.lastBBStateTime)) dt hdt ?_ t b ⟨hs, hb⟩
    intro t b hP e
    obtain ⟨h1, h2, h3⟩ := tick_bigBubble_windup ops dt t e b hP.1 hP.2
    by_cases ht : t - b.lastBBStateTime > 3
    · exact Or.inl (hshoot _ _ h1 (h2 ht))
    · obtain ⟨h4, h5⟩ := h3 ht
      refine Or.inr ⟨?_, ⟨h1, h4⟩, ?_⟩
      · have := not_lt.mp ht; dsimp only; linarith
      · dsimp only; rw [h5]; linarith

/-! #### `Sweep` -/

theorem tick_sweep_bringback (ops : RealOps) (dt t : ℚ) (e : BossTick) (b : EnemyBoss)
    (hs : b.bossState = BossState.Sweep) (hw : b.sweepState = SweepState.Bringback) :
    (b.clawAngle < -30 → (bossTick ops dt t e b).bossState = BossState.Sweep ∧
        (bossTick ops dt t e b).sweepState = SweepState.Bringback ∧
        (bossTick ops dt t e b).clawAngle = b.clawAngle + 150 * dt) ∧
      (¬ b.clawAngle < -30 → (bossTick ops dt t e b).bossState = BossState.Idle) := by
  constructor <;> intro ha <;>
    simp [bossTick, EnemyBoss.updateSwitch, hs, hw, EnemyBoss.sweepAttack, ha,
      EnemyBoss.changeState]

theorem tick_sweep_afterSlash (ops : RealOps) (dt t : ℚ) (e : BossTick) (b : EnemyBoss)
    (hs : b.bossState = BossState.Sweep) (hw : b.sweepState = SweepState.AfterSlash) :
    (bossTick ops dt t e b).bossState = BossState.Sweep ∧
      (t - b.lastSweepStateTime > 8 / 10 →
        (bossTick ops dt t e b).sweepState = SweepState.Bringback) ∧
      (¬ t - b.lastSweepStateTime > 8 / 10 →
        (bossTick ops dt t e b).sweepState = SweepState.AfterSlash ∧
        (bossTick ops dt t e b).lastSweepStateTime = b.lastSweepStateTime) := by
  refine ⟨?_, ?_, ?_⟩
  · by_cases ht : t - b.lastSweepStateTime > 8 / 10 <;>
      simp [bossTick, EnemyBoss.updateSwitch, hs, hw, EnemyBoss.sweepAttack, ht]
  all_goals
    intro ht
    simp [bossTick, EnemyBoss.updateSwitch, hs, hw, EnemyBoss.sweepAttack, ht]

theorem tick_sweep_slash (ops : RealOps) (dt t : ℚ) (e : BossTick) (b : EnemyBoss)
    (hs : b.bossState = BossState.Sweep) (hw : b.sweepState = SweepState.Slash) :
    (bossTick ops dt t e b).bossState = BossState.Sweep ∧
      (b.clawAngle > -160 → (bossTick ops dt t e b).sweepState = SweepState.Slash ∧
        (bossTick ops dt t e b).clawAngle = b.clawAngle + -600 * dt) ∧
      (¬ b.clawAngle > -160 → (bossTick ops dt t e b).sweepState = SweepState.AfterSlash) := by
  refine ⟨?_, ?_, ?_⟩
  · by_cases ha : b.clawAngle > -160 <;>
      simp [bossTick, EnemyBoss.updateSwitch, hs, hw, EnemyBoss.sweepAttack, ha]
  all_goals
    intro ha
    simp [bossTick, EnemyBoss.updateSwitch, hs, hw, EnemyBoss.sweepAttack, ha]

theorem tick_sweep_beforeSlash (ops : RealOps) (dt t : ℚ) (e : BossTick) (b : EnemyBoss)
    (hs : b.bossState = BossState.Sweep) (hw : b.sweepState = SweepState.BeforeSlash) :
    (bossTick ops dt t e b).bossState = BossState.Sweep ∧
      (t - b.lastSweepStateTime > 3 / 10 →
        (bossTick ops dt t e b).sweepState = SweepState.Slash) ∧
      (¬ t - b.lastSweepStateTime > 3 / 10 →
        (bossTick ops dt t e b).sweepState = SweepState.BeforeSlash ∧
        (bossTick ops dt t e b).lastSweepStateTime = b.lastSweepStateTime) := by
  refine ⟨?_, ?_, ?_⟩
  · by_cases ht : t - b.lastSweepStateTime > 3 / 10 <;>
      by_cases ht2 : t - b.lastSweepStateTime < 15 / 100 <;>
      simp [bossTick, EnemyBoss.updateSwitch, hs, hw, EnemyBoss.sweepAttack, ht, ht2]
  · intro ht
    simp [bossTick, EnemyBoss.updateSwitch, hs, hw, EnemyBoss.sweepAttack, ht]
  · intro ht
    by_cases ht2 : t - b.lastSweepStateTime < 15 / 100 <;>
      simp [bossTick, EnemyBoss.updateSwitch, hs, hw, EnemyBoss.sweepAttack, ht, ht2]

theorem tick_sweep_windup (ops : RealOps) (dt t : ℚ) (e : BossTick) (b : EnemyBoss)
    (hs : b.bossState = BossState.Sweep) (hw : b.sweepState = SweepState.Windup) :
    (bossTick ops dt t e b).bossState = BossState.Sweep ∧
      (b.clawAngle < 0 → (bossTick ops dt t e b).sweepState = SweepState.Windup ∧
        (bossTick ops dt t e b).clawAngle = b.clawAngle + 45 * dt) ∧
      (¬ b.clawAngle < 0 → (bossTick ops dt t e b).sweepState = SweepState.BeforeSlash) := by
  refine ⟨?_, ?_, ?_⟩
  · by_cases ha : b.clawAngle < 0 <;>
      simp [bossTick, EnemyBoss.updateSwitch, hs, hw, EnemyBoss.sweepAttack, ha]
  all_goals
    intro ha
    simp [bossTick, EnemyBoss.updateSwitch, hs, hw, EnemyBoss.sweepAttack, ha]

theorem reachesIdle_sweep_bringback (ops : RealOps) (dt : ℚ) (hdt : 0 < dt) (t : ℚ)
    (b : EnemyBoss) (hs : b.bossState = BossState.Sweep)
    (hw : b.sweepState = SweepState.Bringback) : ReachesIdle ops dt t b := by
  refine reachesIdle_of_measure ops dt
    (fun b => b.bossState = BossState.Sweep ∧ b.sweepState = SweepState.Bringback)
    (fun _ b => -30 - b.clawAngle) (150 * dt) (by positivity) ?_ t b ⟨hs, hw⟩
  intro t b hP e
  obtain ⟨h1, h2⟩ := tick_sweep_bringback ops dt t e b hP.1 hP.2
  by_cases ha : b.clawAngle < -30
  · obtain ⟨h3, h4, h5⟩ := h1 ha
    refine Or.inr ⟨?_, ⟨h3, h4⟩, ?_⟩
    · dsimp only; linarith
    · dsimp only; rw [h5]; linarith
  · exact Or.inl (reachesIdle_of_idle _ _ _ _ (h2 ha))

theorem reachesIdle_sweep_afterSlash (ops : RealOps) (dt : ℚ) (hdt : 0 < dt) (t : ℚ)
    (b : EnemyBoss) (hs : b.bossState = BossState.Sweep)
    (hw : b.sweepState = SweepState.AfterSlash) : ReachesIdle ops dt t b := by
  refine reachesIdle_of_measure ops dt
    (fun b => b.bossState = BossState.Sweep ∧ b.sweepState = SweepState.AfterSlash)
    (fun t b => 8 / 10 - (t - b.lastSweepStateTime)) dt hdt ?_ t b ⟨hs, hw⟩
  intro t b hP e
  obtain ⟨h1, h2, h3⟩ := tick_sweep_afterSlash ops dt t e b hP.1 hP.2
  by_cases ht : t - b.lastSweepStateTime > 8 / 10
  · exact Or.inl (reachesIdle_sweep_bringback ops dt hdt _ _ h1 (h2 ht))
  · obtain ⟨h4, h5⟩ := h3 ht
    refine Or.inr ⟨?_, ⟨h1, h4⟩, ?_⟩
    · have := not_lt.mp ht; dsimp only; linarith
    · dsimp only; rw [h5]; linarith

theorem reachesIdle_sweep_slash (ops : RealOps) (dt : ℚ) (hdt : 0 < dt) (t : ℚ)
    (b : EnemyBoss) (hs : b.bossState = BossState.Sweep)
    (hw : b.sweepState = SweepState.Slash) : ReachesIdle ops dt t b := by
  refine reachesIdle_of_measure ops dt
    (fun b => b.bossState = BossState.Sweep ∧ b.sweepState = SweepState.Slash)
    (fun _ b => b.clawAngle + 160) (600 * dt) (by positivity) ?_ t b ⟨hs, hw⟩
  intro t b hP e
  obtain ⟨h1, h2, h3⟩ := tick_sweep_slash ops dt t e b hP.1 hP.2
  by_cases ha : b.clawAngle > -160
  · obtain ⟨h4, h5⟩ := h2 ha
    refine Or.inr ⟨?_, ⟨h1, h4⟩, ?_⟩
    · dsimp only; linarith
    · dsimp only; rw [h5]; linarith
  · exact Or.inl (reachesIdle_sweep_afterSlash ops dt hdt _ _ h1 (h3 ha))

theorem reachesIdle_sweep_beforeSlash (ops : RealOps) (dt : ℚ) (hdt : 0 < dt) (t : ℚ)
    (b : EnemyBoss) (hs : b.bossState = BossState.Sweep)
    (hw : b.sweepState = SweepState.BeforeSlash) : ReachesIdle ops dt t b := by
  refine reachesIdle_of_measure ops dt
    (fun b => b.bossState = BossState.Sweep ∧ b.sweepState = SweepState.BeforeSlash)
    (fun t b => 3 / 10 - (t - b.lastSweepStateTime)) dt hdt ?_ t b ⟨hs, hw⟩
  intro t b hP e
  obtain ⟨h1, h2, h3⟩ := tick_sweep_beforeSlash ops dt t e b hP.1 hP.2
  by_cases ht : t - b.lastSweepStateTime > 3 / 10
  · exact Or.inl (reachesIdle_sweep_slash ops dt hdt _ _ h1 (h2 ht))
  · obtain ⟨h4, h5⟩ := h3 ht
    refine Or.inr ⟨?_, ⟨h1, h4⟩, ?_⟩
    · have := not_lt.mp ht; dsimp only; linarith
    · dsimp only; rw [h5]; linarith

theorem reachesIdle_sweep_windup (ops : RealOps) (dt : ℚ) (hdt : 0 < dt) (t : ℚ)
    (b : EnemyBoss) (hs : b.bossState = BossState.Sweep)
    (hw : b.sweepState = SweepState.Windup) : ReachesIdle ops dt t b := by
  refine reachesIdle_of_measure ops dt
    (fun b => b.bossState = BossState.Sweep ∧ b.sweepState = SweepState.Windup)
    (fun _ b => -b.clawAngle) (45 * dt) (by positivity) ?_ t b ⟨hs, hw⟩
  intro t b hP e
  obtain ⟨h1, h2, h3⟩ := tick_sweep_windup ops dt t e b hP.1 hP.2
  by_cases ha : b.clawAngle < 0
  · obtain ⟨h4, h5⟩ := h2 ha
    refine Or.inr ⟨?_, ⟨h1, h4⟩, ?_⟩
    · dsimp only; linarith
    · dsimp only; rw [h5]; linarith
  · exact Or.inl (reachesIdle_sweep_beforeSlash ops dt hdt _ _ h1 (h3 ha))

theorem reachesIdle_sweep (ops : RealOps) (dt : ℚ) (hdt : 0 < dt) (t : ℚ) (b : EnemyBoss)
    (hs : b.bossState = BossState.Sweep) : ReachesIdle ops dt t b := by
  cases hw : b.sweepState with
  | Windup => exact reachesIdle_sweep_windup ops dt hdt t b hs hw
  | BeforeSlash => exact reachesIdle_sweep_beforeSlash ops dt hdt t b hs hw
  | Slash => exact reachesIdle_sweep_slash ops dt hdt t b hs hw
  | AfterSlash => exact reachesIdle_sweep_afterSlash ops dt hdt t b hs hw
  | Bringback => exact reachesIdle_sweep_bringback ops dt hdt t b hs hw

/-! #### `Bubbles` -/

theorem shootBubbles_state (ops : RealOps) (b : EnemyBoss) (w : BossWorld) (dt : ℚ) :
    (b.bubbleShootCount < 40 →
        (b.shootBubbles ops w dt).1.bossState = b.bossState ∧
        (b.shootBubbles ops w dt).1.bubbleShootCount = b.bubbleShootCount + 1) ∧
      (¬ b.bubbleShootCount < 40 →
        (b.shootBubbles ops w dt).1.bossState = BossState.BigBubble) := by
  constructor
  · intro h
    by_cases h8 : b.bubbleShootCount < 8
    · simp [EnemyBoss.shootBubbles, h8]
    · simp [EnemyBoss.shootBubbles, h8, h]
  · intro h
    have h8 : ¬ b.bubbleShootCount < 8 := by omega
    simp [EnemyBoss.shootBubbles, h8, h, EnemyBoss.changeState]

theorem tick_bubbles_wait (ops : RealOps) (dt t : ℚ) (e : BossTick) (b : EnemyBoss)
    (hs : b.bossState = BossState.Bubbles) (hc : ¬ b.shootCooldown ≤ 0) :
    (bossTick ops dt t e b).bossState = BossState.Bubbles ∧
      (bossTick ops dt t e b).bubbleShootCount = b.bubbleShootCount ∧
      (bossTick ops dt t e b).shootCooldown = b.shootCooldown - dt := by
  simp [bossTick, EnemyBoss.updateSwitch, hs, hc]

theorem tick_bubbles_fire (ops : RealOps) (dt t : ℚ) (e : BossTick) (b : EnemyBoss)
    (hs : b.bossState = BossState.Bubbles) (hc : b.shootCooldown ≤ 0) :
    (bossTick ops dt t e b).bossState = BossState.Sweep ∨
      (bossTick ops dt t e b).bossState = BossState.BigBubble ∨
      ((bossTick ops dt t e b).bossState = BossState.Bubbles ∧
        b.bubbleShootCount < 40 ∧
        (bossTick ops dt t e b).bubbleShootCount = b.bubbleShootCount + 1) := by
  have key := shootBubbles_state ops { b with toEnemy := e.body }
    ⟨t, e.bossStarted, e.player, e.newEnemiesQueue⟩ dt
  by_cases hshoot : e.player.isPuffed = true ∧ ¬ e.draw = 1
  · left
    simp [bossTick, EnemyBoss.updateSwitch, hs, hc, hshoot.1, hshoot.2, EnemyBoss.changeState]
  · right
    have htick : bossTick ops dt t e b
        = { (EnemyBoss.shootBubbles ops { b with toEnemy := e.body }
              ⟨t, e.bossStarted, e.player, e.newEnemiesQueue⟩ dt).1 with
            shootCooldown := (EnemyBoss.shootBubbles ops { b with toEnemy := e.body }
              ⟨t, e.bossStarted, e.player, e.newEnemiesQueue⟩ dt).1.shootCooldown - dt } := by
      by_cases hp : e.player.isPuffed = true
      · have hd : e.draw = 1 := by
          by_contra hd; exact hshoot ⟨hp, hd⟩
        simp [bossTick, EnemyBoss.updateSwitch, hs, hc, hp, hd]
      · simp [bossTick, EnemyBoss.updateSwitch, hs, hc, hp]
    rw [htick]
    by_cases h40 : b.bubbleShootCount < 40
    · right
      obtain ⟨k1, k2⟩ := key.1 h40
      exact ⟨k1.trans hs, h40, k2⟩
    · left
      exact key.2 h40

theorem reachesIdle_bubbles_step (ops : RealOps) (dt : ℚ) (hdt : 0 < dt) (M : ℤ)
    (hnext : 0 ≤ M - 1 → ∀ t b, b.bossState = BossState.Bubbles →
      40 - b.bubbleShootCount ≤ M - 1 → ReachesIdle ops dt t b) :
    ∀ t b, b.bossState = BossState.Bubbles → 40 - b.bubbleShootCount ≤ M →
      ReachesIdle ops dt t b := by
  intro t b hs hM
  refine reachesIdle_of_measure ops dt
    (fun b => b.bossState = BossState.Bubbles ∧ 40 - b.bubbleShootCount ≤ M)
    (fun _ b => b.shootCooldown) dt hdt ?_ t b ⟨hs, hM⟩
  intro t b hP e
  by_cases hc : b.shootCooldown ≤ 0
  · left
    rcases tick_bubbles_fire ops dt t e b hP.1 hc with h | h | ⟨h1, h2, h3⟩
    · exact reachesIdle_sweep ops dt hdt _ _ h
    · exact reachesIdle_bigBubble ops dt hdt _ _ h
    · have := hP.2
      exact hnext (by omega) _ _ h1 (by rw [h3]; omega)
  · right
    obtain ⟨h1, h2, h3⟩ := tick_bubbles_wait ops dt t e b hP.1 hc
    refine ⟨?_, ⟨h1, by rw [h2]; exact hP.2⟩, ?_⟩
    · have := not_le.mp hc; dsimp only; linarith
    · dsimp only; rw [h3]

theorem reachesIdle_bubbles (ops : RealOps) (dt : ℚ) (hdt : 0 < dt) (t : ℚ) (b : EnemyBoss)
    (hs : b.bossState = BossState.Bubbles) : ReachesIdle ops dt t b := by
  have main : ∀ n : ℕ, ∀ t b, b.bossState = BossState.Bubbles →
      40 - b.bubbleShootCount ≤ (n : ℤ) → ReachesIdle ops dt t b := by
    intro n
    induction n with
    | zero =>
      exact reachesIdle_bubbles_step ops dt hdt 0 (fun h => absurd h (by norm_num))
    | succ n ih =>
      refine reachesIdle_bubbles_step ops dt hdt ((n + 1 : ℕ) : ℤ) (fun _ t b h1 h2 => ?_)
      exact ih t b h1 (by push_cast at h2; omega)
  exact main (40 - b.bubbleShootCount).toNat t b hs (Int.self_le_toNat _)

/-! #### `Waiting` and the whole machine -/

theorem tick_waiting (ops : RealOps) (dt t : ℚ) (e : BossTick) (b : EnemyBoss)
    (hs : b.bossState = BossState.Waiting) :
    (e.bossStarted = true → (bossTick ops dt t e b).bossState = BossState.Idle) ∧
      (e.bossStarted = false → (bossTick ops dt t e b).bossState = BossState.Waiting) := by
  constructor <;> intro h <;>
    simp [bossTick, EnemyBoss.updateSwitch, hs, h, EnemyBoss.changeState]

theorem bossRun_waiting (ops : RealOps) (dt : ℚ) (n : ℕ) :
    ∀ (t : ℚ) (env : ℕ → BossTick) (b : EnemyBoss), b.bossState = BossState.Waiting →
      (∀ k, (env k).bossStarted = false) →
      (bossRun ops dt n t env b).bossState = BossState.Waiting := by
  induction n with
  | zero => intro t env b hs _; exact hs
  | succ n ih =>
    intro t env b hs henv
    exact ih _ _ _ ((tick_waiting ops dt t (env 0) b hs).2 (henv 0)) (fun k => henv (k + 1))

theorem reaches_from_waiting (ops : RealOps) (dt : ℚ) (k : ℕ) :
    ∀ (t : ℚ) (env : ℕ → BossTick) (b : EnemyBoss), b.bossState = BossState.Waiting →
      (env k).bossStarted = true →
      ∃ n, (bossRun ops dt n t env b).bossState = BossState.Idle := by
  induction k with
  | zero =>
    intro t env b hs h
    exact ⟨1, (tick_waiting ops dt t (env 0) b hs).1 h⟩
  | succ k ih =>
    intro t env b hs h
    cases h0 : (env 0).bossStarted with
    | true => exact ⟨1, (tick_waiting ops dt t (env 0) b hs).1 h0⟩
    | false =>
      obtain ⟨n, hn⟩ := ih (t + dt) (fun j => env (j + 1)) _
        ((tick_waiting ops dt t (env 0) b hs).2 h0) h
      exact ⟨n + 1, hn⟩

/-- Claim C8 fails as stated: the freshly constructed boss is `Waiting`, and as long as the
encounter is not started no number of ticks brings it to `Idle`. -/
theorem boss_waiting_never_idle :
    ¬ ∃ n : ℕ, (bossRun plainOps (1 / 60) n 0 (fun _ => quietTick) freshBoss).bossState
      = BossState.Idle := by
  rintro ⟨n, hn⟩
  have h := bossRun_waiting plainOps (1 / 60) n 0 (fun _ => quietTick) freshBoss rfl
    (fun _ => rfl)
  rw [h] at hn
  exact absurd hn (by decide)

/-- Claim C8, amended: with a fixed positive time step, from every boss state other than
`Waiting` (any sub-state, claw angle, cooldown, counters and time stamps, any random draws,
any player and any motion of the boss body) the boss reaches `Idle` after finitely many
ticks; from `Waiting` it does so provided the encounter is started at some tick. -/
theorem boss_reaches_idle (ops : RealOps) (time_delta : ℚ) (hdt : 0 < time_delta) (t : ℚ)
    (env : ℕ → BossTick) (b : EnemyBoss)
    (h : b.bossState ≠ BossState.Waiting ∨ ∃ k, (env k).bossStarted = true) :
    ∃ n, (bossRun ops time_delta n t env b).bossState = BossState.Idle := by
  cases hs : b.bossState with
  | Waiting =>
    rcases h with h | ⟨k, hk⟩
    · exact absurd hs h
    · exact reaches_from_waiting ops time_delta k t env b hs hk
  | Idle => exact ⟨0, hs⟩
  | Bubbles => exact reachesIdle_bubbles ops time_delta hdt t b hs env
  | BigBubble => exact reachesIdle_bigBubble ops time_delta hdt t b hs env
  | Sweep => exact reachesIdle_sweep ops time_delta hdt t b hs env
  | Stunned => exact reachesIdle_stunned ops time_delta hdt t b hs env
  | Hurt => exact reachesIdle_hurt ops time_delta hdt t b hs env



/-- Witness for C8: the boss in state `Bubbles` about to fire its eighth volley, ticked at
60 Hz. -/
theorem boss_reaches_idle_witness :
    (0 : ℚ) < 1 / 60 ∧ bossAtSeven.bossState ≠ BossState.Waiting ∧
      ∃ n, (bossRun plainOps (1 / 60) n 0 (fun _ => quietTick) bossAtSeven).bossState
        = BossState.Idle :=
  ⟨by norm_num, by decide,
    boss_reaches_idle plainOps (1 / 60) (by norm_num) 0 (fun _ => quietTick) bossAtSeven
      (Or.inl (by decide))⟩

/-! ### Predicates carried through the movement engine -/

theorem handleCollision_pred (P : Actor → Prop) (position : Vector2f)
    (cb : Option (Actor → Actor)) (move sign : ℤ) (a : Actor) (coord : Axis) (ss : List Solid)
    (hadd : ∀ b : Actor, P b → P (b.addCoord coord sign))
    (hcb : ∀ f, cb = some f → ∀ b : Actor, P b → P (f b)) (ha : P a) :
    P (handleCollision position cb move sign a coord ss).actor := by
  unfold handleCollision
  simp only
  split_ifs with hc
  · exact hadd a ha
  · cases cb with
    | none => exact ha
    | some f => exact hcb f rfl a ha

theorem moveLoop_pred (P : Actor → Prop) (coord : Axis) (cb : Option (Actor → Actor))
    (sign : ℤ) (hadd : ∀ b : Actor, P b → P (b.addCoord coord sign))
    (hcb : ∀ f, cb = some f → ∀ b : Actor, P b → P (f b)) :
    ∀ (n : ℕ) (move : ℤ) (a : Actor) (ss : List Solid), P a →
      P (moveLoop coord cb sign n move a ss).actor := by
  intro n
  induction n with
  | zero => intro move a ss ha; exact ha
  | succ k ih =>
    intro move a ss ha
    rw [moveLoop]
    by_cases hm : move = 0
    · simp [hm, ha]
    · rw [if_pos hm]
      simp only
      split_ifs with hcol
      · exact handleCollision_pred P _ cb _ _ a coord ss hadd hcb ha
      · exact ih _ _ _ (handleCollision_pred P _ cb _ _ a coord ss hadd hcb ha)

theorem addCoord_pred (P : Actor → Prop) (hP : IgnoresMotion P) (b : Actor) (coord : Axis)
    (sign : ℤ) (hb : P b) : P (b.addCoord coord sign) := by
  cases coord <;> exact hP.1 b _ hb

theorem moveX_pred (P : Actor → Prop) (hP : IgnoresMotion P) (a : Actor) (ss : List Solid)
    (amount : ℚ) (cb : Option (Actor → Actor))
    (hcb : ∀ f, cb = some f → ∀ b : Actor, P b → P (f b)) (ha : P a) :
    P (a.moveX ss amount cb).actor := by
  unfold Actor.moveX
  simp only
  split_ifs with hm
  · exact moveLoop_pred P Axis.X cb _ (fun b hb => addCoord_pred P hP b _ _ hb) hcb _ _ _ _
      (hP.2.1 _ _ (hP.2.1 _ _ ha))
  · exact hP.2.1 _ _ ha

theorem moveY_pred (P : Actor → Prop) (hP : IgnoresMotion P) (a : Actor) (ss : List Solid)
    (amount : ℚ) (cb : Option (Actor → Actor))
    (hcb : ∀ f, cb = some f → ∀ b : Actor, P b → P (f b)) (ha : P a) :
    P (a.moveY ss amount cb).actor := by
  unfold Actor.moveY
  simp only
  split_ifs with hm
  · exact moveLoop_pred P Axis.Y cb _ (fun b hb => addCoord_pred P hP b _ _ hb) hcb _ _ _ _
      (hP.2.2 _ _ (hP.2.2 _ _ ha))
  · exact hP.2.2 _ _ ha

theorem update_pred (P : Actor → Prop) (hP : IgnoresMotion P) (ops : MathOps)
    (kind : ActorKind) (a : Actor) (ss : List Solid) (dt : ℚ) (input : Option ControllerInput)
    (hx : ∀ b : Actor, P b → P (kind.onCollideX b))
    (hy : ∀ b : Actor, P b → P (kind.onCollideY b))
    (ha : P (a.beforeMove ops kind dt input)) :
    P (a.update ops kind ss dt input).actor := by
  unfold Actor.update
  simp only
  apply moveY_pred P hP _ _ _ _ (fun f hf b hb => by cases hf; exact hy b hb)
  exact moveX_pred P hP _ _ _ _ (fun f hf b hb => by cases hf; exact hx b hb) ha

/-! ### Velocity cap (C18) -/

/-- Claim C18 fails.  With `velocityLimit = 600` and the velocity (1000, 1000) entering the
clamp step, the `if / else if` chain caps `y` and then skips the tests on `x`: the velocity
handed to the movement engine is (1000, 600), with `x` above the limit. -/
theorem clampVelocity_caps_one_axis :
    (0 : ℚ) ≤ diagonalActor.velocityLimit ∧ diagonalActor.velocity = ⟨1000, 1000⟩ ∧
      diagonalActor.clampVelocity.velocity = ⟨1000, 600⟩ ∧
      ¬ diagonalActor.clampVelocity.velocity.x ≤ diagonalActor.clampVelocity.velocityLimit := by
  decide!

/-- The vertical component always leaves the clamp step within the limit. -/
theorem clampVelocity_y_within (a : Actor) (hlim : 0 ≤ a.velocityLimit) :
    -a.velocityLimit ≤ a.clampVelocity.velocity.y ∧
      a.clampVelocity.velocity.y ≤ a.velocityLimit := by
  unfold Actor.clampVelocity
  split_ifs <;> refine ⟨?_, ?_⟩ <;> (try dsimp only) <;> linarith

/-- The horizontal component leaves the clamp step within the limit when the vertical one
entered it within the limit. -/
theorem clampVelocity_x_within (a : Actor) (hlim : 0 ≤ a.velocityLimit)
    (hy : -a.velocityLimit ≤ a.velocity.y ∧ a.velocity.y ≤ a.velocityLimit) :
    -a.velocityLimit ≤ a.clampVelocity.velocity.x ∧
      a.clampVelocity.velocity.x ≤ a.velocityLimit := by
  unfold Actor.clampVelocity
  split_ifs <;> refine ⟨?_, ?_⟩ <;> (try dsimp only) <;> linarith [hy.1, hy.2]

/-! ### Health and the death timer (C13, C14) -/

/-- Counterexample to claim C13: the fresh fish (health 5) rammed by the inflated player at
a speed difference of 6000 takes `6000 / 1000 = 6` points of damage in
`EnemyFish::update` and ends with health -1. -/
theorem fish_rammed_health_negative :
    (0 : ℤ) ≤ freshFish.health ∧
      (1 : ℤ) ≤ speedDamage (freshFish.velocity.sub puffedPlayerOnFish.velocity) ∧
      (freshFish.update plainMath (ramWorld 0) (1 / 2)).1.health = -1 ∧
      ¬ (0 : ℤ) ≤ (freshFish.update plainMath (ramWorld 0) (1 / 2)).1.health := by
  decide!

/-- The code of `Actor::hurt` subtracts the damage from the health, without a floor. -/
theorem hurt_health_sub (ops : RealOps) (kind : ActorKind) (a : Actor) (hurterCenter : Vector2f)
    (damage : ℤ) : (a.hurt ops kind hurterCenter damage).health = a.health - damage := by
  unfold Actor.hurt
  simp only
  split_ifs <;> rfl

/-- Claim C13, amended.  After `hurt(hurter, damage)` the health is the health before minus
the damage; it is non-negative exactly when the damage does not exceed the health before;
when it is zero or negative the death timer is set to 1, and otherwise the timer is left
as it was. -/
theorem hurt_health (ops : RealOps) (kind : ActorKind) (a : Actor) (hurterCenter : Vector2f)
    (damage : ℤ) :
    (a.hurt ops kind hurterCenter damage).health = a.health - damage ∧
      (0 ≤ (a.hurt ops kind hurterCenter damage).health ↔ damage ≤ a.health) ∧
      ((a.hurt ops kind hurterCenter damage).health ≤ 0 →
        (a.hurt ops kind hurterCenter damage).dyingTime = 1) ∧
      (0 < (a.hurt ops kind hurterCenter damage).health →
        (a.hurt ops kind hurterCenter damage).dyingTime = a.dyingTime) := by
  have hh := hurt_health_sub ops kind a hurterCenter damage
  refine ⟨hh, ?_, ?_, ?_⟩
  · rw [hh]; omega
  · intro h
    rw [hh] at h
    unfold Actor.hurt
    simp only
    split_ifs <;> rfl
  · intro h
    rw [hh] at h
    unfold Actor.hurt
    simp only
    split_ifs <;> first | rfl | (exfalso; omega)

/-- Witness for C13: the generic actor with 3 health points hurt by 1 and by 5. -/
theorem hurt_health_witness :
    (wallActor.hurt plainOps ActorKind.other ⟨0, 0⟩ 1).health = 2 ∧
      (wallActor.hurt plainOps ActorKind.other ⟨0, 0⟩ 5).health = wallActor.health - 5 ∧
      (wallActor.hurt plainOps ActorKind.other ⟨0, 0⟩ 5).dyingTime = 1 :=
  ⟨by decide!, (hurt_health plainOps ActorKind.other wallActor ⟨0, 0⟩ 5).1,
    (hurt_health plainOps ActorKind.other wallActor ⟨0, 0⟩ 5).2.2.1 (by decide!)⟩

theorem hurt_isDead (ops : RealOps) (kind : ActorKind) (a : Actor) (hurterCenter : Vector2f)
    (damage : ℤ) :
    (a.hurt ops kind hurterCenter damage).isDead = a.isDead ∧
      (a.hurt ops kind hurterCenter damage).visible = a.visible := by
  unfold Actor.hurt
  simp only
  split_ifs <;> exact ⟨rfl, rfl⟩

theorem kind_die_dyingTime (kind : ActorKind) (a : Actor) :
    (kind.die a).dyingTime = a.dyingTime ∧ (kind.die a).diesOnImpact = a.diesOnImpact := by
  cases kind <;> exact ⟨rfl, rfl⟩

theorem kind_die_dead (kind : ActorKind) (hk : kind ≠ ActorKind.boss) (a : Actor) :
    (kind.die a).isDead = true ∧ (kind.die a).visible = false := by
  cases kind <;> first | exact absurd rfl hk | exact ⟨rfl, rfl⟩

theorem accelerate_fields (ops : MathOps) (a : Actor) (move : ℚ × ℚ) (dt : ℚ) :
    (a.accelerate ops move dt).isDead = a.isDead ∧
      (a.accelerate ops move dt).visible = a.visible ∧
      (a.accelerate ops move dt).dyingTime = a.dyingTime ∧
      (a.accelerate ops move dt).diesOnImpact = a.diesOnImpact ∧
      (a.accelerate ops move dt).position = a.position ∧
      (a.accelerate ops move dt).hitRect = a.hitRect ∧
      (a.accelerate ops move dt).noClip = a.noClip :=
  ⟨rfl, rfl, rfl, rfl, rfl, rfl, rfl⟩

theorem clampVelocity_fields (a : Actor) :
    a.clampVelocity.isDead = a.isDead ∧ a.clampVelocity.visible = a.visible ∧
      a.clampVelocity.dyingTime = a.dyingTime ∧
      a.clampVelocity.diesOnImpact = a.diesOnImpact ∧
      a.clampVelocity.position = a.position ∧ a.clampVelocity.hitRect = a.hitRect ∧
      a.clampVelocity.noClip = a.noClip := by
  unfold Actor.clampVelocity
  split_ifs <;> exact ⟨rfl, rfl, rfl, rfl, rfl, rfl, rfl⟩

theorem beforeMove_fields (ops : MathOps) (kind : ActorKind) (a : Actor) (dt : ℚ)
    (input : Option ControllerInput) :
    (a.beforeMove ops kind dt input).isDead = (a.tickDeath kind dt).isDead ∧
      (a.beforeMove ops kind dt input).visible = (a.tickDeath kind dt).visible ∧
      (a.beforeMove ops kind dt input).dyingTime = (a.tickDeath kind dt).dyingTime ∧
      (a.beforeMove ops kind dt input).diesOnImpact = (a.tickDeath kind dt).diesOnImpact ∧
      (a.beforeMove ops kind dt input).position = (a.tickDeath kind dt).position ∧
      (a.beforeMove ops kind dt input).hitRect = (a.tickDeath kind dt).hitRect ∧
      (a.beforeMove ops kind dt input).noClip = (a.tickDeath kind dt).noClip := by
  unfold Actor.beforeMove
  simp only
  obtain ⟨c1, c2, c3, c4, c5, c6, c7⟩ := clampVelocity_fields
    ((a.tickDeath kind dt).accelerate ops ((a.tickDeath kind dt).controlAxes input) dt)
  obtain ⟨d1, d2, d3, d4, d5, d6, d7⟩ := accelerate_fields ops (a.tickDeath kind dt)
    ((a.tickDeath kind dt).controlAxes input) dt
  exact ⟨c1.trans d1, c2.trans d2, c3.trans d3, c4.trans d4, c5.trans d5, c6.trans d6,
    c7.trans d7⟩

theorem tickDeath_geometry (kind : ActorKind) (a : Actor) (dt : ℚ) :
    (a.tickDeath kind dt).position = a.position ∧ (a.tickDeath kind dt).hitRect = a.hitRect ∧
      (a.tickDeath kind dt).noClip = a.noClip ∧
      (a.tickDeath kind dt).diesOnImpact = a.diesOnImpact := by
  unfold Actor.tickDeath
  dsimp only
  split_ifs <;> cases kind <;> exact ⟨rfl, rfl, rfl, rfl⟩

theorem tickDeath_keeps_invariant (kind : ActorKind) (a : Actor) (dt : ℚ)
    (h : 0 < a.dyingTime → a.isDead = false) :
    0 < (a.tickDeath kind dt).dyingTime → (a.tickDeath kind dt).isDead = false := by
  unfold Actor.tickDeath
  dsimp only
  split_ifs with h1 h2
  · intro h0
    rw [(kind_die_dyingTime kind _).1] at h0
    exact absurd h0 (lt_irrefl 0)
  · intro _; exact h h1
  · exact h

theorem tickDeath_expires (kind : ActorKind) (hk : kind ≠ ActorKind.boss) (a : Actor) (dt : ℚ)
    (h0 : 0 < a.dyingTime) (h1 : a.dyingTime - dt ≤ 0) :
    (a.tickDeath kind dt).isDead = true ∧ (a.tickDeath kind dt).visible = false ∧
      (a.tickDeath kind dt).dyingTime = 0 := by
  unfold Actor.tickDeath
  rw [if_pos h0]
  simp only [h1, if_true]
  exact ⟨(kind_die_dead kind hk _).1, (kind_die_dead kind hk _).2,
    (kind_die_dyingTime kind _).1⟩

theorem tickDeath_idle (kind : ActorKind) (a : Actor) (dt : ℚ) (h : a.dyingTime = 0) :
    a.tickDeath kind dt = a := by
  unfold Actor.tickDeath
  rw [if_neg (by rw [h]; exact lt_irrefl 0)]

/-- Claim C14 fails on the code: the fresh fish under the ramming player, after three calls
of `EnemyFish::update` of half a second.  The first call starts the death timer, the third
lets it expire inside `Actor::update` (`isDead = true`, `dyingTime = 0`); `EnemyFish::update`
then tests `if (dyingTime)`, not `isDying()` as `EnemyShrimp::update` does, so it runs the
player collision on the dead fish, whose `hurt` restarts the timer: the fish ends dead with
`dyingTime = 1`. -/
theorem fish_dead_with_running_timer :
    freshFish.isDead = false ∧ freshFish.dyingTime = 0 ∧
      fishAfterThreeTicks.isDead = true ∧ fishAfterThreeTicks.dyingTime = 1 ∧
      ¬ (0 < fishAfterThreeTicks.dyingTime → fishAfterThreeTicks.isDead = false) := by
  decide!

theorem onCollide_keeps_timer_invariant (kind : ActorKind) (b : Actor)
    (h : b.diesOnImpact = false ∧ (0 < b.dyingTime → b.isDead = false)) :
    ((kind.onCollideX b).diesOnImpact = false ∧
        (0 < (kind.onCollideX b).dyingTime → (kind.onCollideX b).isDead = false)) ∧
      ((kind.onCollideY b).diesOnImpact = false ∧
        (0 < (kind.onCollideY b).dyingTime → (kind.onCollideY b).isDead = false)) := by
  unfold ActorKind.onCollideX ActorKind.onCollideY
  simp only [h.1, Bool.false_eq_true, if_false]
  constructor <;> split_ifs <;> exact ⟨rfl, h.2⟩

theorem onCollide_keeps_dead (kind : ActorKind) (hk : kind ≠ ActorKind.boss) (b : Actor)
    (h : b.isDead = true ∧ b.visible = false ∧ b.dyingTime = 0) :
    ((kind.onCollideX b).isDead = true ∧ (kind.onCollideX b).visible = false ∧
        (kind.onCollideX b).dyingTime = 0) ∧
      ((kind.onCollideY b).isDead = true ∧ (kind.onCollideY b).visible = false ∧
        (kind.onCollideY b).dyingTime = 0) := by
  have hd : (if b.diesOnImpact = true then kind.die b else b).isDead = true ∧
      (if b.diesOnImpact = true then kind.die b else b).visible = false ∧
      (if b.diesOnImpact = true then kind.die b else b).dyingTime = 0 := by
    split_ifs
    · exact ⟨(kind_die_dead kind hk b).1, (kind_die_dead kind hk b).2,
        (kind_die_dyingTime kind b).1.trans h.2.2⟩
    · exact h
  unfold ActorKind.onCollideX ActorKind.onCollideY
  simp only
  generalize (if b.diesOnImpact = true then kind.die b else b) = a1 at hd ⊢
  constructor <;> split_ifs <;> exact hd

/-- The delayed death inside `Actor::update`.  `hurt` never changes `isDead`.  For an actor
that does not die on impact, `Actor::update` keeps the invariant `dyingTime > 0` implies
`isDead = false`.  For every kind but the boss, the update in which the running timer
reaches 0 ends with `isDead = true`, `visible = false` and `dyingTime = 0`. -/
theorem update_delayed_death (ops : MathOps) (kind : ActorKind) (a : Actor)
    (solids : List Solid) (time_delta : ℚ) (input : Option ControllerInput) :
    (∀ (rops : RealOps) (hurterCenter : Vector2f) (damage : ℤ),
        (a.hurt rops kind hurterCenter damage).isDead = a.isDead) ∧
      (a.diesOnImpact = false → (0 < a.dyingTime → a.isDead = false) →
        (0 < (a.update ops kind solids time_delta input).actor.dyingTime →
          (a.update ops kind solids time_delta input).actor.isDead = false)) ∧
      (kind ≠ ActorKind.boss → 0 < a.dyingTime → a.dyingTime - time_delta ≤ 0 →
        (a.update ops kind solids time_delta input).actor.isDead = true ∧
          (a.update ops kind solids time_delta input).actor.visible = false ∧
          (a.update ops kind solids time_delta input).actor.dyingTime = 0) := by
  refine ⟨fun rops c d => (hurt_isDead rops kind a c d).1, ?_, ?_⟩
  · intro hdi hinv
    have key := update_pred
      (fun b : Actor => b.diesOnImpact = false ∧ (0 < b.dyingTime → b.isDead = false))
      ⟨fun _ _ h => h, fun _ _ h => h, fun _ _ h => h⟩ ops kind a solids time_delta input
      (fun b hb => (onCollide_keeps_timer_invariant kind b hb).1)
      (fun b hb => (onCollide_keeps_timer_invariant kind b hb).2)
    obtain ⟨b1, _, b3, b4, _, _, _⟩ := beforeMove_fields ops kind a time_delta input
    refine (key ⟨?_, ?_⟩).2
    · rw [b4, (tickDeath_geometry kind a time_delta).2.2.2]; exact hdi
    · rw [b3, b1]; exact tickDeath_keeps_invariant kind a time_delta hinv
  · intro hk h0 h1
    have key := update_pred
      (fun b : Actor => b.isDead = true ∧ b.visible = false ∧ b.dyingTime = 0)
      ⟨fun _ _ h => h, fun _ _ h => h, fun _ _ h => h⟩ ops kind a solids time_delta input
      (fun b hb => (onCollide_keeps_dead kind hk b hb).1)
      (fun b hb => (onCollide_keeps_dead kind hk b hb).2)
    obtain ⟨b1, b2, b3, _, _, _, _⟩ := beforeMove_fields ops kind a time_delta input
    apply key
    rw [b1, b2, b3]
    exact tickDeath_expires kind hk a time_delta h0 h1

/-- The rammed fish, whose timer runs at 1, updated by half a second (the invariant is
kept) and by one second (the timer expires). -/
theorem update_delayed_death_witness :
    fishAfterRam.diesOnImpact = false ∧ (0 : ℚ) < fishAfterRam.dyingTime ∧
      fishAfterRam.isDead = false ∧ fishAfterRam.dyingTime - 1 ≤ 0 ∧
      (0 < (fishAfterRam.toActor.update plainMath ActorKind.fish [] (1 / 2) none).actor.dyingTime →
        (fishAfterRam.toActor.update plainMath ActorKind.fish [] (1 / 2) none).actor.isDead
          = false) ∧
      (fishAfterRam.toActor.update plainMath ActorKind.fish [] 1 none).actor.isDead = true ∧
      (fishAfterRam.toActor.update plainMath ActorKind.fish [] 1 none).actor.visible = false ∧
      (fishAfterRam.toActor.update plainMath ActorKind.fish [] 1 none).actor.dyingTime = 0 :=
  ⟨by decide!, by decide!, by decide!, by decide!,
    (update_delayed_death plainMath ActorKind.fish fishAfterRam.toActor [] (1 / 2) none).2.1
      (by decide!) (fun _ => by decide!),
    (update_delayed_death plainMath ActorKind.fish fishAfterRam.toActor [] 1 none).2.2
      (by decide) (by decide!) (by decide!)⟩

/-! ### Level bounds (C12) -/

/-- Counterexample to claim C12: in the empty 1000 by 1000 level, the actor at the origin
drifting left ends `Actor::update` with its hitbox at x = -60, outside the level bounds. -/
theorem update_leaves_open_level :
    leftwardActor.noClip = false ∧
      leftwardActor.getHitbox.withinLevel openLevel.width openLevel.height ∧
      (leftwardActor.update plainMath ActorKind.other openLevel.solids 1 none).actor.getHitbox
        = ⟨-60, 0, 10, 10⟩ ∧
      ¬ (leftwardActor.update plainMath ActorKind.other openLevel.solids 1
          none).actor.getHitbox.withinLevel openLevel.width openLevel.height := by
  decide!

theorem SIGN_unit (move : ℤ) (h : move ≠ 0) : SIGN move = 1 ∨ SIGN move = -1 := by
  unfold SIGN
  rcases lt_or_gt_of_ne h with h1 | h1
  · right; simp [h1, not_lt.mpr h1.le]
  · left; simp [h1, not_lt.mpr (le_of_lt h1)]

theorem collideAt_eq_none_iff (a : Actor) (ss : List Solid) (p : Vector2f) :
    a.collideAt ss p = none ↔
      ∀ s ∈ ss, s.collidable = true → (a.hitRect.placedAt p).collides s.rect = false := by
  unfold Actor.collideAt
  rw [List.find?_eq_none]
  constructor
  · intro h s hs hc
    have := h s hs
    simpa [hc, Actor.getHitboxAt, Rect2f.placedAt] using this
  · intro h s hs
    cases hc : s.collidable with
    | false => simp
    | true =>
      have := h s hs hc
      simp [Actor.getHitboxAt, Rect2f.placedAt] at this ⊢
      simp [this]

theorem moveLoop_inside (coord : Axis) (cb : Option (Actor → Actor)) (sign : ℤ)
    (hs : sign = 1 ∨ sign = -1) (lvl : Level) (hitRect : Rect2f)
    (hnb : ∀ s ∈ lvl.solids, s.collidable = true → s.breakable = false)
    (hwall : lvl.walled hitRect)
    (hcb : ∀ f, cb = some f → ∀ b : Actor,
      (f b).position = b.position ∧ (f b).hitRect = b.hitRect ∧ (f b).noClip = b.noClip) :
    ∀ (n : ℕ) (move : ℤ) (a : Actor), a.noClip = false → a.hitRect = hitRect →
      (hitRect.placedAt a.position).withinLevel lvl.width lvl.height →
      (moveLoop coord cb sign n move a lvl.solids).solids = lvl.solids ∧
        (moveLoop coord cb sign n move a lvl.solids).actor.noClip = false ∧
        (moveLoop coord cb sign n move a lvl.solids).actor.hitRect = hitRect ∧
        (hitRect.placedAt (moveLoop coord cb sign n move a lvl.solids).actor.position).withinLevel
          lvl.width lvl.height := by
  intro n
  induction n with
  | zero => intro move a h1 h2 h3; exact ⟨rfl, h1, h2, h3⟩
  | succ k ih =>
    intro move a hclip hrect hin
    rw [moveLoop]
    by_cases hm : move = 0
    · rw [if_neg (not_not.mpr hm)]
      exact ⟨rfl, hclip, hrect, hin⟩
    · rw [if_pos hm]
      simp only
      cases hsolid : a.collideAt lvl.solids (a.position.add (coord.unit sign)) with
      | none =>
        have hres : handleCollision (a.position.add (coord.unit sign)) cb move sign a coord
            lvl.solids = ⟨false, move - sign, a.addCoord coord sign, lvl.solids⟩ := by
          simp [handleCollision, hsolid]
        rw [hres]
        simp only [Bool.false_eq_true, if_false]
        apply ih _ _ (by cases coord <;> exact hclip) (by cases coord <;> exact hrect)
        rw [addCoord_position]
        by_contra hout
        obtain ⟨s, hmem, hcol, hhit⟩ := hwall a.position coord sign hs hin hout
        have := (collideAt_eq_none_iff a lvl.solids _).mp hsolid s hmem hcol
        rw [hrect, hhit] at this
        exact absurd this (by simp)
      | some s =>
        have hnbs : (s.breakable && a.breakingSpeed) = false := by
          rw [hnb s (collideAt_some_mem hsolid) (collideAt_some_collidable hsolid)]
          rfl
        cases cb with
        | none =>
          have hres : handleCollision (a.position.add (coord.unit sign)) none move sign a coord
              lvl.solids = ⟨true, move, a, lvl.solids⟩ := by
            simp [handleCollision, hsolid, hnbs, hclip]
          rw [hres]
          exact ⟨rfl, hclip, hrect, hin⟩
        | some f =>
          have hres : handleCollision (a.position.add (coord.unit sign)) (some f) move sign a
              coord lvl.solids = ⟨true, move, f a, lvl.solids⟩ := by
            simp [handleCollision, hsolid, hnbs, hclip]
          rw [hres]
          obtain ⟨h1, h2, h3⟩ := hcb f rfl a
          rw [if_pos rfl]
          exact ⟨rfl, h3.trans hclip, h2.trans hrect, by rw [h1]; exact hin⟩

theorem kind_onCollide_geometry (kind : ActorKind) (b : Actor) :
    ((kind.onCollideX b).position = b.position ∧ (kind.onCollideX b).hitRect = b.hitRect ∧
        (kind.onCollideX b).noClip = b.noClip) ∧
      ((kind.onCollideY b).position = b.position ∧ (kind.onCollideY b).hitRect = b.hitRect ∧
        (kind.onCollideY b).noClip = b.noClip) := by
  have hd : (if b.diesOnImpact = true then kind.die b else b).position = b.position ∧
      (if b.diesOnImpact = true then kind.die b else b).hitRect = b.hitRect ∧
      (if b.diesOnImpact = true then kind.die b else b).noClip = b.noClip := by
    split_ifs
    · cases kind <;> exact ⟨rfl, rfl, rfl⟩
    · exact ⟨rfl, rfl, rfl⟩
  unfold ActorKind.onCollideX ActorKind.onCollideY
  simp only
  generalize (if b.diesOnImpact = true then kind.die b else b) = a1 at hd ⊢
  constructor <;> split_ifs <;> exact hd

/-- Claim C12, amended.  In a level that is walled for the actor's hitbox (every unit step
out of the level bounds lands on a collidable solid) and has no breakable collidable solid,
an actor with `noClip = false` whose hitbox lies within the level bounds before
`Actor::update` has it within the bounds after the update, for every time step and input;
the solid list is unchanged. -/
theorem update_stays_in_walled_level (ops : MathOps) (kind : ActorKind) (a : Actor)
    (lvl : Level) (time_delta : ℚ) (input : Option ControllerInput)
    (hclip : a.noClip = false)
    (hnb : ∀ s ∈ lvl.solids, s.collidable = true → s.breakable = false)
    (hwall : lvl.walled a.hitRect)
    (hin : a.getHitbox.withinLevel lvl.width lvl.height) :
    (a.update ops kind lvl.solids time_delta input).solids = lvl.solids ∧
      (a.update ops kind lvl.solids time_delta input).actor.getHitbox.withinLevel
        lvl.width lvl.height := by
  obtain ⟨_, _, _, _, b5, b6, b7⟩ := beforeMove_fields ops kind a time_delta input
  obtain ⟨t1, t2, t3, _⟩ := tickDeath_geometry kind a time_delta
  have hX : ((a.beforeMove ops kind time_delta input).moveX lvl.solids
        ((a.beforeMove ops kind time_delta input).velocity.x * time_delta)
        (some kind.onCollideX)).solids = lvl.solids ∧
      ((a.beforeMove ops kind time_delta input).moveX lvl.solids
        ((a.beforeMove ops kind time_delta input).velocity.x * time_delta)
        (some kind.onCollideX)).actor.noClip = false ∧
      ((a.beforeMove ops kind time_delta input).moveX lvl.solids
        ((a.beforeMove ops kind time_delta input).velocity.x * time_delta)
        (some kind.onCollideX)).actor.hitRect = a.hitRect ∧
      (a.hitRect.placedAt ((a.beforeMove ops kind time_delta input).moveX lvl.solids
        ((a.beforeMove ops kind time_delta input).velocity.x * time_delta)
        (some kind.onCollideX)).actor.position).withinLevel lvl.width lvl.height := by
    unfold Actor.moveX
    simp only
    split_ifs with hm
    · exact moveLoop_inside Axis.X _ _ (SIGN_unit _ hm) lvl a.hitRect hnb hwall
        (fun f hf b => by cases hf; exact (kind_onCollide_geometry kind b).1) _ _ _
        (by show (a.beforeMove ops kind time_delta input).noClip = false
            rw [b7, t3]; exact hclip)
        (by show (a.beforeMove ops kind time_delta input).hitRect = a.hitRect
            rw [b6, t2])
        (by show (a.hitRect.placedAt (a.beforeMove ops kind time_delta input).position).withinLevel
              lvl.width lvl.height
            rw [b5, t1]; exact hin)
    · refine ⟨rfl, ?_, ?_, ?_⟩
      · show (a.beforeMove ops kind time_delta input).noClip = false
        rw [b7, t3]; exact hclip
      · show (a.beforeMove ops kind time_delta input).hitRect = a.hitRect
        rw [b6, t2]
      · show (a.hitRect.placedAt (a.beforeMove ops kind time_delta input).position).withinLevel
          lvl.width lvl.height
        rw [b5, t1]; exact hin
  obtain ⟨x1, x2, x3, x4⟩ := hX
  unfold Actor.update
  simp only
  rw [x1]
  generalize ((a.beforeMove ops kind time_delta input).moveX lvl.solids
        ((a.beforeMove ops kind time_delta input).velocity.x * time_delta)
        (some kind.onCollideX)).actor = ax at x2 x3 x4 ⊢
  have hY : (ax.moveY lvl.solids (ax.velocity.y * time_delta) (some kind.onCollideY)).solids
        = lvl.solids ∧
      (ax.moveY lvl.solids (ax.velocity.y * time_delta) (some kind.onCollideY)).actor.noClip
        = false ∧
      (ax.moveY lvl.solids (ax.velocity.y * time_delta) (some kind.onCollideY)).actor.hitRect
        = a.hitRect ∧
      (a.hitRect.placedAt (ax.moveY lvl.solids (ax.velocity.y * time_delta)
        (some kind.onCollideY)).actor.position).withinLevel lvl.width lvl.height := by
    unfold Actor.moveY
    simp only
    split_ifs with hm
    · exact moveLoop_inside Axis.Y _ _ (SIGN_unit _ hm) lvl a.hitRect hnb hwall
        (fun f hf b => by cases hf; exact (kind_onCollide_geometry kind b).2) _ _ _ x2 x3 x4
    · exact ⟨rfl, x2, x3, x4⟩
  obtain ⟨y1, _, y3, y4⟩ := hY
  refine ⟨y1, ?_⟩
  unfold Actor.getHitbox Actor.getHitboxAt
  rw [y3]
  exact y4

/-- The four tiles around `walledLevel` wall it for a 10 by 10 hitbox. -/
theorem walledLevel_walled : walledLevel.walled ⟨0, 0, 10, 10⟩ := by
  intro p coord sign hs hin hout
  obtain ⟨h1, h2, h3, h4⟩ := hin
  simp only [Rect2f.placedAt, walledLevel, Nat.cast_ofNat] at h1 h2 h3 h4
  simp only [walledLevel, List.mem_cons, List.mem_singleton, exists_eq_or_imp, List.not_mem_nil,
    or_false, exists_eq_left]
  rcases hs with hs | hs <;> subst hs <;> cases coord
  · -- one step to the right
    right; left
    refine ⟨trivial, ?_⟩
    have hx : ¬ (0 + (p.x + 1) + 10 ≤ (100 : ℚ)) := by
      intro hle
      apply hout
      refine ⟨?_, ?_, ?_, ?_⟩ <;>
        simp only [Rect2f.placedAt, Vector2f.add, Axis.unit, walledLevel, Nat.cast_ofNat,
          Int.cast_one, add_zero] <;> linarith
    simp only [Rect2f.collides, Rect2f.placedAt, Vector2f.add, Axis.unit, Solid.rect,
      Int.cast_one, add_zero, Bool.and_eq_true, decide_eq_true_eq]
    refine ⟨⟨⟨?_, ?_⟩, ?_⟩, ?_⟩ <;> linarith
  · -- one step down
    right; right; right
    refine ⟨trivial, ?_⟩
    have hy : ¬ (0 + (p.y + 1) + 10 ≤ (100 : ℚ)) := by
      intro hle
      apply hout
      refine ⟨?_, ?_, ?_, ?_⟩ <;>
        simp only [Rect2f.placedAt, Vector2f.add, Axis.unit, walledLevel, Nat.cast_ofNat,
          Int.cast_one, add_zero] <;> linarith
    simp only [Rect2f.collides, Rect2f.placedAt, Vector2f.add, Axis.unit, Solid.rect,
      Int.cast_one, add_zero, Bool.and_eq_true, decide_eq_true_eq]
    refine ⟨⟨⟨?_, ?_⟩, ?_⟩, ?_⟩ <;> linarith
  · -- one step to the left
    left
    refine ⟨trivial, ?_⟩
    have hx : ¬ (0 ≤ 0 + (p.x + -1)) := by
      intro hle
      apply hout
      refine ⟨?_, ?_, ?_, ?_⟩ <;>
        simp only [Rect2f.placedAt, Vector2f.add, Axis.unit, walledLevel, Nat.cast_ofNat,
          Int.cast_neg, Int.cast_one, add_zero] <;> linarith
    simp only [Rect2f.collides, Rect2f.placedAt, Vector2f.add, Axis.unit, Solid.rect,
      Int.cast_neg, Int.cast_one, add_zero, Bool.and_eq_true, decide_eq_true_eq]
    refine ⟨⟨⟨?_, ?_⟩, ?_⟩, ?_⟩ <;> linarith
  · -- one step up
    right; right; left
    refine ⟨trivial, ?_⟩
    have hy : ¬ (0 ≤ 0 + (p.y + -1)) := by
      intro hle
      apply hout
      refine ⟨?_, ?_, ?_, ?_⟩ <;>
        simp only [Rect2f.placedAt, Vector2f.add, Axis.unit, walledLevel, Nat.cast_ofNat,
          Int.cast_neg, Int.cast_one, add_zero] <;> linarith
    simp only [Rect2f.collides, Rect2f.placedAt, Vector2f.add, Axis.unit, Solid.rect,
      Int.cast_neg, Int.cast_one, add_zero, Bool.and_eq_true, decide_eq_true_eq]
    refine ⟨⟨⟨?_, ?_⟩, ?_⟩, ?_⟩ <;> linarith

/-- Witness for C12: the actor drifting left from the origin of `walledLevel`. -/
theorem update_stays_in_walled_level_witness :
    leftwardActor.noClip = false ∧
      leftwardActor.getHitbox.withinLevel walledLevel.width walledLevel.height ∧
      (leftwardActor.update plainMath ActorKind.other walledLevel.solids 1 none).solids
        = walledLevel.solids ∧
      (leftwardActor.update plainMath ActorKind.other walledLevel.solids 1
        none).actor.getHitbox.withinLevel walledLevel.width walledLevel.height :=
  ⟨by decide!, by decide!,
    update_stays_in_walled_level plainMath ActorKind.other leftwardActor walledLevel 1 none
      (by decide!) (by decide!) walledLevel_walled (by decide!)⟩

/-! ### Bubble lifespan (C11) -/

theorem moveX_pred_unblocked (P : Actor → Prop) (hP : IgnoresMotion P) (a : Actor)
    (ss : List Solid) (amount : ℚ) (cb : Option (Actor → Actor))
    (hb : (a.moveX ss amount cb).blocked = false) (ha : P a) :
    P (a.moveX ss amount cb).actor := by
  unfold Actor.moveX at hb ⊢
  simp only at hb ⊢
  split_ifs at hb ⊢ with hm
  · rw [moveLoop_unblocked Axis.X cb _ _ _ _ _ (SIGN_mul_natAbs _).symm hb]
    exact addCoord_pred P hP _ _ _ (hP.2.1 _ _ (hP.2.1 _ _ ha))
  · exact hP.2.1 _ _ ha

theorem moveY_pred_unblocked (P : Actor → Prop) (hP : IgnoresMotion P) (a : Actor)
    (ss : List Solid) (amount : ℚ) (cb : Option (Actor → Actor))
    (hb : (a.moveY ss amount cb).blocked = false) (ha : P a) :
    P (a.moveY ss amount cb).actor := by
  unfold Actor.moveY at hb ⊢
  simp only at hb ⊢
  split_ifs at hb ⊢ with hm
  · rw [moveLoop_unblocked Axis.Y cb _ _ _ _ _ (SIGN_mul_natAbs _).symm hb]
    exact addCoord_pred P hP _ _ _ (hP.2.2 _ _ (hP.2.2 _ _ ha))
  · exact hP.2.2 _ _ ha

theorem update_pred_unblocked (P : Actor → Prop) (hP : IgnoresMotion P) (ops : MathOps)
    (kind : ActorKind) (a : Actor) (ss : List Solid) (dt : ℚ) (input : Option ControllerInput)
    (hb : (a.update ops kind ss dt input).blocked = false)
    (ha : P (a.beforeMove ops kind dt input)) :
    P (a.update ops kind ss dt input).actor := by
  unfold Actor.update at hb ⊢
  simp only [Bool.or_eq_false_iff] at hb ⊢
  exact moveY_pred_unblocked P hP _ _ _ _ hb.2 (moveX_pred_unblocked P hP _ _ _ _ hb.1 ha)

theorem update_unblocked_death_fields (ops : MathOps) (kind : ActorKind) (a : Actor)
    (ss : List Solid) (dt : ℚ) (input : Option ControllerInput) (hd : a.dyingTime = 0)
    (hb : (a.update ops kind ss dt input).blocked = false) :
    (a.update ops kind ss dt input).actor.isDead = a.isDead ∧
      (a.update ops kind ss dt input).actor.dyingTime = 0 := by
  refine update_pred_unblocked (fun c => c.isDead = a.isDead ∧ c.dyingTime = 0)
    ⟨fun _ _ h => h, fun _ _ h => h, fun _ _ h => h⟩ ops kind a ss dt input hb ?_
  have hf := beforeMove_fields ops kind a dt input
  rw [tickDeath_idle kind a dt hd] at hf
  exact ⟨hf.1, by rw [hf.2.2.1]; exact hd⟩

theorem collideWithPlayer_idle (ops : RealOps) (b : EnemyBubble) (player : Player)
    (h : b.touchesPlayer player = false) :
    b.collideWithPlayer ops player = (b, player) := by
  unfold EnemyBubble.touchesPlayer at h
  unfold EnemyBubble.collideWithPlayer
  by_cases hg : b.bounced = false ∧ player.invulTime = 0 ∧ player.isDying = false
  · rw [if_pos hg]
    have hc : b.getHitbox.collides player.getHitbox = false := by
      obtain ⟨h1, h2, h3⟩ := hg
      simpa [h1, h2, h3] using h
    rw [hc]
    simp
  · rw [if_neg hg]

theorem collideWithCreator_idle (ops : RealOps) (b : EnemyBubble) (w : BubbleWorld)
    (h : b.touchesCreator w = false) :
    b.collideWithCreator ops w = (b, w) := by
  unfold EnemyBubble.collideWithCreator
  rw [if_neg]
  intro hg
  unfold EnemyBubble.touchesCreator at h
  rw [hg.1, hg.2] at h
  exact absurd h (by decide)

theorem noContact_parts (ops : MathOps) (b : EnemyBubble) (w : BubbleWorld) (dt : ℚ)
    (h : b.noContact ops w dt = true) :
    (b.integrate ops w dt).2 = false ∧
      (b.integrate ops w dt).1.1.touchesPlayer w.game.player = false ∧
      (b.integrate ops w dt).1.1.touchesCreator w = false := by
  unfold EnemyBubble.noContact at h
  simp only [Bool.and_eq_true, Bool.not_eq_true'] at h
  exact ⟨h.1.1, h.1.2, h.2⟩

theorem pow2_pos (e : ℤ) : 0 < pow2 e := by
  unfold pow2
  split_ifs <;> positivity

theorem roundHalfEven_nonneg (x : ℚ) (hx : 0 ≤ x) : 0 ≤ roundHalfEven x := by
  have hf : 0 ≤ ⌊x⌋ := Int.floor_nonneg.mpr hx
  unfold roundHalfEven
  split_ifs <;> omega

/-- Rounding to single precision keeps the sign: a value that is not positive is stored as
a value that is not positive. -/
theorem real32_nonpos (q : ℚ) (hq : q ≤ 0) : real32 q ≤ 0 := by
  unfold real32
  by_cases h0 : q = 0
  · rw [if_pos h0]
  · rw [if_neg h0]
    have hneg : q < 0 := lt_of_le_of_ne hq h0
    simp only [if_pos hneg]
    have hu := pow2_pos (max (binaryExponent |q|) (-126) - 23)
    have hr : (0 : ℚ) ≤ ((roundHalfEven (-q / pow2 (max (binaryExponent |q|) (-126) - 23)) : ℤ)
        : ℚ) := by
      exact_mod_cast roundHalfEven_nonneg _ (div_nonneg (by linarith) hu.le)
    nlinarith [mul_nonneg hr hu.le]

/-- In a tick without contact the bubble only moves, ages and, once its lifespan is used
up, dies. -/
theorem update_quiet (ops : MathOps) (b : EnemyBubble) (w : BubbleWorld) (dt : ℚ)
    (h : b.noContact ops w dt = true) :
    (b.update ops w dt).1 =
      if real32 (b.lifespan - dt) ≤ 0 then (b.integrate ops w dt).1.1.die
      else (b.integrate ops w dt).1.1 := by
  obtain ⟨_, hp, hc⟩ := noContact_parts ops b w dt h
  unfold EnemyBubble.update EnemyBubble.beforeCreatorTest
  simp only
  have hp2 : (b.integrate ops w dt).1.1.touchesPlayer
      (b.integrate ops w dt).1.2.game.player = false := hp
  rw [collideWithPlayer_idle _ _ _ hp2]
  simp only
  rw [collideWithCreator_idle]
  · have hl : (b.integrate ops w dt).1.1.lifespan = real32 (b.lifespan - dt) := rfl
    rw [hl]
    split_ifs <;> rfl
  · have hbox : (b.integrate ops w dt).1.1.touchesCreator
        { (b.integrate ops w dt).1.2 with
          game := { (b.integrate ops w dt).1.2.game with
            player := (b.integrate ops w dt).1.2.game.player } }
        = (b.integrate ops w dt).1.1.touchesCreator w := by
      unfold EnemyBubble.touchesCreator EnemyBubble.creatorHitbox EnemyBubble.integrate
      rfl
    rw [hbox]
    exact hc

theorem update_quiet_fields (ops : MathOps) (b : EnemyBubble) (w : BubbleWorld) (dt : ℚ)
    (hd : b.dyingTime = 0) (h : b.noContact ops w dt = true) :
    (b.update ops w dt).1.dyingTime = 0 ∧
      (b.update ops w dt).1.lifespan = real32 (b.lifespan - dt) ∧
      ((b.update ops w dt).1.isDead = true ↔
        (b.isDead = true ∨ real32 (b.lifespan - dt) ≤ 0)) := by
  rw [update_quiet ops b w dt h]
  obtain ⟨h1, h2⟩ := update_unblocked_death_fields ops ActorKind.bubble b.toActor w.solids dt
    (some b.input) hd (noContact_parts ops b w dt h).1
  have e1 : (b.integrate ops w dt).1.1.isDead = b.isDead := h1
  have e2 : (b.integrate ops w dt).1.1.dyingTime = 0 := h2
  have e3 : (b.integrate ops w dt).1.1.lifespan = real32 (b.lifespan - dt) := rfl
  have d1 : (b.integrate ops w dt).1.1.die.isDead = true := rfl
  have d2 : (b.integrate ops w dt).1.1.die.dyingTime = (b.integrate ops w dt).1.1.dyingTime :=
    rfl
  have d3 : (b.integrate ops w dt).1.1.die.lifespan = (b.integrate ops w dt).1.1.lifespan := rfl
  split_ifs with hl
  · exact ⟨d2.trans e2, d3.trans e3, fun _ => Or.inr hl, fun _ => d1⟩
  · refine ⟨e2, e3, ?_⟩
    rw [e1]
    exact ⟨fun hdead => Or.inl hdead, fun hor => hor.resolve_right hl⟩

theorem quietTicks_cons (ops : MathOps) (tick : ℚ × BubbleWorld)
    (rest : List (ℚ × BubbleWorld)) (b : EnemyBubble)
    (h : quietTicks ops (tick :: rest) b = true) :
    0 < tick.1 ∧ b.noContact ops tick.2 tick.1 = true ∧
      quietTicks ops rest (b.update ops tick.2 tick.1).1 = true := by
  rw [quietTicks] at h
  simp only [Bool.and_eq_true, decide_eq_true_eq] at h
  exact ⟨h.1.1, h.1.2, h.2⟩

theorem bubbleRun_quiet (ops : MathOps) :
    ∀ (ticks : List (ℚ × BubbleWorld)) (b : EnemyBubble), b.dyingTime = 0 →
      (b.isDead = true ↔ b.lifespan ≤ 0) → quietTicks ops ticks b = true →
      ((bubbleRun ops ticks b).isDead = true ↔ lifespanCountdown ticks b.lifespan ≤ 0) := by
  intro ticks
  induction ticks with
  | nil =>
    intro b _ hinv _
    simpa [bubbleRun, lifespanCountdown] using hinv
  | cons tick rest ih =>
    intro b hd hinv hq
    obtain ⟨hpos, hno, hrest⟩ := quietTicks_cons ops tick rest b hq
    obtain ⟨f1, f2, f3⟩ := update_quiet_fields ops b tick.2 tick.1 hd hno
    have hinv2 : (b.update ops tick.2 tick.1).1.isDead = true ↔
        (b.update ops tick.2 tick.1).1.lifespan ≤ 0 := by
      rw [f3, f2, hinv]
      constructor
      · rintro (h | h)
        · exact real32_nonpos _ (by linarith)
        · exact h
      · exact fun h => Or.inr h
    have := ih _ f1 hinv2 hrest
    rw [bubbleRun, this, f2, lifespanCountdown]

theorem quietTicks_take (ops : MathOps) :
    ∀ (ticks : List (ℚ × BubbleWorld)) (b : EnemyBubble) (k : ℕ),
      quietTicks ops ticks b = true → quietTicks ops (ticks.take k) b = true := by
  intro ticks
  induction ticks with
  | nil => intro b k h; simpa using h
  | cons tick rest ih =>
    intro b k h
    cases k with
    | zero => rfl
    | succ n =>
      obtain ⟨h1, h2, h3⟩ := quietTicks_cons ops tick rest b h
      rw [List.take_succ_cons, quietTicks]
      simp only [Bool.and_eq_true, decide_eq_true_eq]
      exact ⟨⟨h1, h2⟩, ih _ n h3⟩

/-- When every subtraction is exact, the countdown has used up the cumulated time. -/
theorem lifespanCountdown_exact :
    ∀ (ticks : List (ℚ × BubbleWorld)) (lifespan : ℚ), exactCountdown ticks lifespan = true →
      lifespanCountdown ticks lifespan = lifespan - totalTime ticks := by
  intro ticks
  induction ticks with
  | nil => intro l _; simp [lifespanCountdown, totalTime]
  | cons tick rest ih =>
    intro l h
    rw [exactCountdown] at h
    simp only [Bool.and_eq_true, decide_eq_true_eq] at h
    rw [lifespanCountdown, h.1, ih _ h.2]
    simp only [totalTime, List.map_cons, List.sum_cons]
    ring

/-- Claim C11 fails on the code as stated: `lifespan` is a `real32` and every
`lifespan -= time_delta` is rounded.  The bubble `freshBubble` of lifespan 1.5, far from
the player and from its creator all the time, updated without contact by ticks of
`frameTime` (the `real32` nearest to 1/60), has cumulated at least 1.5 seconds after 90
ticks and is still alive then, with 203 / 2 ^ 28 seconds of lifespan left; it dies in
tick 91. -/
theorem bubble_outlives_lifespan :
    freshBubble.lifespan = 3 / 2 ∧ freshBubble.isDead = false ∧ freshBubble.dyingTime = 0 ∧
      quietTicks plainMath (List.replicate 91 (frameTime, emptyBubbleWorld)) freshBubble
        = true ∧
      freshBubble.lifespan ≤ totalTime (List.replicate 90 (frameTime, emptyBubbleWorld)) ∧
      (bubbleRun plainMath (List.replicate 90 (frameTime, emptyBubbleWorld))
        freshBubble).isDead = false ∧
      (bubbleRun plainMath (List.replicate 90 (frameTime, emptyBubbleWorld))
        freshBubble).lifespan = 203 / 268435456 ∧
      (bubbleRun plainMath (List.replicate 91 (frameTime, emptyBubbleWorld))
        freshBubble).isDead = true ∧
      (freshBubble.creatorHitbox emptyBubbleWorld).collides freshBubble.getHitbox = false ∧
      (freshBubble.creatorHitbox emptyBubbleWorld).collides
        (bubbleRun plainMath (List.replicate 91 (frameTime, emptyBubbleWorld))
          freshBubble).getHitbox = false := by
  refine ⟨by decide!, by decide!, by decide!, by decide!, by decide!, by decide!, by decide!,
    by decide!, by decide!, by decide!⟩

/-- Claim C11, amended.  For a live bubble (not dead, no death countdown running, as the
constructor leaves it) with lifespan `L > 0` that is updated by ticks of positive duration
in which no collision callback runs and neither the player block nor the creator block of
`EnemyBubble::update` acts: after every number `k` of ticks `isDead` holds exactly when
the `real32` countdown `lifespanCountdown`, the rounded subtraction of the first `k` tick
durations from `L`, is at or below 0; and whenever every one of these subtractions is
exact, `isDead` holds after `k` ticks exactly when the cumulated time of the first `k`
ticks has reached `L`.  Calling `die()` a second time changes nothing, on the bubble and
on any actor. -/
theorem bubble_lifespan_expiry (ops : MathOps) (ticks : List (ℚ × BubbleWorld))
    (b : EnemyBubble) (hd : b.dyingTime = 0) (hlive : b.isDead = false)
    (hL : 0 < b.lifespan) (hq : quietTicks ops ticks b = true) :
    (∀ k : ℕ, ((bubbleRun ops (ticks.take k) b).isDead = true ↔
        lifespanCountdown (ticks.take k) b.lifespan ≤ 0)) ∧
      (∀ k : ℕ, exactCountdown (ticks.take k) b.lifespan = true →
        ((bubbleRun ops (ticks.take k) b).isDead = true ↔
          b.lifespan ≤ totalTime (ticks.take k))) ∧
      (∀ c : EnemyBubble, c.die.die = c.die) ∧ ∀ a : Actor, a.die.die = a.die := by
  have hinv : b.isDead = true ↔ b.lifespan ≤ 0 := by
    rw [hlive]
    constructor
    · intro h; cases h
    · intro h; linarith
  have hrun : ∀ k : ℕ, ((bubbleRun ops (ticks.take k) b).isDead = true ↔
      lifespanCountdown (ticks.take k) b.lifespan ≤ 0) :=
    fun k => bubbleRun_quiet ops _ b hd hinv (quietTicks_take ops ticks b k hq)
  refine ⟨hrun, fun k hex => ?_, fun _ => rfl, fun _ => rfl⟩
  rw [hrun k, lifespanCountdown_exact _ _ hex]
  constructor <;> intro h <;> linarith

/-- Witness for C11: the bubble shot from the boss's mouth, which overlaps the boss all
through its first tick, updated by three ticks of half a second; every subtraction is
exact, and the bubble is alive after one second and dead after one and a half. -/
theorem bubble_lifespan_expiry_witness :
    mouthBubble.dyingTime = 0 ∧ mouthBubble.isDead = false ∧ 0 < mouthBubble.lifespan ∧
      quietTicks plainMath [(1 / 2, emptyBubbleWorld), (1 / 2, emptyBubbleWorld),
        (1 / 2, emptyBubbleWorld)] mouthBubble = true ∧
      (emptyBubbleWorld.boss.getHitbox).collides
        (mouthBubble.integrate plainMath emptyBubbleWorld (1 / 2)).1.1.getHitbox = true ∧
      exactCountdown [(1 / 2, emptyBubbleWorld), (1 / 2, emptyBubbleWorld),
        (1 / 2, emptyBubbleWorld)] mouthBubble.lifespan = true ∧
      (bubbleRun plainMath [(1 / 2, emptyBubbleWorld), (1 / 2, emptyBubbleWorld)]
        mouthBubble).isDead = false ∧
      (bubbleRun plainMath [(1 / 2, emptyBubbleWorld), (1 / 2, emptyBubbleWorld),
        (1 / 2, emptyBubbleWorld)] mouthBubble).isDead = true ∧
      ((∀ k : ℕ, ((bubbleRun plainMath (List.take k [(1 / 2, emptyBubbleWorld),
          (1 / 2, emptyBubbleWorld), (1 / 2, emptyBubbleWorld)]) mouthBubble).isDead = true ↔
        lifespanCountdown (List.take k [(1 / 2, emptyBubbleWorld),
          (1 / 2, emptyBubbleWorld), (1 / 2, emptyBubbleWorld)]) mouthBubble.lifespan ≤ 0)) ∧
      (∀ k : ℕ, exactCountdown (List.take k [(1 / 2, emptyBubbleWorld),
          (1 / 2, emptyBubbleWorld), (1 / 2, emptyBubbleWorld)]) mouthBubble.lifespan = true →
        ((bubbleRun plainMath (List.take k [(1 / 2, emptyBubbleWorld),
          (1 / 2, emptyBubbleWorld), (1 / 2, emptyBubbleWorld)]) mouthBubble).isDead = true ↔
        mouthBubble.lifespan ≤ totalTime (List.take k [(1 / 2, emptyBubbleWorld),
          (1 / 2, emptyBubbleWorld), (1 / 2, emptyBubbleWorld)]))) ∧
      (∀ c : EnemyBubble, c.die.die = c.die) ∧ ∀ a : Actor, a.die.die = a.die) :=
  ⟨by decide!, by decide!, by decide!, by decide!, by decide!, by decide!, by decide!,
    by decide!,
    bubble_lifespan_expiry plainMath _ mouthBubble (by decide!) (by decide!) (by decide!)
      (by decide!)⟩

/-! ### Think throttling (C19) -/

/-- A fish that re-evaluated at play time `t` carries `lastIdeaTime = t`. -/
theorem fish_think_records_time (f : EnemyFish) (t : ℚ) (player : Player) (dt : ℚ)
    (h : f.reevaluates t = true) : (f.think t player dt).lastIdeaTime = t := by
  unfold EnemyFish.think
  rw [if_pos h]
  dsimp only
  split_ifs <;> rfl

/-- Within the reaction delay after the recorded time, `EnemyFish::think` changes nothing. -/
theorem fish_think_throttled (g : EnemyFish) (t : ℚ) (player : Player) (dt : ℚ)
    (h : t - g.lastIdeaTime ≤ (if g.seesPlayer then 3 / 100 else 8 / 10)) :
    g.think t player dt = g := by
  unfold EnemyFish.think
  rw [if_neg]
  unfold EnemyFish.reevaluates
  simp only [decide_eq_true_eq, not_lt]
  exact h

/-- `EnemyShrimp::think` never writes `lastIdeaTime`. -/
theorem shrimp_think_keeps_lastIdeaTime (ops : MathOps) (s : EnemyShrimp) (t : ℚ)
    (player : Player) (dt : ℚ) : (s.think ops t player dt).lastIdeaTime = s.lastIdeaTime := by
  unfold EnemyShrimp.think EnemyShrimp.idleSway
  dsimp only
  split_ifs <;> rfl

/-- A re-evaluating shrimp that is not targeting and has the player within 800 units
starts targeting and becomes vigilant. -/
theorem shrimp_think_spots (ops : MathOps) (s : EnemyShrimp) (t : ℚ) (player : Player)
    (dt : ℚ) (hr : s.reevaluates t = true) (ht : s.targetingPlayer = false)
    (hnear : (player.getCenter.sub s.getCenter).magSq < 800 * 800) :
    s.think ops t player dt =
      { s with input := { s.input with button_b := false }, targetingPlayer := true,
               vigilant := true } := by
  unfold EnemyShrimp.think
  rw [if_pos hr]
  dsimp only
  rw [ht]
  simp only [Bool.false_eq_true, if_false, Bool.not_false, if_true]
  rw [if_pos hnear]

/-- A re-evaluating shrimp that is targeting and has the player within 1600 units raises
`button_b`. -/
theorem shrimp_think_shoots (ops : MathOps) (s : EnemyShrimp) (t : ℚ) (player : Player)
    (dt : ℚ) (hr : s.reevaluates t = true) (ht : s.targetingPlayer = true)
    (hnear : (player.getCenter.sub s.getCenter).magSq < 1600 * 1600) :
    (s.think ops t player dt).input.button_b = true := by
  unfold EnemyShrimp.think
  rw [if_pos hr]
  dsimp only
  rw [ht]
  simp only [if_true, Bool.not_true, Bool.false_eq_true, if_false]
  rw [if_pos hnear]

/-- Claim C19 fails for the shrimp.  The fresh shrimp re-evaluates at play time 1 with the
player in range and becomes vigilant (reaction delay 0.03 s); the think call one sixtieth
of a second later re-evaluates again and raises `button_b`, whatever the library functions
compute. -/
theorem shrimp_think_not_throttled (ops : MathOps) :
    freshShrimp.reevaluates 1 = true ∧
      (freshShrimp.think ops 1 playerNearShrimp (1 / 60)).vigilant = true ∧
      (1 + 1 / 60 : ℚ) - 1 ≤ 3 / 100 ∧
      (freshShrimp.think ops 1 playerNearShrimp (1 / 60)).input.button_b = false ∧
      ((freshShrimp.think ops 1 playerNearShrimp (1 / 60)).think ops (1 + 1 / 60)
        playerNearShrimp (1 / 60)).input.button_b = true := by
  have h1 := shrimp_think_spots ops freshShrimp 1 playerNearShrimp (1 / 60) (by decide!)
    (by decide!) (by decide!)
  rw [h1]
  refine ⟨by decide!, rfl, by norm_num, rfl, ?_⟩
  exact shrimp_think_shoots ops _ _ _ _ (by decide!) rfl (by decide!)

/-! ### A bounced bubble meets its creator (C20) -/

theorem collideWithPlayer_keeps_creator (ops : RealOps) (b : EnemyBubble) (player : Player) :
    (b.collideWithPlayer ops player).1.creator = b.creator ∧
      (b.collideWithPlayer ops player).1.isBig = b.isBig := by
  unfold EnemyBubble.collideWithPlayer
  dsimp only
  split_ifs <;> exact ⟨rfl, rfl⟩

theorem beforeCreatorTest_keeps (ops : MathOps) (b : EnemyBubble) (w : BubbleWorld) (dt : ℚ) :
    (b.beforeCreatorTest ops w dt).1.creator = b.creator ∧
      (b.beforeCreatorTest ops w dt).1.isBig = b.isBig ∧
      (b.beforeCreatorTest ops w dt).2.boss = w.boss ∧
      (b.beforeCreatorTest ops w dt).2.creatorEnemy = w.creatorEnemy := by
  unfold EnemyBubble.beforeCreatorTest
  dsimp only
  obtain ⟨h1, h2⟩ := collideWithPlayer_keeps_creator ops.toRealOps (b.integrate ops w dt).1.1
    (b.integrate ops w dt).1.2.game.player
  exact ⟨h1, h2, rfl, rfl⟩

theorem bubble_die_isDead (b : EnemyBubble) : b.die.isDead = true := rfl

/-- Counterexample to claim C20: a bounced big bubble of the boss that overlaps the boss at
the creator test stuns the boss and dies, and the boss keeps its 30 health points. -/
theorem bounced_bubble_leaves_boss_health :
    bouncedBigBubble.creator = Creator.boss ∧
      (bouncedBigBubble.beforeCreatorTest plainMath emptyBubbleWorld (1 / 60)).1.bounced = true ∧
      ((bouncedBigBubble.beforeCreatorTest plainMath emptyBubbleWorld (1 / 60)).1.creatorHitbox
          (bouncedBigBubble.beforeCreatorTest plainMath emptyBubbleWorld (1 / 60)).2).collides
        (bouncedBigBubble.beforeCreatorTest plainMath emptyBubbleWorld (1 / 60)).1.getHitbox
        = true ∧
      ((bouncedBigBubble.update plainMath emptyBubbleWorld (1 / 60)).2.boss.getHitbox).collides
        (bouncedBigBubble.update plainMath emptyBubbleWorld (1 / 60)).1.getHitbox = true ∧
      emptyBubbleWorld.boss.health = 30 ∧
      (bouncedBigBubble.update plainMath emptyBubbleWorld (1 / 60)).2.boss.health = 30 := by
  refine ⟨by decide!, by decide!, by decide!, by decide!, by decide!, by decide!⟩

/-- Claim C20, amended.  When the bubble is bounced and overlaps its creator at the creator
test of `EnemyBubble::update`, the bubble ends the update dead; a creator other than the
boss loses one health point; the boss as creator keeps its health, goes to `Stunned` when
the bubble is big and is left untouched when the bubble is small. -/
theorem update_bounced_hits_creator (ops : MathOps) (b : EnemyBubble) (w : BubbleWorld)
    (dt : ℚ) (hb : (b.beforeCreatorTest ops w dt).1.bounced = true)
    (hc : ((b.beforeCreatorTest ops w dt).1.creatorHitbox
      (b.beforeCreatorTest ops w dt).2).collides (b.beforeCreatorTest ops w dt).1.getHitbox
        = true) :
    (b.update ops w dt).1.isDead = true ∧
      (∀ index, b.creator = Creator.other index →
        (b.update ops w dt).2.creatorEnemy.health = w.creatorEnemy.health - 1 ∧
        (b.update ops w dt).2.boss = w.boss) ∧
      (b.creator = Creator.boss →
        (b.update ops w dt).2.boss.health = w.boss.health ∧
        (b.update ops w dt).2.creatorEnemy = w.creatorEnemy ∧
        (b.isBig = true → (b.update ops w dt).2.boss.bossState = BossState.Stunned) ∧
        (b.isBig = false → (b.update ops w dt).2.boss = w.boss)) := by
  obtain ⟨k1, k2, k3, k4⟩ := beforeCreatorTest_keeps ops b w dt
  have hu : b.update ops w dt =
      if ((b.beforeCreatorTest ops w dt).1.collideWithCreator ops.toRealOps
          (b.beforeCreatorTest ops w dt).2).1.lifespan ≤ 0 then
        (((b.beforeCreatorTest ops w dt).1.collideWithCreator ops.toRealOps
          (b.beforeCreatorTest ops w dt).2).1.die,
         ((b.beforeCreatorTest ops w dt).1.collideWithCreator ops.toRealOps
          (b.beforeCreatorTest ops w dt).2).2)
      else (b.beforeCreatorTest ops w dt).1.collideWithCreator ops.toRealOps
          (b.beforeCreatorTest ops w dt).2 := rfl
  generalize b.beforeCreatorTest ops w dt = m at hb hc hu k1 k2 k3 k4
  obtain ⟨c, v⟩ := m
  dsimp only at hb hc hu k1 k2 k3 k4
  have hcc : c.collideWithCreator ops.toRealOps v =
      (c.die, match c.creator with
        | Creator.boss =>
          if c.isBig then { v with boss := v.boss.changeState v.game BossState.Stunned } else v
        | Creator.other _ =>
          { v with creatorEnemy := { v.creatorEnemy with
              toActor := v.creatorEnemy.toActor.hurt ops.toRealOps ActorKind.other c.getCenter
                1 } }) := by
    unfold EnemyBubble.collideWithCreator
    rw [if_pos ⟨hb, hc⟩]
  rw [hcc] at hu
  have h1 : (b.update ops w dt).1.isDead = true := by
    rw [hu]; split_ifs <;> rfl
  have h2 : (b.update ops w dt).2 = match c.creator with
        | Creator.boss =>
          if c.isBig then { v with boss := v.boss.changeState v.game BossState.Stunned } else v
        | Creator.other _ =>
          { v with creatorEnemy := { v.creatorEnemy with
              toActor := v.creatorEnemy.toActor.hurt ops.toRealOps ActorKind.other c.getCenter
                1 } } := by
    rw [hu]; split_ifs <;> rfl
  refine ⟨h1, ?_, ?_⟩
  · intro index hcr
    rw [h2, k1, hcr]
    dsimp only
    refine ⟨?_, k3⟩
    rw [← k4]
    exact hurt_health_sub ops.toRealOps ActorKind.other v.creatorEnemy.toActor c.getCenter 1
  · intro hcr
    rw [h2, k1, hcr, k2]
    dsimp only
    refine ⟨?_, ?_, ?_, ?_⟩
    · rw [← k3]; split_ifs <;> rfl
    · rw [← k4]; split_ifs <;> rfl
    · intro hbig; rw [hbig]; rfl
    · intro hbig; rw [hbig, ← k3]; rfl

/-- Witness for C20: the bounced big bubble resting at the mouth of the fresh boss. -/
theorem update_bounced_hits_creator_witness :
    (bouncedBigBubble.update plainMath emptyBubbleWorld (1 / 60)).1.isDead = true ∧
      (∀ index, bouncedBigBubble.creator = Creator.other index →
        (bouncedBigBubble.update plainMath emptyBubbleWorld (1 / 60)).2.creatorEnemy.health
          = emptyBubbleWorld.creatorEnemy.health - 1 ∧
        (bouncedBigBubble.update plainMath emptyBubbleWorld (1 / 60)).2.boss
          = emptyBubbleWorld.boss) ∧
      (bouncedBigBubble.creator = Creator.boss →
        (bouncedBigBubble.update plainMath emptyBubbleWorld (1 / 60)).2.boss.health
          = emptyBubbleWorld.boss.health ∧
        (bouncedBigBubble.update plainMath emptyBubbleWorld (1 / 60)).2.creatorEnemy
          = emptyBubbleWorld.creatorEnemy ∧
        (bouncedBigBubble.isBig = true →
          (bouncedBigBubble.update plainMath emptyBubbleWorld (1 / 60)).2.boss.bossState
            = BossState.Stunned) ∧
        (bouncedBigBubble.isBig = false →
          (bouncedBigBubble.update plainMath emptyBubbleWorld (1 / 60)).2.boss
            = emptyBubbleWorld.boss)) :=
  update_bounced_hits_creator plainMath bouncedBigBubble emptyBubbleWorld (1 / 60) (by decide!)
    (by decide!)

/-! ### Penetration depth (C15) -/

/-- Both components of the depth of two overlapping rectangles, and their absolute values. -/
theorem collisionDepth_components (a b : Rect2f) (h : a.collides b = true) :
    (a.collisionDepth b).x
        = (if b.x + b.w - a.x < a.x + a.w - b.x then -(b.x + b.w - a.x) else a.x + a.w - b.x) ∧
      (a.collisionDepth b).y
        = (if b.y + b.h - a.y < a.y + a.h - b.y then -(b.y + b.h - a.y) else a.y + a.h - b.y) ∧
      (a.collisionDepth b).x ≠ 0 ∧ (a.collisionDepth b).y ≠ 0 ∧
      |(a.collisionDepth b).x| = min (b.x + b.w - a.x) (a.x + a.w - b.x) ∧
      |(a.collisionDepth b).y| = min (b.y + b.h - a.y) (a.y + a.h - b.y) := by
  simp only [Rect2f.collides, Bool.and_eq_true, decide_eq_true_eq] at h
  obtain ⟨⟨⟨h1, h2⟩, h3⟩, h4⟩ := h
  have hx : (a.collisionDepth b).x
      = (if b.x + b.w - a.x < a.x + a.w - b.x then -(b.x + b.w - a.x) else a.x + a.w - b.x) := by
    simp [Rect2f.collisionDepth, h1, h2]
  have hy : (a.collisionDepth b).y
      = (if b.y + b.h - a.y < a.y + a.h - b.y then -(b.y + b.h - a.y) else a.y + a.h - b.y) := by
    simp [Rect2f.collisionDepth, h3, h4]
  refine ⟨hx, hy, ?_, ?_, ?_, ?_⟩
  · rw [hx]; split_ifs <;> intro h0 <;> linarith
  · rw [hy]; split_ifs <;> intro h0 <;> linarith
  · rw [hx]; split_ifs with hc
    · rw [abs_neg, abs_of_pos (by linarith), min_eq_left hc.le]
    · rw [abs_of_pos (by linarith), min_eq_right (not_lt.mp hc)]
  · rw [hy]; split_ifs with hc
    · rw [abs_neg, abs_of_pos (by linarith), min_eq_left hc.le]
    · rw [abs_of_pos (by linarith), min_eq_right (not_lt.mp hc)]

/-- Counterexample to claim C15: the rectangles (0, 0, 10, 10) and (5, 8, 10, 10) overlap
by 5 horizontally and by 2 vertically, and the depth is (5, 2), with both components
non-zero. -/
theorem collisionDepth_reports_two_axes :
    (⟨0, 0, 10, 10⟩ : Rect2f).collides ⟨5, 8, 10, 10⟩ = true ∧
      (⟨0, 0, 10, 10⟩ : Rect2f).collisionDepth ⟨5, 8, 10, 10⟩ = ⟨5, 2⟩ ∧
      ¬ (((⟨0, 0, 10, 10⟩ : Rect2f).collisionDepth ⟨5, 8, 10, 10⟩).x = 0 ∨
        ((⟨0, 0, 10, 10⟩ : Rect2f).collisionDepth ⟨5, 8, 10, 10⟩).y = 0) := by
  decide!

/-- Claim C15, amended.  For every pair of overlapping rectangles both components of
`a.collisionDepth(b)` are non-zero.  Each is computed on its own axis: minus the overlap
measured from the far edge of `b` when that is strictly the smaller one, and otherwise
plus the overlap measured from the near edge of `b`; its absolute value is the smaller of
the two. -/
theorem collisionDepth_both_axes (a b : Rect2f) (h : a.collides b = true) :
    (a.collisionDepth b).x ≠ 0 ∧ (a.collisionDepth b).y ≠ 0 ∧
      (a.collisionDepth b).x
        = (if b.x + b.w - a.x < a.x + a.w - b.x then -(b.x + b.w - a.x) else a.x + a.w - b.x) ∧
      (a.collisionDepth b).y
        = (if b.y + b.h - a.y < a.y + a.h - b.y then -(b.y + b.h - a.y) else a.y + a.h - b.y) ∧
      |(a.collisionDepth b).x| = min (b.x + b.w - a.x) (a.x + a.w - b.x) ∧
      |(a.collisionDepth b).y| = min (b.y + b.h - a.y) (a.y + a.h - b.y) := by
  obtain ⟨h1, h2, h3, h4, h5, h6⟩ := collisionDepth_components a b h
  exact ⟨h3, h4, h1, h2, h5, h6⟩

/-- Witness for C15: the rectangles of the counterexample. -/
theorem collisionDepth_both_axes_witness :
    (⟨0, 0, 10, 10⟩ : Rect2f).collides ⟨5, 8, 10, 10⟩ = true ∧
      ((⟨0, 0, 10, 10⟩ : Rect2f).collisionDepth ⟨5, 8, 10, 10⟩).x ≠ 0 ∧
      ((⟨0, 0, 10, 10⟩ : Rect2f).collisionDepth ⟨5, 8, 10, 10⟩).y ≠ 0 :=
  ⟨by decide!,
    (collisionDepth_both_axes ⟨0, 0, 10, 10⟩ ⟨5, 8, 10, 10⟩ (by decide!)).1,
    (collisionDepth_both_axes ⟨0, 0, 10, 10⟩ ⟨5, 8, 10, 10⟩ (by decide!)).2.1⟩

/-! ### checkCollision (C17) -/

/-- Claim C17.  For every solid list, level size and rectangle (of any width and height,
so for the positive ones too), `checkCollision` returns the zero vector if and only if
the rectangle lies within the level bounds and overlaps no collidable solid. -/
theorem checkCollision_eq_zero_iff (levelWidth levelHeight : ℕ) (solids : List Solid)
    (hitbox : Rect2f) :
    checkCollision levelWidth levelHeight solids hitbox = ⟨0, 0⟩ ↔
      (0 ≤ hitbox.x ∧ 0 ≤ hitbox.y ∧ hitbox.x + hitbox.w ≤ levelWidth ∧
          hitbox.y + hitbox.h ≤ levelHeight) ∧
        ∀ s ∈ solids, s.collidable = true → hitbox.collides s.rect = false := by
  unfold checkCollision
  by_cases h1 : hitbox.x < 0
  · simp only [h1, if_true]
    constructor
    · intro h; simp only [Vector2f.mk.injEq] at h; linarith [h.1]
    · rintro ⟨⟨h, _⟩, _⟩; linarith
  rw [if_neg h1]
  by_cases h2 : hitbox.x + hitbox.w > levelWidth
  · simp only [h2, if_true]
    constructor
    · intro h; simp only [Vector2f.mk.injEq] at h; linarith [h.1]
    · rintro ⟨⟨_, _, h, _⟩, _⟩; linarith
  rw [if_neg h2]
  by_cases h3 : hitbox.y < 0
  · simp only [h3, if_true]
    constructor
    · intro h; simp only [Vector2f.mk.injEq] at h; linarith [h.2]
    · rintro ⟨⟨_, h, _⟩, _⟩; linarith
  rw [if_neg h3]
  by_cases h4 : hitbox.y + hitbox.h > levelHeight
  · simp only [h4, if_true]
    constructor
    · intro h; simp only [Vector2f.mk.injEq] at h; linarith [h.2]
    · rintro ⟨⟨_, _, _, h⟩, _⟩; linarith
  rw [if_neg h4]
  have hb : 0 ≤ hitbox.x ∧ 0 ≤ hitbox.y ∧ hitbox.x + hitbox.w ≤ levelWidth ∧
      hitbox.y + hitbox.h ≤ levelHeight := ⟨not_lt.mp h1, not_lt.mp h3, not_lt.mp h2, not_lt.mp h4⟩
  cases hf : solids.find? (fun solid => solid.collidable && hitbox.collides solid.rect) with
  | none =>
    simp only [true_iff]
    refine ⟨hb, ?_⟩
    intro s hs hc
    have := List.find?_eq_none.mp hf s hs
    simpa [hc] using this
  | some s =>
    simp only
    have hsome := List.find?_some hf
    simp only [Bool.and_eq_true] at hsome
    have hmem := List.mem_of_find?_eq_some hf
    have hd := (collisionDepth_components hitbox s.rect hsome.2).2.2.1
    constructor
    · intro h0
      rw [h0] at hd
      exact absurd rfl hd
    · rintro ⟨_, hall⟩
      have := hall s hmem hsome.1
      rw [hsome.2] at this
      exact absurd this (by simp)

/-! ### Closest point on a segment (C16) -/

theorem magSq_sub_pos_of_ne (a b : Vector2f) (h : a ≠ b) : 0 < (b.sub a).magSq := by
  unfold Vector2f.magSq Vector2f.sub
  simp only
  have hne : b.x - a.x ≠ 0 ∨ b.y - a.y ≠ 0 := by
    by_contra hc
    push_neg at hc
    apply h
    cases a; cases b
    simp only [Vector2f.mk.injEq]
    simp only at hc
    constructor <;> linarith [hc.1, hc.2]
  rcases hne with hx | hy
  · have := mul_self_pos.mpr hx
    nlinarith [mul_self_nonneg (b.y - a.y)]
  · have := mul_self_pos.mpr hy
    nlinarith [mul_self_nonneg (b.x - a.x)]

theorem closestPoint_eq_segmentPoint (p a b : Vector2f) :
    closestPointOnLineSegment p a b = segmentPoint a b (segmentParameter p a b) := by
  unfold closestPointOnLineSegment segmentPoint segmentParameter Vector2f.add Vector2f.scale
    Vector2f.sub Vector2f.dot Vector2f.magSq
  simp only [Vector2f.mk.injEq]
  constructor <;> ring

theorem segmentParameter_mem (p a b : Vector2f) :
    0 ≤ segmentParameter p a b ∧ segmentParameter p a b ≤ 1 := by
  unfold segmentParameter
  exact ⟨le_max_left _ _, max_le (by norm_num) (min_le_left _ _)⟩

theorem distSq_segmentPoint (p a b : Vector2f) (s : ℚ) :
    distSq p (segmentPoint a b s)
      = (p.sub a).magSq - 2 * s * (p.sub a).dot (b.sub a) + s * s * (b.sub a).magSq := by
  unfold distSq segmentPoint Vector2f.magSq Vector2f.sub Vector2f.dot
  simp only
  ring

/-- Claim C16.  For a segment with `a ≠ b`, `closestPointOnLineSegment p a b` is the point
`a + t (b - a)` with `t` the projection parameter clamped to [0, 1], so it lies on the
segment, and no point `a + s (b - a)` with `s` in [0, 1] is nearer to `p` (distances
compared on their squares). -/
theorem closestPointOnLineSegment_nearest (p a b : Vector2f) (hab : a ≠ b) :
    closestPointOnLineSegment p a b = segmentPoint a b (segmentParameter p a b) ∧
      0 ≤ segmentParameter p a b ∧ segmentParameter p a b ≤ 1 ∧
      ∀ s : ℚ, 0 ≤ s → s ≤ 1 →
        distSq p (closestPointOnLineSegment p a b) ≤ distSq p (segmentPoint a b s) := by
  refine ⟨closestPoint_eq_segmentPoint p a b, (segmentParameter_mem p a b).1,
    (segmentParameter_mem p a b).2, ?_⟩
  intro s hs0 hs1
  rw [closestPoint_eq_segmentPoint, distSq_segmentPoint, distSq_segmentPoint]
  have hD := magSq_sub_pos_of_ne a b hab
  set D := (b.sub a).magSq with hDdef
  set N := (p.sub a).dot (b.sub a) with hNdef
  have ht : segmentParameter p a b = max 0 (min 1 (N / D)) := rfl
  rw [ht]
  have hND : N = (N / D) * D := by field_simp
  set q := N / D with hq
  rcases le_total q 0 with h0 | h0
  · have : max 0 (min 1 q) = 0 := by
      rw [max_eq_left]; exact le_trans (min_le_right _ _) h0
    rw [this, hND]
    nlinarith [mul_nonneg hs0 hD.le, mul_nonneg (mul_nonneg hs0 hs0) hD.le,
      mul_nonneg hs0 (mul_nonneg (neg_nonneg.mpr h0) hD.le)]
  · rcases le_total q 1 with h1 | h1
    · have : max 0 (min 1 q) = q := by
        rw [min_eq_right h1, max_eq_right h0]
      rw [this, hND]
      nlinarith [mul_nonneg (mul_self_nonneg (s - q)) hD.le]
    · have : max 0 (min 1 q) = 1 := by
        rw [min_eq_left h1, max_eq_right (by norm_num)]
      rw [this, hND]
      have h2 : 0 ≤ (1 - s) * (2 * q - 1 - s) :=
        mul_nonneg (by linarith) (by linarith)
      nlinarith [mul_nonneg h2 hD.le]

/-- Witness for C16: the point (3, 4) and the segment from (0, 0) to (10, 0). -/
theorem closestPointOnLineSegment_nearest_witness :
    (⟨0, 0⟩ : Vector2f) ≠ ⟨10, 0⟩ ∧ closestPointOnLineSegment ⟨3, 4⟩ ⟨0, 0⟩ ⟨10, 0⟩ = ⟨3, 0⟩ ∧
      (closestPointOnLineSegment ⟨3, 4⟩ ⟨0, 0⟩ ⟨10, 0⟩
          = segmentPoint ⟨0, 0⟩ ⟨10, 0⟩ (segmentParameter ⟨3, 4⟩ ⟨0, 0⟩ ⟨10, 0⟩) ∧
        0 ≤ segmentParameter ⟨3, 4⟩ ⟨0, 0⟩ ⟨10, 0⟩ ∧ segmentParameter ⟨3, 4⟩ ⟨0, 0⟩ ⟨10, 0⟩ ≤ 1 ∧
        ∀ s : ℚ, 0 ≤ s → s ≤ 1 →
          distSq ⟨3, 4⟩ (closestPointOnLineSegment ⟨3, 4⟩ ⟨0, 0⟩ ⟨10, 0⟩)
            ≤ distSq ⟨3, 4⟩ (segmentPoint ⟨0, 0⟩ ⟨10, 0⟩ s)) :=
  ⟨by decide!, by decide!, closestPointOnLineSegment_nearest ⟨3, 4⟩ ⟨0, 0⟩ ⟨10, 0⟩ (by decide!)⟩

/-! ### Bubble and player contact (C21) -/

theorem player_hurt_health (ops : RealOps) (p : Player) (c : Vector2f) (damage : ℤ) :
    (p.hurt ops c damage).health = p.health - damage := by
  unfold Player.hurt
  dsimp only
  split_ifs
  · exact hurt_health_sub ops ActorKind.player p.toActor c damage
  · exact hurt_health_sub ops ActorKind.player p.toActor c damage

/-- Claim C21.  For a bubble that has not bounced and whose hitbox overlaps the hitbox of a
player that is neither invulnerable nor dying, the block "Collide with player" of
`EnemyBubble::update` does this: if the player is inflating (`puffingFrames > 0`) the
bubble's velocity is negated, `bounced` becomes true, the bubble keeps `isDead` and
`visible` as they were and the player's health is unchanged; otherwise the bubble is
marked dead, and the player is hurt (health minus 1) when it is not inflated or the bubble
is big, and keeps its health when it is inflated and the bubble is small. -/
theorem collideWithPlayer_outcome (ops : RealOps) (b : EnemyBubble) (player : Player)
    (hb : b.bounced = false) (hi : player.invulTime = 0) (hd : player.isDying = false)
    (hc : b.getHitbox.collides player.getHitbox = true) :
    (0 < player.puffingFrames →
        (b.collideWithPlayer ops player).1.velocity = b.velocity.neg ∧
        (b.collideWithPlayer ops player).1.bounced = true ∧
        (b.collideWithPlayer ops player).1.isDead = b.isDead ∧
        (b.collideWithPlayer ops player).1.visible = b.visible ∧
        (b.collideWithPlayer ops player).2.health = player.health) ∧
      (¬ 0 < player.puffingFrames →
        (b.collideWithPlayer ops player).1.isDead = true ∧
        ((player.isPuffed = false ∨ b.isBig = true) →
          (b.collideWithPlayer ops player).2 = player.hurt ops b.getCenter 1 ∧
          (b.collideWithPlayer ops player).2.health = player.health - 1) ∧
        (¬ (player.isPuffed = false ∨ b.isBig = true) →
          (b.collideWithPlayer ops player).2 = player)) := by
  unfold EnemyBubble.collideWithPlayer
  rw [if_pos ⟨hb, hi, hd⟩, if_pos hc]
  constructor
  · intro hp
    rw [if_pos hp]
    dsimp only
    split_ifs <;> exact ⟨rfl, rfl, rfl, rfl, rfl⟩
  · intro hp
    rw [if_neg hp]
    refine ⟨?_, ?_, ?_⟩
    · split_ifs <;> rfl
    · intro h
      rw [if_pos h]
      exact ⟨rfl, player_hurt_health ops player b.getCenter 1⟩
    · intro h
      rw [if_neg h]

/-- Witness for C21: the small bubble centred on the fresh player, which is deflated and
not inflating, dies and takes one health point. -/
theorem collideWithPlayer_outcome_witness :
    (bubbleOnPlayer.collideWithPlayer plainOps freshPlayer).1.isDead = true ∧
      (bubbleOnPlayer.collideWithPlayer plainOps freshPlayer).2.health = freshPlayer.health - 1 ∧
      (bubbleOnPlayer.collideWithPlayer plainOps inflatingPlayer).1.bounced = true ∧
      (bubbleOnPlayer.collideWithPlayer plainOps inflatingPlayer).2.health
        = inflatingPlayer.health :=
  ⟨((collideWithPlayer_outcome plainOps bubbleOnPlayer freshPlayer (by decide!) (by decide!)
      (by decide!) (by decide!)).2 (by decide!)).1,
    (((collideWithPlayer_outcome plainOps bubbleOnPlayer freshPlayer (by decide!) (by decide!)
      (by decide!) (by decide!)).2 (by decide!)).2.1 (Or.inl (by decide!))).2,
    ((collideWithPlayer_outcome plainOps bubbleOnPlayer inflatingPlayer (by decide!)
      (by decide!) (by decide!) (by decide!)).1 (by decide!)).2.1,
    ((collideWithPlayer_outcome plainOps bubbleOnPlayer inflatingPlayer (by decide!)
      (by decide!) (by decide!) (by decide!)).1 (by decide!)).2.2.2.2⟩

/-! ### The boss in `Bubbles` facing an inflated player (C23) -/

/-- Counterexample to claim C23: with the player inflated and the cooldown used up, the
boss about to fire its eighth volley goes to `Sweep` on the draws 2 and 3 without firing,
and fires (two bubbles, state still `Bubbles`) on the draw 1 only. -/
theorem bubbles_sweep_on_two_draws :
    bossAtSeven.bossState = BossState.Bubbles ∧ bossAtSeven.shootCooldown ≤ 0 ∧
      puffedWorld.player.isPuffed = true ∧
      (bossAtSeven.updateSwitch plainOps puffedWorld 2 (1 / 60)).1.bossState = BossState.Sweep ∧
      (bossAtSeven.updateSwitch plainOps puffedWorld 3 (1 / 60)).1.bossState = BossState.Sweep ∧
      (bossAtSeven.updateSwitch plainOps puffedWorld 2 (1 / 60)).2.newEnemiesQueue = [] ∧
      (bossAtSeven.updateSwitch plainOps puffedWorld 3 (1 / 60)).2.newEnemiesQueue = [] ∧
      (bossAtSeven.updateSwitch plainOps puffedWorld 1 (1 / 60)).1.bossState
        = BossState.Bubbles ∧
      (bossAtSeven.updateSwitch plainOps puffedWorld 1 (1 / 60)).2.newEnemiesQueue.length = 2 := by
  decide!

/-- Claim C23, amended.  In state `Bubbles` with `shootCooldown <= 0` and the player
inflated, the tick calls `shootBubbles` exactly when the draw is 1 (the boss does not go to
`Sweep` then), and for every other draw, so for 2 and for 3, the boss goes to `Sweep` and
the game state is left as it was. -/
theorem bubbles_preemption (ops : RealOps) (b : EnemyBoss) (w : BossWorld) (draw : ℤ)
    (time_delta : ℚ) (hs : b.bossState = BossState.Bubbles) (hc : b.shootCooldown ≤ 0)
    (hp : w.player.isPuffed = true) :
    (draw = 1 →
        (b.updateSwitch ops w draw time_delta).1
          = { (b.shootBubbles ops w time_delta).1 with
              shootCooldown := (b.shootBubbles ops w time_delta).1.shootCooldown - time_delta } ∧
        (b.updateSwitch ops w draw time_delta).2 = (b.shootBubbles ops w time_delta).2 ∧
        (b.updateSwitch ops w draw time_delta).1.bossState ≠ BossState.Sweep) ∧
      (draw ≠ 1 →
        (b.updateSwitch ops w draw time_delta).1.bossState = BossState.Sweep ∧
        (b.updateSwitch ops w draw time_delta).2 = w) := by
  constructor
  · intro hd
    have h1 : b.updateSwitch ops w draw time_delta
        = ({ (b.shootBubbles ops w time_delta).1 with
              shootCooldown := (b.shootBubbles ops w time_delta).1.shootCooldown - time_delta },
            (b.shootBubbles ops w time_delta).2) := by
      simp [EnemyBoss.updateSwitch, hs, hc, hp, hd]
    rw [h1]
    refine ⟨rfl, rfl, ?_⟩
    show (b.shootBubbles ops w time_delta).1.bossState ≠ BossState.Sweep
    obtain ⟨k1, k2⟩ := shootBubbles_state ops b w time_delta
    by_cases h40 : b.bubbleShootCount < 40
    · rw [(k1 h40).1, hs]; decide
    · rw [k2 h40]; decide
  · intro hd
    simp [EnemyBoss.updateSwitch, hs, hc, hp, hd, EnemyBoss.changeState]

/-- Witness for C23: the boss about to fire its eighth volley, the player inflated. -/
theorem bubbles_preemption_witness :
    (bossAtSeven.updateSwitch plainOps puffedWorld 1 (1 / 60)).1.bossState ≠ BossState.Sweep ∧
      (bossAtSeven.updateSwitch plainOps puffedWorld 3 (1 / 60)).1.bossState = BossState.Sweep :=
  ⟨((bubbles_preemption plainOps bossAtSeven puffedWorld 1 (1 / 60) (by decide!) (by decide!)
      (by decide!)).1 rfl).2.2,
    ((bubbles_preemption plainOps bossAtSeven puffedWorld 3 (1 / 60) (by decide!) (by decide!)
      (by decide!)).2 (by decide)).1⟩

/-! ### What a boss transition resets (C24) -/

/-- The fields that `changeState` writes. -/
theorem changeState_fields (b : EnemyBoss) (w : BossWorld) (s : BossState) :
    (b.changeState w s).bossState = s ∧
      (b.changeState w s).sweepState = SweepState.Windup ∧
      (b.changeState w s).bbState = BigBubbleState.Windup ∧
      (b.changeState w s).bubbleShootCount = 0 ∧
      (b.changeState w s).lastStateTime = w.play_time_passed ∧
      (b.changeState w s).lastSweepStateTime = w.play_time_passed ∧
      (b.changeState w s).lastBBStateTime = w.play_time_passed ∧
      (b.changeState w s).cycleCount = b.cycleCount + 1 :=
  ⟨rfl, rfl, rfl, rfl, rfl, rfl, rfl, rfl⟩

/-- Claim C24 fails on the transition from `Bubbles` to `BigBubble`.  The boss in
`Bubbles` with 40 volleys fired and the cooldown used up calls `shootBubbles`, which
changes the state to `BigBubble` and then runs `bubbleShootCount++` as after every volley:
the tick ends in a new state with `bubbleShootCount = 1`, for every choice of the library
functions, draw and time step. -/
theorem bigBubble_transition_keeps_count (ops : RealOps) (draw : ℤ) (time_delta : ℚ) :
    bossAtForty.bossState = BossState.Bubbles ∧
      (bossAtForty.updateSwitch ops quietWorld draw time_delta).1.bossState
        = BossState.BigBubble ∧
      (bossAtForty.updateSwitch ops quietWorld draw time_delta).1.bubbleShootCount = 1 ∧
      (bossAtForty.updateSwitch ops quietWorld draw time_delta).1.lastStateTime
        = quietWorld.play_time_passed := by
  have hs : bossAtForty.bossState = BossState.Bubbles := by decide!
  have hc : bossAtForty.shootCooldown ≤ 0 := by decide!
  have hp : quietWorld.player.isPuffed = false := by decide!
  have h8 : ¬ bossAtForty.bubbleShootCount < 8 := by decide!
  have h40 : ¬ bossAtForty.bubbleShootCount < 40 := by decide!
  have hq : quietWorld.play_time_passed = 20 := by decide!
  refine ⟨hs, ?_, ?_, ?_⟩ <;>
    simp [EnemyBoss.updateSwitch, hs, hc, hp, EnemyBoss.shootBubbles, h8, h40,
      EnemyBoss.changeState, hq]

theorem sweepAttack_transition (ops : RealOps) (b : EnemyBoss) (w : BossWorld) (dt : ℚ)
    (h : (b.sweepAttack ops w dt).1.bossState ≠ b.bossState) :
    (b.sweepAttack ops w dt).1.sweepState = SweepState.Windup ∧
      (b.sweepAttack ops w dt).1.bbState = BigBubbleState.Windup ∧
      (b.sweepAttack ops w dt).1.bubbleShootCount = 0 ∧
      (b.sweepAttack ops w dt).1.lastStateTime = w.play_time_passed ∧
      (b.sweepAttack ops w dt).1.lastSweepStateTime = w.play_time_passed ∧
      (b.sweepAttack ops w dt).1.lastBBStateTime = w.play_time_passed := by
  unfold EnemyBoss.sweepAttack at h ⊢
  cases hs : b.sweepState <;> simp only [hs] at h ⊢ <;> split_ifs at h ⊢ <;>
    first
    | exact absurd rfl h
    | exact ⟨rfl, rfl, rfl, rfl, rfl, rfl⟩

theorem bigBubbleAttack_transition (ops : RealOps) (b : EnemyBoss) (w : BossWorld) (dt : ℚ)
    (h : (b.bigBubbleAttack ops w dt).1.bossState ≠ b.bossState) :
    (b.bigBubbleAttack ops w dt).1.sweepState = SweepState.Windup ∧
      (b.bigBubbleAttack ops w dt).1.bbState = BigBubbleState.Windup ∧
      (b.bigBubbleAttack ops w dt).1.bubbleShootCount = 0 ∧
      (b.bigBubbleAttack ops w dt).1.lastStateTime = w.play_time_passed ∧
      (b.bigBubbleAttack ops w dt).1.lastSweepStateTime = w.play_time_passed ∧
      (b.bigBubbleAttack ops w dt).1.lastBBStateTime = w.play_time_passed := by
  unfold EnemyBoss.bigBubbleAttack at h ⊢
  cases hs : b.bbState <;> simp only [hs] at h ⊢
  · split_ifs at h ⊢ <;> exact absurd rfl h
  · exact ⟨rfl, rfl, rfl, rfl, rfl, rfl⟩

theorem shootBubbles_transition (ops : RealOps) (b : EnemyBoss) (w : BossWorld) (dt : ℚ)
    (h : (b.shootBubbles ops w dt).1.bossState ≠ b.bossState) :
    (b.shootBubbles ops w dt).1.bossState = BossState.BigBubble ∧
      (b.shootBubbles ops w dt).1.sweepState = SweepState.Windup ∧
      (b.shootBubbles ops w dt).1.bbState = BigBubbleState.Windup ∧
      (b.shootBubbles ops w dt).1.bubbleShootCount = 1 ∧
      (b.shootBubbles ops w dt).1.lastStateTime = w.play_time_passed ∧
      (b.shootBubbles ops w dt).1.lastSweepStateTime = w.play_time_passed ∧
      (b.shootBubbles ops w dt).1.lastBBStateTime = w.play_time_passed := by
  by_cases h40 : b.bubbleShootCount < 40
  · exact absurd ((shootBubbles_state ops b w dt).1 h40).1 h
  · have h8 : ¬ b.bubbleShootCount < 8 := by omega
    simp [EnemyBoss.shootBubbles, h8, h40, EnemyBoss.changeState]

/-- Every tick of the `switch` of `EnemyBoss::update` that changes `bossState` resets the
sub-state machines and records the play time; it resets the volley counter too, except
on the transition from `Bubbles` to `BigBubble`, which leaves it at 1. -/
theorem updateSwitch_transition_reset (ops : RealOps) (b : EnemyBoss) (w : BossWorld)
    (draw : ℤ) (dt : ℚ) (h : (b.updateSwitch ops w draw dt).1.bossState ≠ b.bossState) :
    (b.updateSwitch ops w draw dt).1.sweepState = SweepState.Windup ∧
      (b.updateSwitch ops w draw dt).1.bbState = BigBubbleState.Windup ∧
      (b.updateSwitch ops w draw dt).1.lastStateTime = w.play_time_passed ∧
      (b.updateSwitch ops w draw dt).1.lastSweepStateTime = w.play_time_passed ∧
      (b.updateSwitch ops w draw dt).1.lastBBStateTime = w.play_time_passed ∧
      ((b.updateSwitch ops w draw dt).1.bubbleShootCount = 0 ∨
        (b.bossState = BossState.Bubbles ∧
          (b.updateSwitch ops w draw dt).1.bossState = BossState.BigBubble ∧
          (b.updateSwitch ops w draw dt).1.bubbleShootCount = 1)) := by
  unfold EnemyBoss.updateSwitch at h ⊢
  cases hs : b.bossState <;> simp only [hs] at h ⊢
  · -- Waiting
    split_ifs at h ⊢ <;>
      first
      | exact absurd rfl h
      | exact absurd hs h
      | exact ⟨rfl, rfl, rfl, rfl, rfl, Or.inl rfl⟩
  · -- Idle
    split_ifs at h ⊢ <;>
      first
      | exact absurd rfl h
      | exact absurd hs h
      | exact ⟨rfl, rfl, rfl, rfl, rfl, Or.inl rfl⟩
  · -- Bubbles
    split_ifs at h ⊢ with hc hp hd
    · have h2 : (b.shootBubbles ops w dt).1.bossState ≠ b.bossState := by
        rw [hs]; exact h
      obtain ⟨k0, k1, k2, k3, k4, k5, k6⟩ := shootBubbles_transition ops b w dt h2
      exact ⟨k1, k2, k4, k5, k6, Or.inr ⟨trivial, k0, k3⟩⟩
    · exact ⟨rfl, rfl, rfl, rfl, rfl, Or.inl rfl⟩
    · have h2 : (b.shootBubbles ops w dt).1.bossState ≠ b.bossState := by
        rw [hs]; exact h
      obtain ⟨k0, k1, k2, k3, k4, k5, k6⟩ := shootBubbles_transition ops b w dt h2
      exact ⟨k1, k2, k4, k5, k6, Or.inr ⟨trivial, k0, k3⟩⟩
    · first
      | exact absurd rfl h
      | exact absurd hs h
  · -- BigBubble
    have h2 : (b.bigBubbleAttack ops w dt).1.bossState ≠ b.bossState := by
      rw [hs]; exact h
    obtain ⟨k1, k2, k3, k4, k5, k6⟩ := bigBubbleAttack_transition ops b w dt h2
    exact ⟨k1, k2, k4, k5, k6, Or.inl k3⟩
  · -- Sweep
    have h2 : (b.sweepAttack ops w dt).1.bossState ≠ b.bossState := by
      rw [hs]; exact h
    obtain ⟨k1, k2, k3, k4, k5, k6⟩ := sweepAttack_transition ops b w dt h2
    exact ⟨k1, k2, k4, k5, k6, Or.inl k3⟩
  · -- Stunned
    split_ifs at h ⊢ <;>
      first
      | exact absurd rfl h
      | exact absurd hs h
      | exact ⟨rfl, rfl, rfl, rfl, rfl, Or.inl rfl⟩
  · -- Hurt
    split_ifs at h ⊢ <;>
      first
      | exact absurd rfl h
      | exact absurd hs h
      | exact ⟨rfl, rfl, rfl, rfl, rfl, Or.inl rfl⟩

/-! ### The order of the sweep sub-states (C26) -/

/-- Counterexample to claim C26: called on the boss in `Bringback` with the claw back at
-30 degrees, `sweepAttack` sends the boss to `Idle` and, through `changeState`, puts
`sweepState` back to `Windup`, which is neither `Bringback` nor a successor of it. -/
theorem sweepAttack_bringback_resets :
    bossBringback.sweepState = SweepState.Bringback ∧
      (bossBringback.sweepAttack plainOps quietWorld (1 / 60)).1.sweepState
        = SweepState.Windup ∧
      (bossBringback.sweepAttack plainOps quietWorld (1 / 60)).1.bossState = BossState.Idle := by
  decide!

/-- Claim C26, amended.  One call of `sweepAttack` leaves `sweepState` unchanged or moves
it to the next sub-state in the order `Windup`, `BeforeSlash`, `Slash`, `AfterSlash`,
`Bringback`, except that the call that ends the sweep puts it back to `Windup`: `Windup`
is left exactly when `clawAngle >= 0`, `BeforeSlash` exactly after more than 0.3 s in the
sub-state, `Slash` exactly when `clawAngle <= -160`, `AfterSlash` exactly after more than
0.8 s, and from `Bringback` with `clawAngle >= -30` (and only then) the boss state changes,
to `Idle`, with `sweepState` reset to `Windup`. -/
theorem sweepAttack_order (ops : RealOps) (b : EnemyBoss) (w : BossWorld) (time_delta : ℚ) :
    (b.sweepState = SweepState.Windup →
        (b.sweepAttack ops w time_delta).1.bossState = b.bossState ∧
        (b.clawAngle < 0 → (b.sweepAttack ops w time_delta).1.sweepState = SweepState.Windup) ∧
        (0 ≤ b.clawAngle →
          (b.sweepAttack ops w time_delta).1.sweepState = SweepState.BeforeSlash)) ∧
      (b.sweepState = SweepState.BeforeSlash →
        (b.sweepAttack ops w time_delta).1.bossState = b.bossState ∧
        (w.play_time_passed - b.lastSweepStateTime ≤ 3 / 10 →
          (b.sweepAttack ops w time_delta).1.sweepState = SweepState.BeforeSlash) ∧
        (3 / 10 < w.play_time_passed - b.lastSweepStateTime →
          (b.sweepAttack ops w time_delta).1.sweepState = SweepState.Slash)) ∧
      (b.sweepState = SweepState.Slash →
        (b.sweepAttack ops w time_delta).1.bossState = b.bossState ∧
        (-160 < b.clawAngle → (b.sweepAttack ops w time_delta).1.sweepState = SweepState.Slash) ∧
        (b.clawAngle ≤ -160 →
          (b.sweepAttack ops w time_delta).1.sweepState = SweepState.AfterSlash)) ∧
      (b.sweepState = SweepState.AfterSlash →
        (b.sweepAttack ops w time_delta).1.bossState = b.bossState ∧
        (w.play_time_passed - b.lastSweepStateTime ≤ 8 / 10 →
          (b.sweepAttack ops w time_delta).1.sweepState = SweepState.AfterSlash) ∧
        (8 / 10 < w.play_time_passed - b.lastSweepStateTime →
          (b.sweepAttack ops w time_delta).1.sweepState = SweepState.Bringback)) ∧
      (b.sweepState = SweepState.Bringback →
        (b.clawAngle < -30 →
          (b.sweepAttack ops w time_delta).1.bossState = b.bossState ∧
          (b.sweepAttack ops w time_delta).1.sweepState = SweepState.Bringback) ∧
        (-30 ≤ b.clawAngle →
          (b.sweepAttack ops w time_delta).1.bossState = BossState.Idle ∧
          (b.sweepAttack ops w time_delta).1.sweepState = SweepState.Windup)) := by
  refine ⟨?_, ?_, ?_, ?_, ?_⟩ <;> intro hs
  · refine ⟨?_, ?_, ?_⟩
    · unfold EnemyBoss.sweepAttack; simp only [hs]; split_ifs <;> rfl
    · intro h; unfold EnemyBoss.sweepAttack; simp only [hs]; rw [if_pos h]
    · intro h; unfold EnemyBoss.sweepAttack; simp only [hs]; rw [if_neg (not_lt.mpr h)]
  · refine ⟨?_, ?_, ?_⟩
    · unfold EnemyBoss.sweepAttack; simp only [hs]; split_ifs <;> rfl
    · intro h; unfold EnemyBoss.sweepAttack; simp only [hs]
      rw [if_neg (not_lt.mpr h)]; split_ifs <;> rfl
    · intro h; unfold EnemyBoss.sweepAttack; simp only [hs]; rw [if_pos h]
  · refine ⟨?_, ?_, ?_⟩
    · unfold EnemyBoss.sweepAttack; simp only [hs]; split_ifs <;> rfl
    · intro h; unfold EnemyBoss.sweepAttack; simp only [hs]; rw [if_pos h]
    · intro h; unfold EnemyBoss.sweepAttack; simp only [hs]; rw [if_neg (not_lt.mpr h)]
  · refine ⟨?_, ?_, ?_⟩
    · unfold EnemyBoss.sweepAttack; simp only [hs]; split_ifs <;> rfl
    · intro h; unfold EnemyBoss.sweepAttack; simp only [hs]; rw [if_neg (not_lt.mpr h)]
    · intro h; unfold EnemyBoss.sweepAttack; simp only [hs]; rw [if_pos h]
  · refine ⟨?_, ?_⟩
    · intro h; unfold EnemyBoss.sweepAttack; simp only [hs]; rw [if_pos h]
      exact ⟨rfl, rfl⟩
    · intro h; unfold EnemyBoss.sweepAttack; simp only [hs]; rw [if_neg (not_lt.mpr h)]
      exact ⟨rfl, rfl⟩

/-- Witness for C26: the boss at the end of a sweep, and the fresh boss in `Windup`. -/
theorem sweepAttack_order_witness :
    ((bossBringback.sweepAttack plainOps quietWorld (1 / 60)).1.bossState = BossState.Idle ∧
        (bossBringback.sweepAttack plainOps quietWorld (1 / 60)).1.sweepState
          = SweepState.Windup) ∧
      (freshBoss.sweepAttack plainOps quietWorld (1 / 60)).1.sweepState = SweepState.Windup :=
  ⟨((sweepAttack_order plainOps bossBringback quietWorld (1 / 60)).2.2.2.2 (by decide!)).2
      (by decide!),
    ((sweepAttack_order plainOps freshBoss quietWorld (1 / 60)).1 (by decide!)).2.1
      (by decide!)⟩

/-! ### How the boss leaves `Idle` (C22) -/

theorem bossRun_succ (ops : RealOps) (dt : ℚ) (n : ℕ) :
    ∀ (t : ℚ) (env : ℕ → BossTick) (b : EnemyBoss),
      bossRun ops dt (n + 1) t env b
        = bossTick ops dt (t + n * dt) (env n) (bossRun ops dt n t env b) := by
  induction n with
  | zero => intro t env b; simp [bossRun]
  | succ n ih =>
    intro t env b
    rw [bossRun, ih (t + dt) (fun k => env (k + 1)) (bossTick ops dt t (env 0) b)]
    have ht : t + dt + (n : ℚ) * dt = t + ((n + 1 : ℕ) : ℚ) * dt := by push_cast; ring
    rw [ht]
    rfl

theorem shootBubbles_cycleCount (ops : RealOps) (b : EnemyBoss) (w : BossWorld) (dt : ℚ) :
    ((b.shootBubbles ops w dt).1.bossState = b.bossState ∧
        (b.shootBubbles ops w dt).1.cycleCount = b.cycleCount) ∨
      ((b.shootBubbles ops w dt).1.bossState = BossState.BigBubble ∧
        (b.shootBubbles ops w dt).1.cycleCount = b.cycleCount + 1) := by
  by_cases h8 : b.bubbleShootCount < 8
  · left; simp [EnemyBoss.shootBubbles, h8]
  · by_cases h40 : b.bubbleShootCount < 40
    · left; simp [EnemyBoss.shootBubbles, h8, h40]
    · right; simp [EnemyBoss.shootBubbles, h8, h40, EnemyBoss.changeState]

theorem sweepAttack_cycleCount (ops : RealOps) (b : EnemyBoss) (w : BossWorld) (dt : ℚ) :
    ((b.sweepAttack ops w dt).1.bossState = b.bossState ∧
        (b.sweepAttack ops w dt).1.cycleCount = b.cycleCount) ∨
      ((b.sweepAttack ops w dt).1.bossState = BossState.Idle ∧
        (b.sweepAttack ops w dt).1.cycleCount = b.cycleCount + 1) := by
  unfold EnemyBoss.sweepAttack
  cases hs : b.sweepState <;> simp only [hs] <;> split_ifs <;>
    first
    | exact Or.inl ⟨rfl, rfl⟩
    | exact Or.inr ⟨rfl, rfl⟩

theorem bigBubbleAttack_cycleCount (ops : RealOps) (b : EnemyBoss) (w : BossWorld) (dt : ℚ) :
    ((b.bigBubbleAttack ops w dt).1.bossState = b.bossState ∧
        (b.bigBubbleAttack ops w dt).1.cycleCount = b.cycleCount) ∨
      ((b.bigBubbleAttack ops w dt).1.bossState = BossState.Idle ∧
        (b.bigBubbleAttack ops w dt).1.cycleCount = b.cycleCount + 1) := by
  unfold EnemyBoss.bigBubbleAttack
  cases hs : b.bbState <;> simp only [hs]
  · split_ifs <;> exact Or.inl ⟨rfl, rfl⟩
  · exact Or.inr ⟨rfl, rfl⟩

/-- One tick of the `switch` either keeps state and `cycleCount`, or changes the state and
adds one to `cycleCount`; the second component tells where the boss may go. -/
theorem updateSwitch_cycleCount (ops : RealOps) (b : EnemyBoss) (w : BossWorld) (draw : ℤ)
    (dt : ℚ) :
    ((b.updateSwitch ops w draw dt).1.bossState = b.bossState ∧
        (b.updateSwitch ops w draw dt).1.cycleCount = b.cycleCount) ∨
      ((b.updateSwitch ops w draw dt).1.bossState ≠ b.bossState ∧
        (b.updateSwitch ops w draw dt).1.cycleCount = b.cycleCount + 1 ∧
        (b.bossState = BossState.Idle →
          (b.cycleCount < 3 → (b.updateSwitch ops w draw dt).1.bossState = BossState.Bubbles) ∧
          (3 ≤ b.cycleCount → draw = 1 →
            (b.updateSwitch ops w draw dt).1.bossState = BossState.Sweep) ∧
          (3 ≤ b.cycleCount → draw ≠ 1 →
            (b.updateSwitch ops w draw dt).1.bossState = BossState.Bubbles))) := by
  unfold EnemyBoss.updateSwitch
  cases hs : b.bossState <;> simp only
  · -- Waiting
    split_ifs <;>
      first
      | exact Or.inl ⟨rfl, rfl⟩
      | exact Or.inl ⟨hs, rfl⟩
      | exact Or.inr ⟨by simp [EnemyBoss.changeState], rfl, fun h => by cases h⟩
  · -- Idle
    split_ifs with h0 h3 hd
    · exact Or.inr ⟨by simp [EnemyBoss.changeState], rfl,
        fun _ => ⟨fun _ => rfl, fun h => absurd h3 (not_lt.mpr h),
          fun h => absurd h3 (not_lt.mpr h)⟩⟩
    · exact Or.inr ⟨by simp [EnemyBoss.changeState], rfl,
        fun _ => ⟨fun h => absurd h h3, fun _ _ => rfl, fun _ h => absurd hd h⟩⟩
    · exact Or.inr ⟨by simp [EnemyBoss.changeState], rfl,
        fun _ => ⟨fun h => absurd h h3, fun _ h => absurd h hd, fun _ _ => rfl⟩⟩
    · exact Or.inl ⟨rfl, rfl⟩
  · -- Bubbles
    have key := shootBubbles_cycleCount ops b w dt
    rw [hs] at key
    split_ifs with hc hp hd
    · rcases key with ⟨k1, k2⟩ | ⟨k1, k2⟩
      · exact Or.inl ⟨k1, k2⟩
      · exact Or.inr ⟨by show (b.shootBubbles ops w dt).1.bossState ≠ _; rw [k1]; decide, k2,
          fun h => by cases h⟩
    · exact Or.inr ⟨by simp [EnemyBoss.changeState], rfl, fun h => by cases h⟩
    · rcases key with ⟨k1, k2⟩ | ⟨k1, k2⟩
      · exact Or.inl ⟨k1, k2⟩
      · exact Or.inr ⟨by show (b.shootBubbles ops w dt).1.bossState ≠ _; rw [k1]; decide, k2,
          fun h => by cases h⟩
    · first
      | exact Or.inl ⟨rfl, rfl⟩
      | exact Or.inl ⟨hs, rfl⟩
  · -- BigBubble
    have key := bigBubbleAttack_cycleCount ops b w dt
    rw [hs] at key
    rcases key with ⟨k1, k2⟩ | ⟨k1, k2⟩
    · exact Or.inl ⟨k1, k2⟩
    · exact Or.inr ⟨by rw [k1]; decide, k2, fun h => by cases h⟩
  · -- Sweep
    have key := sweepAttack_cycleCount ops b w dt
    rw [hs] at key
    rcases key with ⟨k1, k2⟩ | ⟨k1, k2⟩
    · exact Or.inl ⟨k1, k2⟩
    · exact Or.inr ⟨by rw [k1]; decide, k2, fun h => by cases h⟩
  · -- Stunned
    split_ifs <;>
      first
      | exact Or.inl ⟨rfl, rfl⟩
      | exact Or.inl ⟨hs, rfl⟩
      | exact Or.inr ⟨by simp [EnemyBoss.changeState], rfl, fun h => by cases h⟩
  · -- Hurt
    split_ifs <;>
      first
      | exact Or.inl ⟨rfl, rfl⟩
      | exact Or.inl ⟨hs, rfl⟩
      | exact Or.inr ⟨by simp [EnemyBoss.changeState], rfl, fun h => by cases h⟩

theorem bossTick_cycleCount (ops : RealOps) (dt t : ℚ) (e : BossTick) (b : EnemyBoss) :
    ((bossTick ops dt t e b).bossState = b.bossState ∧
        (bossTick ops dt t e b).cycleCount = b.cycleCount) ∨
      ((bossTick ops dt t e b).bossState ≠ b.bossState ∧
        (bossTick ops dt t e b).cycleCount = b.cycleCount + 1 ∧
        (b.bossState = BossState.Idle →
          (b.cycleCount < 3 → (bossTick ops dt t e b).bossState = BossState.Bubbles) ∧
          (3 ≤ b.cycleCount → e.draw = 1 →
            (bossTick ops dt t e b).bossState = BossState.Sweep) ∧
          (3 ≤ b.cycleCount → e.draw ≠ 1 →
            (bossTick ops dt t e b).bossState = BossState.Bubbles))) :=
  updateSwitch_cycleCount ops { b with toEnemy := e.body }
    ⟨t, e.bossStarted, e.player, e.newEnemiesQueue⟩ e.draw dt

/-- Along a run that starts in `Waiting` with `cycleCount = 0`: before the first exit from
`Idle` the boss is in `Waiting` with count 0 or in `Idle` with count 1; after it, the boss
is in `Bubbles` with count 2 or the count is at least 3. -/
theorem bossRun_cycle_invariant (ops : RealOps) (dt t : ℚ) (env : ℕ → BossTick)
    (b : EnemyBoss) (hs : b.bossState = BossState.Waiting) (hc : b.cycleCount = 0) (n : ℕ) :
    ((¬ ∃ m, m < n ∧ idleExitAt ops dt t env b m) ∧
        (((bossRun ops dt n t env b).bossState = BossState.Waiting ∧
            (bossRun ops dt n t env b).cycleCount = 0) ∨
          ((bossRun ops dt n t env b).bossState = BossState.Idle ∧
            (bossRun ops dt n t env b).cycleCount = 1))) ∨
      ((∃ m, m < n ∧ idleExitAt ops dt t env b m) ∧
        (((bossRun ops dt n t env b).bossState = BossState.Bubbles ∧
            (bossRun ops dt n t env b).cycleCount = 2) ∨
          3 ≤ (bossRun ops dt n t env b).cycleCount)) := by
  induction n with
  | zero =>
    left
    exact ⟨fun ⟨m, hm, _⟩ => absurd hm (Nat.not_lt_zero m), Or.inl ⟨hs, hc⟩⟩
  | succ n ih =>
    have hstep := bossRun_succ ops dt n t env b
    have htick := bossTick_cycleCount ops dt (t + n * dt) (env n) (bossRun ops dt n t env b)
    rw [← hstep] at htick
    have hmono : ∀ m, m < n → m < n + 1 := fun m hm => Nat.lt_succ_of_lt hm
    rcases ih with ⟨hE, hw | hi⟩ | ⟨hE, hrest⟩
    · -- still waiting
      left
      have hnoexit : ¬ ∃ m, m < n + 1 ∧ idleExitAt ops dt t env b m := by
        rintro ⟨m, hm, hex⟩
        rcases Nat.lt_succ_iff_lt_or_eq.mp hm with hlt | heq
        · exact hE ⟨m, hlt, hex⟩
        · subst heq
          rw [idleExitAt, hw.1] at hex
          exact absurd hex.1 (by decide)
      refine ⟨hnoexit, ?_⟩
      rcases htick with ⟨k1, k2⟩ | ⟨k1, k2, _⟩
      · exact Or.inl ⟨k1.trans hw.1, k2.trans hw.2⟩
      · right
        have hcases := tick_waiting ops dt (t + n * dt) (env n) (bossRun ops dt n t env b) hw.1
        rw [← hstep] at hcases
        refine ⟨?_, by rw [k2, hw.2]; rfl⟩
        by_cases hst : (env n).bossStarted = true
        · exact hcases.1 hst
        · exact absurd ((hcases.2 (Bool.eq_false_iff.mpr hst)).trans hw.1.symm) k1
    · -- in Idle before the first exit
      rcases htick with ⟨k1, k2⟩ | ⟨k1, k2, k3⟩
      · left
        have hnoexit : ¬ ∃ m, m < n + 1 ∧ idleExitAt ops dt t env b m := by
          rintro ⟨m, hm, hex⟩
          rcases Nat.lt_succ_iff_lt_or_eq.mp hm with hlt | heq
          · exact hE ⟨m, hlt, hex⟩
          · subst heq
            exact hex.2 (k1.trans hi.1)
        exact ⟨hnoexit, Or.inr ⟨k1.trans hi.1, k2.trans hi.2⟩⟩
      · right
        refine ⟨⟨n, Nat.lt_succ_self n, hi.1, by rw [← hi.1]; exact k1⟩, Or.inl ⟨?_, ?_⟩⟩
        · exact (k3 hi.1).1 (by rw [hi.2]; decide)
        · rw [k2, hi.2]; rfl
    · -- after the first exit
      right
      obtain ⟨m, hm, hex⟩ := hE
      refine ⟨⟨m, hmono m hm, hex⟩, ?_⟩
      rcases hrest with hb | h3
      · rcases htick with ⟨k1, k2⟩ | ⟨_, k2, _⟩
        · exact Or.inl ⟨k1.trans hb.1, k2.trans hb.2⟩
        · right; rw [k2, hb.2]; decide
      · right
        rcases htick with ⟨_, k2⟩ | ⟨_, k2, _⟩
        · rw [k2]; exact h3
        · rw [k2]; omega

/-- Counterexample to claim C22: a run from the freshly constructed boss (in `Waiting`,
`cycleCount = 0`) with ticks of one second, the encounter started and the player inflated.
The boss leaves `Idle` for the first time at tick 2, to `Bubbles`; it is not in `Idle`
again before tick 16; at tick 16, its second exit from `Idle`, the draw is 1 and the boss
goes to `Sweep`, because `cycleCount` is 4 by then. -/
theorem second_idle_exit_is_random :
    freshBoss.bossState = BossState.Waiting ∧ freshBoss.cycleCount = 0 ∧
      idleExitAt plainOps 1 0 sweepEnv freshBoss 2 ∧
      (bossRun plainOps 1 3 0 sweepEnv freshBoss).bossState = BossState.Bubbles ∧
      ((List.range 13).all fun k =>
        decide ((bossRun plainOps 1 (k + 3) 0 sweepEnv freshBoss).bossState ≠ BossState.Idle))
        = true ∧
      idleExitAt plainOps 1 0 sweepEnv freshBoss 16 ∧
      (bossRun plainOps 1 16 0 sweepEnv freshBoss).cycleCount = 4 ∧
      (sweepEnv 16).draw = 1 ∧
      (bossRun plainOps 1 17 0 sweepEnv freshBoss).bossState = BossState.Sweep := by
  refine ⟨by decide!, by decide!, ⟨by decide!, by decide!⟩, by decide!, by decide!,
    ⟨by decide!, by decide!⟩, by decide!, by decide!, by decide!⟩

/-- Claim C22, amended.  Along every boss run that starts in `Waiting` with
`cycleCount = 0` (`changeState` counts every transition, the one from `Waiting` to `Idle`
included): the first transition out of `Idle` goes to `Bubbles` whatever the draw is; on
every later exit from `Idle` the boss goes to `Sweep` exactly when the draw is 1 and to
`Bubbles` otherwise. -/
theorem idle_exit_policy (ops : RealOps) (dt t : ℚ) (env : ℕ → BossTick) (b : EnemyBoss)
    (hs : b.bossState = BossState.Waiting) (hc : b.cycleCount = 0) (n : ℕ)
    (hexit : idleExitAt ops dt t env b n) :
    ((¬ ∃ m, m < n ∧ idleExitAt ops dt t env b m) →
        (bossRun ops dt (n + 1) t env b).bossState = BossState.Bubbles) ∧
      ((∃ m, m < n ∧ idleExitAt ops dt t env b m) →
        ((bossRun ops dt (n + 1) t env b).bossState = BossState.Sweep ↔ (env n).draw = 1) ∧
        ((bossRun ops dt (n + 1) t env b).bossState = BossState.Bubbles ↔
          (env n).draw ≠ 1)) := by
  have hstep := bossRun_succ ops dt n t env b
  have htick := bossTick_cycleCount ops dt (t + n * dt) (env n) (bossRun ops dt n t env b)
  rw [← hstep] at htick
  obtain ⟨hidle, hout⟩ := hexit
  have hinv := bossRun_cycle_invariant ops dt t env b hs hc n
  rcases htick with ⟨k1, _⟩ | ⟨_, _, k3⟩
  · exact absurd (k1.trans hidle) hout
  obtain ⟨r1, r2, r3⟩ := k3 hidle
  constructor
  · intro hfirst
    rcases hinv with ⟨_, hw | hi⟩ | ⟨hE, _⟩
    · rw [hidle] at hw; exact absurd hw.1 (by decide)
    · exact r1 (by rw [hi.2]; decide)
    · exact absurd hE hfirst
  · intro hlater
    have h3 : 3 ≤ (bossRun ops dt n t env b).cycleCount := by
      rcases hinv with ⟨hE, _⟩ | ⟨_, hb | h3⟩
      · exact absurd hlater hE
      · rw [hidle] at hb; exact absurd hb.1 (by decide)
      · exact h3
    by_cases hd : (env n).draw = 1
    · have hsw := r2 h3 hd
      exact ⟨⟨fun _ => hd, fun _ => hsw⟩,
        ⟨fun hbub => by rw [hsw] at hbub; exact absurd hbub (by decide), fun h => absurd hd h⟩⟩
    · have hbu := r3 h3 hd
      exact ⟨⟨fun hsw => by rw [hbu] at hsw; exact absurd hsw (by decide), fun h => absurd h hd⟩,
        ⟨fun _ => hd, fun _ => hbu⟩⟩

/-- Witness for C22: the two exits from `Idle` of the run of the counterexample. -/
theorem idle_exit_policy_witness :
    (bossRun plainOps 1 3 0 sweepEnv freshBoss).bossState = BossState.Bubbles ∧
      ((bossRun plainOps 1 17 0 sweepEnv freshBoss).bossState = BossState.Sweep ↔
        (sweepEnv 16).draw = 1) :=
  ⟨(idle_exit_policy plainOps 1 0 sweepEnv freshBoss (by decide!) (by decide!) 2
      ⟨by decide!, by decide!⟩).1
      (by
        rintro ⟨m, hm, hex⟩
        have h2 : m = 0 ∨ m = 1 := by omega
        rcases h2 with h | h <;> subst h
        · exact absurd hex.1 (by decide!)
        · exact hex.2 (by decide!)),
    ((idle_exit_policy plainOps 1 0 sweepEnv freshBoss (by decide!) (by decide!) 16
      ⟨by decide!, by decide!⟩).2 ⟨2, by decide, by decide!, by decide!⟩).1⟩

/-! ### Step size of the shape migration (C27) -/

theorem abs_div_steps_le (d : ℚ) (steps : ℤ) (h1 : 1 ≤ steps) (hc : ⌈|d| / 30⌉ ≤ steps) :
    |d / (steps : ℚ)| ≤ 30 := by
  have hs : (0 : ℚ) < steps := by exact_mod_cast (by omega : (0 : ℤ) < steps)
  have hle : |d| / 30 ≤ (steps : ℚ) :=
    le_trans (Int.le_ceil _) (by exact_mod_cast hc)
  rw [abs_div, abs_of_pos hs, div_le_iff₀ hs]
  linarith

theorem pushRight_hitRect (p : Player) (l r : Vector2f) :
    (p.pushRight l r).hitRect = p.hitRect := by
  unfold Player.pushRight; split_ifs <;> rfl

theorem pushLeft_hitRect (p : Player) (l r : Vector2f) :
    (p.pushLeft l r).hitRect = p.hitRect := by
  unfold Player.pushLeft; split_ifs <;> rfl

theorem pushDown_hitRect (p : Player) (t b : Vector2f) :
    (p.pushDown t b).hitRect = p.hitRect := by
  unfold Player.pushDown; split_ifs <;> rfl

theorem pushUp_hitRect (p : Player) (t b : Vector2f) :
    (p.pushUp t b).hitRect = p.hitRect := by
  unfold Player.pushUp; split_ifs <;> rfl

theorem afterPushes_hitRect (q : Player) (lvl : Level) (plan : MigrationPlan) :
    (q.afterPushes lvl plan).hitRect = q.hitRect := by
  unfold Player.afterPushes
  rw [pushUp_hitRect, pushDown_hitRect, pushLeft_hitRect, pushRight_hitRect]

theorem commitSubStep_eq_afterPushes (q : Player) (lvl : Level) (plan : MigrationPlan) :
    q.commitSubStep lvl plan
      = { q.afterPushes lvl plan with
          position := (q.afterPushes lvl plan).position.add plan.stepDeltaPos
          hitRect := q.stepHitRect plan } := rfl

/-- Claim C27.  In `Player::tryHitRectChange` the step count is the maximum of
`ceil(|d| / 30)` over the total hitbox x-displacement (`deltaPos.x` plus the change of the
offset x), the total y-displacement, the width change and the height change.  Whenever the
step count is at least 1, every sub-step, applied to any player `q` the loop may have
reached, changes the world-space x and y of the hitbox (measured from where the pushes
left it), its width and its height by at most 30 units in absolute value. -/
theorem migration_step_size (p : Player) (lvl : Level) (deltaPos : Vector2f)
    (newHitRect : Rect2f) :
    (p.migrationPlan deltaPos newHitRect).steps
        = max (max (max ⌈|deltaPos.x + (newHitRect.x - p.hitRect.x)| / 30⌉
            ⌈|deltaPos.y + (newHitRect.y - p.hitRect.y)| / 30⌉)
            ⌈|newHitRect.w - p.hitRect.w| / 30⌉) ⌈|newHitRect.h - p.hitRect.h| / 30⌉ ∧
      (1 ≤ (p.migrationPlan deltaPos newHitRect).steps → ∀ q : Player,
        |(q.commitSubStep lvl (p.migrationPlan deltaPos newHitRect)).getHitbox.x
            - (q.afterPushes lvl (p.migrationPlan deltaPos newHitRect)).getHitbox.x| ≤ 30 ∧
          |(q.commitSubStep lvl (p.migrationPlan deltaPos newHitRect)).getHitbox.y
            - (q.afterPushes lvl (p.migrationPlan deltaPos newHitRect)).getHitbox.y| ≤ 30 ∧
          |(q.commitSubStep lvl (p.migrationPlan deltaPos newHitRect)).getHitbox.w
            - (q.afterPushes lvl (p.migrationPlan deltaPos newHitRect)).getHitbox.w| ≤ 30 ∧
          |(q.commitSubStep lvl (p.migrationPlan deltaPos newHitRect)).getHitbox.h
            - (q.afterPushes lvl (p.migrationPlan deltaPos newHitRect)).getHitbox.h| ≤ 30) := by
  refine ⟨rfl, ?_⟩
  intro h1 q
  have hsteps : (p.migrationPlan deltaPos newHitRect).steps
      = max (max (max ⌈|deltaPos.x + (newHitRect.x - p.hitRect.x)| / 30⌉
          ⌈|deltaPos.y + (newHitRect.y - p.hitRect.y)| / 30⌉)
          ⌈|newHitRect.w - p.hitRect.w| / 30⌉) ⌈|newHitRect.h - p.hitRect.h| / 30⌉ := rfl
  have cx : ⌈|deltaPos.x + (newHitRect.x - p.hitRect.x)| / 30⌉
      ≤ (p.migrationPlan deltaPos newHitRect).steps := by
    rw [hsteps]; exact le_max_of_le_left (le_max_of_le_left (le_max_left _ _))
  have cy : ⌈|deltaPos.y + (newHitRect.y - p.hitRect.y)| / 30⌉
      ≤ (p.migrationPlan deltaPos newHitRect).steps := by
    rw [hsteps]; exact le_max_of_le_left (le_max_of_le_left (le_max_right _ _))
  have cw : ⌈|newHitRect.w - p.hitRect.w| / 30⌉
      ≤ (p.migrationPlan deltaPos newHitRect).steps := by
    rw [hsteps]; exact le_max_of_le_left (le_max_right _ _)
  have ch : ⌈|newHitRect.h - p.hitRect.h| / 30⌉
      ≤ (p.migrationPlan deltaPos newHitRect).steps := by
    rw [hsteps]; exact le_max_right _ _
  have bx := abs_div_steps_le _ _ h1 cx
  have by_ := abs_div_steps_le _ _ h1 cy
  have bw := abs_div_steps_le _ _ h1 cw
  have bh := abs_div_steps_le _ _ h1 ch
  have hr := afterPushes_hitRect q lvl (p.migrationPlan deltaPos newHitRect)
  rw [commitSubStep_eq_afterPushes]
  generalize q.afterPushes lvl (p.migrationPlan deltaPos newHitRect) = a at hr ⊢
  have ex : (q.hitRect.x + (newHitRect.x - p.hitRect.x)
        / ((p.migrationPlan deltaPos newHitRect).steps : ℚ)
      + (a.position.x + deltaPos.x / ((p.migrationPlan deltaPos newHitRect).steps : ℚ)))
      - (a.hitRect.x + a.position.x)
      = (deltaPos.x + (newHitRect.x - p.hitRect.x))
        / ((p.migrationPlan deltaPos newHitRect).steps : ℚ) := by
    rw [hr]; ring
  have ey : (q.hitRect.y + (newHitRect.y - p.hitRect.y)
        / ((p.migrationPlan deltaPos newHitRect).steps : ℚ)
      + (a.position.y + deltaPos.y / ((p.migrationPlan deltaPos newHitRect).steps : ℚ)))
      - (a.hitRect.y + a.position.y)
      = (deltaPos.y + (newHitRect.y - p.hitRect.y))
        / ((p.migrationPlan deltaPos newHitRect).steps : ℚ) := by
    rw [hr]; ring
  have ew : (q.hitRect.w + (newHitRect.w - p.hitRect.w)
        / ((p.migrationPlan deltaPos newHitRect).steps : ℚ)) - a.hitRect.w
      = (newHitRect.w - p.hitRect.w) / ((p.migrationPlan deltaPos newHitRect).steps : ℚ) := by
    rw [hr]; ring
  have eh : (q.hitRect.h + (newHitRect.h - p.hitRect.h)
        / ((p.migrationPlan deltaPos newHitRect).steps : ℚ)) - a.hitRect.h
      = (newHitRect.h - p.hitRect.h) / ((p.migrationPlan deltaPos newHitRect).steps : ℚ) := by
    rw [hr]; ring
  refine ⟨?_, ?_, ?_, ?_⟩
  · exact (congrArg abs ex).trans_le bx
  · exact (congrArg abs ey).trans_le by_
  · exact (congrArg abs ew).trans_le bw
  · exact (congrArg abs eh).trans_le bh

/-- Witness for C27: the first inflation step of the fresh player, whose migration takes
six sub-steps. -/
theorem migration_step_size_witness :
    (freshPlayer.migrationPlan puffOffset.neg (hitRects 1)).steps = 6 ∧
      |(freshPlayer.commitSubStep openLevel
            (freshPlayer.migrationPlan puffOffset.neg (hitRects 1))).getHitbox.w
          - (freshPlayer.afterPushes openLevel
            (freshPlayer.migrationPlan puffOffset.neg (hitRects 1))).getHitbox.w| ≤ 30 :=
  ⟨by decide!,
    ((migration_step_size freshPlayer openLevel puffOffset.neg (hitRects 1)).2 (by decide!)
      freshPlayer).2.2.1⟩

/-! ### Puff attacks on the boss (C28) -/

theorem hurt_boss_dyingTime (ops : RealOps) (a : Actor) (c : Vector2f) (damage : ℤ) :
    (a.health - damage ≤ 0 → (a.hurt ops ActorKind.boss c damage).dyingTime = 1) ∧
      (0 < a.health - damage → (a.hurt ops ActorKind.boss c damage).dyingTime = a.dyingTime) := by
  constructor <;> intro h <;> unfold Actor.hurt <;> simp only <;> split_ifs <;>
    first
    | rfl
    | (exfalso; omega)

/-- The boss part of one puff attack: 10 health points less, state `Hurt`, and the death
timer set to 1 exactly when the health is used up. -/
theorem buttAttack_boss (ops : RealOps) (p : Player) (w : PuffWorld) (boss : EnemyBoss)
    (hin : p.inButt = true) (hb : w.boss = some boss) :
    ∃ hit : EnemyBoss, (p.puffUp ops w).2.boss = some hit ∧
      hit.health = boss.health - 10 ∧ hit.bossState = BossState.Hurt ∧
      (boss.health - 10 ≤ 0 → hit.dyingTime = 1) ∧
      (0 < boss.health - 10 → hit.dyingTime = boss.dyingTime) ∧
      (p.puffUp ops w).1.inButt = false := by
  have hp : p.puffUp ops w = ((p.buttAttack ops w boss).1.resetPuffCooldown,
      (p.buttAttack ops w boss).2) := by
    unfold Player.puffUp
    rw [if_pos hin, hb]
  rw [hp]
  refine ⟨_, rfl, ?_, rfl, ?_, ?_, rfl⟩
  · exact hurt_health_sub ops ActorKind.boss boss.toActor p.getCenter 10
  · exact (hurt_boss_dyingTime ops boss.toActor p.getCenter 10).1
  · exact (hurt_boss_dyingTime ops boss.toActor p.getCenter 10).2

/-- Claim C28.  On a boss constructed with 30 health points that has taken `k` puff
attacks before (`k` = 0, 1 or 2) and whose death timer is not running, a `Player::puffUp`
performed while `inButt` is true takes exactly 10 health points, clears `inButt` and puts
the boss in state `Hurt`; it starts the death timer (`dyingTime = 1`) exactly when it is
the third attack (`k = 2`), and leaves the timer at 0 when it is the first or the
second. -/
theorem third_puff_attack_kills (ops : RealOps) (startPos : Vector2f) (p : Player)
    (w : PuffWorld) (boss : EnemyBoss) (k : ℕ) (hk : k ≤ 2) (hin : p.inButt = true)
    (hb : w.boss = some boss)
    (hh : boss.health = (EnemyBoss.new startPos).health - 10 * (k : ℤ))
    (hd : boss.dyingTime = 0) :
    (EnemyBoss.new startPos).health = 30 ∧ (EnemyBoss.new startPos).dyingTime = 0 ∧
      ∃ hit : EnemyBoss, (p.puffUp ops w).2.boss = some hit ∧
        hit.health = 30 - 10 * ((k : ℤ) + 1) ∧ hit.health = boss.health - 10 ∧
        hit.bossState = BossState.Hurt ∧ (p.puffUp ops w).1.inButt = false ∧
        (hit.dyingTime = 1 ↔ k = 2) ∧ (k < 2 → hit.dyingTime = 0) := by
  have h30 : (EnemyBoss.new startPos).health = 30 := rfl
  rw [h30] at hh
  obtain ⟨hit, e1, e2, e3, e4, e5, e6⟩ := buttAttack_boss ops p w boss hin hb
  refine ⟨rfl, rfl, hit, e1, by rw [e2, hh]; ring, e2, e3, e6, ?_, ?_⟩
  · constructor
    · intro h1
      by_contra hne
      have hlt : k < 2 := lt_of_le_of_ne hk hne
      have hpos : 0 < boss.health - 10 := by rw [hh]; omega
      rw [e5 hpos, hd] at h1
      exact absurd h1 (by norm_num)
    · intro h2
      exact e4 (by rw [hh, h2]; norm_num)
  · intro hlt
    have hpos : 0 < boss.health - 10 := by rw [hh]; omega
    rw [e5 hpos, hd]

/-- Witness for C28: the third attack, on the boss left with 10 health points. -/
theorem third_puff_attack_kills_witness :
    ∃ hit : EnemyBoss, (playerInButt.puffUp plainOps (buttWorld 2)).2.boss = some hit ∧
      hit.health = 0 ∧ hit.bossState = BossState.Hurt ∧ hit.dyingTime = 1 ∧
      (playerInButt.puffUp plainOps (buttWorld 2)).1.inButt = false := by
  obtain ⟨_, _, hit, e1, e2, _, e4, e5, e6, _⟩ :=
    third_puff_attack_kills plainOps ⟨6000, 3000⟩ playerInButt (buttWorld 2)
      { freshBoss with health := 30 - 10 * ((2 : ℕ) : ℤ), bossState := BossState.Stunned } 2
      (le_refl 2) (by decide!) rfl (by decide!) (by decide!)
  exact ⟨hit, e1, by rw [e2]; norm_num, e4, e6.mpr rfl, e5⟩

theorem beforeMove_health (ops : MathOps) (kind : ActorKind) (a : Actor) (dt : ℚ)
    (input : Option ControllerInput) (hd : a.dyingTime = 0) :
    (a.beforeMove ops kind dt input).health = a.health ∧
      (a.beforeMove ops kind dt input).dyingTime = 0 := by
  have hdt := (beforeMove_fields ops kind a dt input).2.2.1
  rw [tickDeath_idle kind a dt hd] at hdt
  refine ⟨?_, hdt.trans hd⟩
  unfold Actor.beforeMove
  rw [tickDeath_idle kind a dt hd]
  dsimp only
  unfold Actor.clampVelocity
  split_ifs <;> rfl

theorem boss_onCollide_health (b : Actor) :
    (ActorKind.boss.onCollideX b).health = b.health ∧
      (ActorKind.boss.onCollideX b).dyingTime = b.dyingTime ∧
      (ActorKind.boss.onCollideY b).health = b.health ∧
      (ActorKind.boss.onCollideY b).dyingTime = b.dyingTime := by
  unfold ActorKind.onCollideX ActorKind.onCollideY ActorKind.die
  dsimp only
  refine ⟨?_, ?_, ?_, ?_⟩ <;> split_ifs <;> rfl

theorem updateSwitch_toEnemy (ops : RealOps) (b : EnemyBoss) (w : BossWorld) (draw : ℤ)
    (dt : ℚ) : (b.updateSwitch ops w draw dt).1.toEnemy = b.toEnemy := by
  have hshoot : (b.shootBubbles ops w dt).1.toEnemy = b.toEnemy := by
    unfold EnemyBoss.shootBubbles
    dsimp only
    split_ifs <;> rfl
  have hsweep : (b.sweepAttack ops w dt).1.toEnemy = b.toEnemy := by
    unfold EnemyBoss.sweepAttack
    cases hs : b.sweepState <;> simp only [hs] <;> split_ifs <;> rfl
  have hbig : (b.bigBubbleAttack ops w dt).1.toEnemy = b.toEnemy := by
    unfold EnemyBoss.bigBubbleAttack
    cases hs : b.bbState <;> simp only [hs]
    · split_ifs <;> rfl
    · rfl
  unfold EnemyBoss.updateSwitch
  cases hs : b.bossState <;> simp only
  · split_ifs <;> rfl
  · split_ifs <;> rfl
  · split_ifs
    · exact hshoot
    · rfl
    · exact hshoot
    · rfl
  · exact hbig
  · exact hsweep
  · split_ifs <;> rfl
  · split_ifs <;> rfl

/-- Between puff attacks nothing touches the boss's health, and `EnemyBoss::update` does
not start the death timer: the health after an update is the health before, and a timer
at 0 stays at 0. -/
theorem boss_update_keeps_health (ops : TrigOps) (b : EnemyBoss) (w : BossWorld)
    (solids : List Solid) (draw : ℤ) (dt : ℚ) (hd : b.dyingTime = 0) :
    (b.update ops w solids draw dt).1.1.health = b.health ∧
      (b.update ops w solids draw dt).1.1.dyingTime = 0 := by
  have key := update_pred (fun c : Actor => c.health = b.health ∧ c.dyingTime = 0)
    ⟨fun _ _ h => h, fun _ _ h => h, fun _ _ h => h⟩ ops.toMathOps ActorKind.boss b.toActor
    solids dt (some b.input)
    (fun c hc => ⟨(boss_onCollide_health c).1.trans hc.1, (boss_onCollide_health c).2.1.trans hc.2⟩)
    (fun c hc => ⟨(boss_onCollide_health c).2.2.1.trans hc.1,
      (boss_onCollide_health c).2.2.2.trans hc.2⟩)
    (beforeMove_health ops.toMathOps ActorKind.boss b.toActor dt (some b.input) hd)
  unfold EnemyBoss.update
  dsimp only
  have h1 := updateSwitch_toEnemy ops.toRealOps
    ({ b with toActor := (b.toActor.update ops.toMathOps ActorKind.boss solids dt
      (some b.input)).actor } : EnemyBoss)
    (EnemyBoss.contactDamage ops ({ b with toActor := (b.toActor.update ops.toMathOps
      ActorKind.boss solids dt (some b.input)).actor } : EnemyBoss) w) draw dt
  constructor
  · exact (congrArg (fun e : Enemy => e.health) h1).trans key.1
  · exact (congrArg (fun e : Enemy => e.dyingTime) h1).trans key.2

/-! ### Contact damage of the boss (C29) -/

/-- Claim C29 fails.  The fresh player (health 3, not invulnerable, not dying) stands clear
of the boss's body under the claw, which is at 0 degrees, where the first two claw
rectangles overlap.  One call of `EnemyBoss::update` runs `hurt` for each of the two
rectangles and leaves the player with health 1. -/
theorem boss_update_hits_twice :
    clawWorld.player.health = 3 ∧ clawWorld.player.invulTime = 0 ∧
      clawWorld.player.isDying = false ∧
      bossClawLevel.getHitbox.collides clawWorld.player.getHitbox = false ∧
      (clawHitRects.map fun rect =>
        (bossClawLevel.clawBox plainTrig clawWorld.play_time_passed rect).collides
          clawWorld.player.getHitbox) = [true, true, false] ∧
      (bossClawLevel.update plainTrig clawWorld [] 1 (1 / 60)).1.2.player.health = 1 := by
  refine ⟨by decide!, by decide!, by decide!, by decide!, by decide!, by decide!⟩

theorem clawStrike_health (ops : TrigOps) (b : EnemyBoss) (t : ℚ) (box : Rect2f) (p : Player)
    (rect : Rect2f) :
    (b.clawStrike ops t box p rect).health ≤ p.health ∧
      p.health - 1 ≤ (b.clawStrike ops t box p rect).health := by
  unfold EnemyBoss.clawStrike
  split_ifs
  · rw [player_hurt_health]; omega
  · omega

/-- The contact block takes no health when the boss is `Stunned` or `Hurt` or the player is
invulnerable or dying, exactly one point when the body hitbox overlaps the player's, and
at most one point per claw rectangle, three in all, otherwise. -/
theorem contactDamage_health (ops : TrigOps) (b : EnemyBoss) (w : BossWorld) :
    ((b.bossState = BossState.Stunned ∨ b.bossState = BossState.Hurt ∨ w.player.invulTime ≠ 0 ∨
        w.player.isDying = true) → b.contactDamage ops w = w) ∧
      (b.contactDamage ops w).player.health ≤ w.player.health ∧
      w.player.health - 3 ≤ (b.contactDamage ops w).player.health ∧
      (b.getHitbox.collides w.player.getHitbox = true →
        w.player.health - 1 ≤ (b.contactDamage ops w).player.health) := by
  have hfold : ∀ p : Player,
      (clawHitRects.foldl (b.clawStrike ops w.play_time_passed w.player.getHitbox) p).health
          ≤ p.health ∧
        p.health - 3 ≤
          (clawHitRects.foldl (b.clawStrike ops w.play_time_passed w.player.getHitbox)
            p).health := by
    intro p
    simp only [clawHitRects, List.foldl_cons, List.foldl_nil]
    have h1 := clawStrike_health ops b w.play_time_passed w.player.getHitbox p
      ⟨673, 215, 548, 570⟩
    have h2 := clawStrike_health ops b w.play_time_passed w.player.getHitbox
      (b.clawStrike ops w.play_time_passed w.player.getHitbox p ⟨673, 215, 548, 570⟩)
      ⟨699, 702, 441, 305⟩
    have h3 := clawStrike_health ops b w.play_time_passed w.player.getHitbox
      (b.clawStrike ops w.play_time_passed w.player.getHitbox
        (b.clawStrike ops w.play_time_passed w.player.getHitbox p ⟨673, 215, 548, 570⟩)
        ⟨699, 702, 441, 305⟩) ⟨765, 1014, 298, 260⟩
    constructor <;> omega
  refine ⟨?_, ?_, ?_, ?_⟩
  · intro h
    unfold EnemyBoss.contactDamage
    rw [if_neg]
    rintro ⟨g1, g2, g3, g4⟩
    rcases h with h | h | h | h
    · exact g3 h
    · exact g4 h
    · exact h g2
    · rw [g1] at h; exact absurd h (by decide)
  · unfold EnemyBoss.contactDamage
    dsimp only
    split_ifs
    · show (w.player.hurt ops.toRealOps b.getCenter 1).health ≤ _
      rw [player_hurt_health]; omega
    · exact (hfold w.player).1
    · exact le_refl _
  · unfold EnemyBoss.contactDamage
    dsimp only
    split_ifs
    · show _ ≤ (w.player.hurt ops.toRealOps b.getCenter 1).health
      rw [player_hurt_health]; omega
    · exact (hfold w.player).2
    · omega
  · intro hc
    unfold EnemyBoss.contactDamage
    dsimp only
    rw [if_pos hc]
    split_ifs
    · show _ ≤ (w.player.hurt ops.toRealOps b.getCenter 1).health
      rw [player_hurt_health]
    · omega

theorem updateSwitch_player_health (ops : RealOps) (b : EnemyBoss) (w : BossWorld) (draw : ℤ)
    (dt : ℚ) : (b.updateSwitch ops w draw dt).2.player.health = w.player.health := by
  have hshoot : (b.shootBubbles ops w dt).2.player.health = w.player.health := by
    unfold EnemyBoss.shootBubbles
    dsimp only
    split_ifs <;> rfl
  have hsweep : (b.sweepAttack ops w dt).2.player.health = w.player.health := by
    unfold EnemyBoss.sweepAttack
    cases hs : b.sweepState <;> simp only [hs] <;> split_ifs <;> rfl
  have hbig : (b.bigBubbleAttack ops w dt).2.player.health = w.player.health := by
    unfold EnemyBoss.bigBubbleAttack
    cases hs : b.bbState <;> simp only [hs]
    split_ifs <;> rfl
  unfold EnemyBoss.updateSwitch
  cases hs : b.bossState <;> simp only
  · split_ifs <;> rfl
  · split_ifs <;> rfl
  · split_ifs <;>
      first
      | exact hshoot
      | rfl
  · exact hbig
  · exact hsweep
  · split_ifs <;> rfl
  · split_ifs <;> rfl

/-- One call of `EnemyBoss::update` takes at most three health points from the player, and
none when the boss is `Stunned` or `Hurt` or the player is invulnerable or dying. -/
theorem boss_update_damage (ops : TrigOps) (b : EnemyBoss) (w : BossWorld)
    (solids : List Solid) (draw : ℤ) (dt : ℚ) :
    (b.update ops w solids draw dt).1.2.player.health ≤ w.player.health ∧
      w.player.health - 3 ≤ (b.update ops w solids draw dt).1.2.player.health ∧
      ((b.bossState = BossState.Stunned ∨ b.bossState = BossState.Hurt ∨
          w.player.invulTime ≠ 0 ∨ w.player.isDying = true) →
        (b.update ops w solids draw dt).1.2.player.health = w.player.health) := by
  unfold EnemyBoss.update
  dsimp only
  rw [updateSwitch_player_health]
  obtain ⟨h0, h1, h2, _⟩ := contactDamage_health ops
    ({ b with toActor := (b.toActor.update ops.toMathOps ActorKind.boss solids dt
      (some b.input)).actor } : EnemyBoss) w
  exact ⟨h1, h2, fun h => by rw [h0 h]⟩

/-! ### Actor bookkeeping at the end of a tick (C25) -/

theorem addrs_writeBodies : ∀ (l : List EnemySlot) (bodies : List Enemy),
    addrs (writeBodies l bodies) = addrs l := by
  intro l
  induction l with
  | nil => intro bodies; rfl
  | cons s rest ih =>
    intro bodies
    cases bodies with
    | nil => rfl
    | cons e bs =>
      show s.addr :: addrs (writeBodies rest bs) = s.addr :: addrs rest
      rw [ih bs]

theorem addrs_append (l₁ l₂ : List EnemySlot) : addrs (l₁ ++ l₂) = addrs l₁ ++ addrs l₂ := by
  simp [addrs]

theorem enqueue_midTick (r0 : Roster) : ∀ (es : List Enemy) (r : Roster), r0.midTick r →
    (∀ e ∈ es, e.isDead = false) → r0.midTick (r.enqueue es) := by
  intro es
  induction es with
  | nil => intro r h _; exact h
  | cons e rest ih =>
    intro r h halive
    obtain ⟨ha, hb, hc, hd, he, hf, hg, hh⟩ := h
    rw [Roster.enqueue]
    apply ih
    · refine ⟨ha, hb, hc, ?_, ?_, ?_, ?_, ?_⟩
      · intro a hmem
        rcases List.mem_append.mp hmem with h1 | h1
        · exact ⟨(hd a h1).1, Nat.lt_succ_of_lt (hd a h1).2⟩
        · rw [List.mem_singleton] at h1
          subst h1
          exact ⟨he, Nat.lt_succ_self _⟩
      · exact Nat.le_succ_of_le he
      · show addrs (r.newEnemiesQueue ++ [⟨r.nextAddr, e⟩])
            = addrs r0.newEnemiesQueue ++ (r.created ++ [r.nextAddr])
        rw [addrs_append, hf, List.append_assoc]
        rfl
      · show (r.created ++ [r.nextAddr]).Nodup
        rw [List.nodup_append]
        refine ⟨hg, List.nodup_singleton _, ?_⟩
        intro a h1 h2
        rw [List.mem_singleton] at h2
        subst h2
        exact absurd (hd _ h1).2 (lt_irrefl _)
      · intro s hs
        rcases List.mem_append.mp hs with h1 | h1
        · exact hh s h1
        · rw [List.mem_singleton] at h1
          subst h1
          exact halive e (List.mem_cons_self _ _)
    · intro e' he'
      exact halive e' (List.mem_cons_of_mem _ he')

theorem updateEnemy_midTick (beh : Behaviour) (halive : beh.createsAlive) (r0 r : Roster)
    (i : ℕ) (h : r0.midTick r) : r0.midTick (r.updateEnemy beh i) := by
  unfold Roster.updateEnemy
  cases hg : r.enemies.get? i with
  | none => exact h
  | some s =>
    dsimp only
    split_ifs
    · apply enqueue_midTick r0 _ _ _ (halive i _)
      obtain ⟨ha, hb, hc, hd, he, hf, hg', hh⟩ := h
      refine ⟨?_, hb, ?_, hd, he, hf, hg', hh⟩
      · show addrs (writeBodies r.enemies _) = _
        rw [addrs_writeBodies, ha]
      · intro a hmem
        rcases List.mem_append.mp hmem with h1 | h1
        · exact hc a h1
        · rw [List.mem_singleton] at h1
          subst h1
          rw [← ha]
          exact List.mem_map_of_mem _ (List.mem_iff_get?.mpr ⟨i, hg⟩)
    · exact h

theorem updateEnemies_midTick (beh : Behaviour) (halive : beh.createsAlive) (r0 r : Roster)
    (h : r0.midTick r) : r0.midTick (r.updateEnemies beh) := by
  unfold Roster.updateEnemies
  generalize List.range r.enemies.length = l
  induction l generalizing r with
  | nil => exact h
  | cons i rest ih =>
    rw [List.foldl_cons]
    exact ih _ (updateEnemy_midTick beh halive r0 r i h)

theorem deleteActorFromVector_eq_erase : ∀ (l : List ActorRef) (x : ActorRef),
    deleteActorFromVector l x = l.erase x := by
  intro l x
  induction l with
  | nil => rfl
  | cons a rest ih =>
    rw [deleteActorFromVector, List.erase_cons, ih]
    by_cases h : a = x
    · simp [h]
    · simp [h]

theorem addrs_eraseIdx_count (l : List EnemySlot) (n : ℕ) (s : EnemySlot)
    (h : l[n]? = some s) (a : ℕ) :
    (addrs l).count a = (addrs (l.eraseIdx n)).count a + (if s.addr = a then 1 else 0) := by
  obtain ⟨hn, hs⟩ := List.getElem?_eq_some.mp h
  have hl : l = l.take n ++ s :: l.drop (n + 1) := by
    conv_lhs => rw [← List.take_append_drop n l, List.drop_eq_getElem_cons hn, hs]
  rw [List.eraseIdx_eq_take_drop_succ]
  conv_lhs => rw [hl]
  simp only [addrs, List.map_append, List.map_cons, List.count_append, List.count_cons]
  by_cases hsa : s.addr = a
  · simp [hsa]; omega
  · simp [hsa]

theorem cleanAt_fields (r : Roster) (i : ℕ) :
    (r.cleanAt i).newEnemiesQueue = r.newEnemiesQueue ∧ (r.cleanAt i).called = r.called ∧
      (r.cleanAt i).created = r.created ∧ (r.cleanAt i).nextAddr = r.nextAddr := by
  unfold Roster.cleanAt
  cases r.enemies.get? i with
  | none => exact ⟨rfl, rfl, rfl, rfl⟩
  | some s => dsimp only; split_ifs <;> exact ⟨rfl, rfl, rfl, rfl⟩

theorem cleanAt_inSync (r : Roster) (i : ℕ) (h : r.inSync) : (r.cleanAt i).inSync := by
  unfold Roster.cleanAt
  cases hg : r.enemies.get? i with
  | none => exact h
  | some s =>
    dsimp only
    split_ifs with hdead
    · rw [List.get?_eq_getElem?] at hg
      obtain ⟨hnd, hcount⟩ := h
      refine ⟨?_, ?_⟩
      · show (addrs (r.enemies.eraseIdx i)).Nodup
        exact List.Nodup.sublist ((List.eraseIdx_sublist _ _).map _) hnd
      · intro a
        show (deleteActorFromVector r.AllActors (ActorRef.enemy s.addr)).count (ActorRef.enemy a)
          = (addrs (r.enemies.eraseIdx i)).count a
        have h1 := addrs_eraseIdx_count r.enemies i s hg a
        have h2 := hcount a
        rw [deleteActorFromVector_eq_erase, List.count_erase]
        by_cases hsa : s.addr = a
        · subst hsa
          simp only [if_true, beq_self_eq_true] at h1 ⊢
          omega
        · have hne : ¬ (ActorRef.enemy s.addr == ActorRef.enemy a) = true := by
            simp [hsa]
          simp only [hsa, if_false] at h1
          rw [if_neg hne]
          omega
    · exact h

theorem cleanLoop_spec : ∀ (n : ℕ) (r : Roster), n ≤ r.enemies.length →
    (∀ (j : ℕ) (s : EnemySlot), n ≤ j → r.enemies[j]? = some s → s.body.isDead = false) →
    r.inSync →
    (Roster.cleanLoop n r).inSync ∧
      (∀ s ∈ (Roster.cleanLoop n r).enemies, s.body.isDead = false) ∧
      (addrs (Roster.cleanLoop n r).enemies).Sublist (addrs r.enemies) ∧
      (Roster.cleanLoop n r).newEnemiesQueue = r.newEnemiesQueue ∧
      (Roster.cleanLoop n r).called = r.called ∧
      (Roster.cleanLoop n r).created = r.created := by
  intro n
  induction n with
  | zero =>
    intro r _ halive hsync
    refine ⟨hsync, ?_, List.Sublist.refl _, rfl, rfl, rfl⟩
    intro s hs
    obtain ⟨j, hj⟩ := List.mem_iff_getElem?.mp hs
    exact halive j s (Nat.zero_le j) hj
  | succ n ih =>
    intro r hlen halive hsync
    rw [Roster.cleanLoop]
    obtain ⟨f1, f2, f3, _⟩ := cleanAt_fields r n
    have hsync2 := cleanAt_inSync r n hsync
    have hn : n < r.enemies.length := hlen
    have hget : r.enemies.get? n = some (r.enemies.get ⟨n, hn⟩) := List.get?_eq_get hn
    have hshape : ((r.cleanAt n).enemies = r.enemies.eraseIdx n ∧
          (r.enemies.get ⟨n, hn⟩).body.isDead = true) ∨
        ((r.cleanAt n).enemies = r.enemies ∧ (r.enemies.get ⟨n, hn⟩).body.isDead = false) := by
      unfold Roster.cleanAt
      rw [hget]
      dsimp only
      split_ifs with hdead
      · exact Or.inl ⟨rfl, hdead⟩
      · exact Or.inr ⟨rfl, Bool.eq_false_iff.mpr hdead⟩
    have hsub : (addrs (r.cleanAt n).enemies).Sublist (addrs r.enemies) := by
      rcases hshape with ⟨he, _⟩ | ⟨he, _⟩
      · rw [he]; exact (List.eraseIdx_sublist _ _).map _
      · rw [he]
    have hlen2 : n ≤ (r.cleanAt n).enemies.length := by
      rcases hshape with ⟨he, _⟩ | ⟨he, _⟩
      · rw [he, List.length_eraseIdx, if_pos hn]; omega
      · rw [he]; omega
    have halive2 : ∀ (j : ℕ) (s : EnemySlot), n ≤ j → (r.cleanAt n).enemies[j]? = some s →
        s.body.isDead = false := by
      intro j s hj hs
      rcases hshape with ⟨he, _⟩ | ⟨he, hal⟩
      · rw [he, List.getElem?_eraseIdx, if_neg (not_lt.mpr hj)] at hs
        exact halive (j + 1) s (Nat.succ_le_succ hj) hs
      · rw [he] at hs
        rcases Nat.eq_or_lt_of_le hj with heq | hlt
        · subst heq
          rw [← List.get?_eq_getElem?, hget] at hs
          cases hs
          exact hal
        · exact halive j s hlt hs
    obtain ⟨g1, g2, g3, g4, g5, g6⟩ := ih (r.cleanAt n) hlen2 halive2 hsync2
    exact ⟨g1, g2, g3.trans hsub, g4.trans f1, g5.trans f2, g6.trans f3⟩

theorem pushQueued_spec : ∀ (q : List EnemySlot) (r : Roster),
    (r.pushQueued q).enemies = r.enemies ++ q ∧
      (r.pushQueued q).AllActors = r.AllActors ++ q.map (fun s => ActorRef.enemy s.addr) ∧
      (r.pushQueued q).called = r.called ∧ (r.pushQueued q).created = r.created := by
  intro q
  induction q with
  | nil => intro r; simp [Roster.pushQueued]
  | cons s rest ih =>
    intro r
    rw [Roster.pushQueued]
    obtain ⟨h1, h2, h3, h4⟩ := ih
      { r with AllActors := r.AllActors ++ [ActorRef.enemy s.addr], enemies := r.enemies ++ [s] }
    refine ⟨?_, ?_, h3, h4⟩
    · rw [h1]; simp
    · rw [h2]; simp

theorem addQueued_spec (r : Roster) :
    r.addQueued.enemies = r.enemies ++ r.newEnemiesQueue ∧
      r.addQueued.AllActors
        = r.AllActors ++ r.newEnemiesQueue.map (fun s => ActorRef.enemy s.addr) ∧
      r.addQueued.newEnemiesQueue = [] ∧
      r.addQueued.called = r.called ∧ r.addQueued.created = r.created := by
  unfold Roster.addQueued
  obtain ⟨h1, h2, h3, h4⟩ := pushQueued_spec r.newEnemiesQueue r
  split_ifs with hq
  · exact ⟨h1, h2, rfl, h3, h4⟩
  · have hnil : r.newEnemiesQueue = [] := List.length_eq_zero.mp (by omega)
    refine ⟨?_, ?_, hnil, rfl, rfl⟩ <;> simp [hnil]

/-- Claim C25.  Take a game state in which the enemy entries of `AllActors` are exactly the
members of `enemies`, each once, with the queued objects distinct from each other and from
the enemies and not dead (they have not been updated yet), and enemy code that constructs
live objects.  After one `playingUpdate` tick that is not paused: no enemy created during
the tick received a `think` or `update` call in it; `newEnemiesQueue` is empty; every enemy
that was queued, before the tick or during it, is in `enemies` and in `AllActors` exactly
once; no dead enemy remains in `enemies`, and every enemy entry of `AllActors` points to a
live member of `enemies`; and the enemy entries of `AllActors` are again exactly the
members of `enemies`, each once. -/
theorem playingUpdate_bookkeeping (beh : Behaviour) (r : Roster) (hsync : r.inSync)
    (hwf : r.wellFormed) (halive : beh.createsAlive) :
    (∀ a ∈ (r.playingUpdate beh).created, a ∉ (r.playingUpdate beh).called) ∧
      (r.playingUpdate beh).newEnemiesQueue = [] ∧
      (∀ a ∈ addrs r.newEnemiesQueue ++ (r.playingUpdate beh).created,
        (addrs (r.playingUpdate beh).enemies).count a = 1 ∧
        (r.playingUpdate beh).AllActors.count (ActorRef.enemy a) = 1) ∧
      (∀ s ∈ (r.playingUpdate beh).enemies, s.body.isDead = false) ∧
      (∀ a, ActorRef.enemy a ∈ (r.playingUpdate beh).AllActors →
        ∃ s ∈ (r.playingUpdate beh).enemies, s.addr = a ∧ s.body.isDead = false) ∧
      (r.playingUpdate beh).inSync := by
  obtain ⟨hnd, hcount⟩ := hsync
  obtain ⟨hbound, hdistinct, hqalive⟩ := hwf
  -- the enemy loop
  have hstart : Roster.midTick { r with called := [], created := [] }
      (Roster.withBodies { r with called := [], created := [] }
        (beh.before (Roster.bodies { r with called := [], created := [] }))) := by
    refine ⟨addrs_writeBodies _ _, rfl, ?_, ?_, le_refl _, ?_, List.nodup_nil, hqalive⟩
    · intro a ha; cases ha
    · intro a ha; cases ha
    · show addrs r.newEnemiesQueue = addrs r.newEnemiesQueue ++ []
      rw [List.append_nil]
  have hloop := updateEnemies_midTick beh halive _ _ hstart
  generalize hr2 : Roster.updateEnemies beh
    (Roster.withBodies { r with called := [], created := [] }
      (beh.before (Roster.bodies { r with called := [], created := [] }))) = r2 at hloop
  obtain ⟨ma, mb, mc, md, _, mf, mg, mh⟩ := hloop
  have ma' : addrs r2.enemies = addrs r.enemies := ma
  have mb' : r2.AllActors = r.AllActors := mb
  have mc' : ∀ a ∈ r2.called, a ∈ addrs r.enemies := mc
  have md' : ∀ a ∈ r2.created, r.nextAddr ≤ a := fun a ha => (md a ha).1
  have mf' : addrs r2.newEnemiesQueue = addrs r.newEnemiesQueue ++ r2.created := mf
  -- the cleaning
  have haddr3 : addrs (r2.withBodies (beh.after r2.bodies)).enemies = addrs r.enemies :=
    (addrs_writeBodies _ _).trans ma'
  have hsync3 : (r2.withBodies (beh.after r2.bodies)).inSync := by
    refine ⟨?_, ?_⟩
    · rw [haddr3]; exact hnd
    · intro a
      rw [haddr3]
      show r2.AllActors.count (ActorRef.enemy a) = _
      rw [mb']; exact hcount a
  have hclean := cleanLoop_spec _ (r2.withBodies (beh.after r2.bodies)) (le_refl _)
    (fun j s hj hs => by
      have hlt := (List.getElem?_eq_some.mp hs).1
      exact absurd hlt (not_lt.mpr hj))
    hsync3
  have hupd : r.playingUpdate beh
      = (Roster.cleanLoop (r2.withBodies (beh.after r2.bodies)).enemies.length
        (r2.withBodies (beh.after r2.bodies))).addQueued := by
    rw [← hr2]
    rfl
  rw [hupd]
  generalize Roster.cleanLoop (r2.withBodies (beh.after r2.bodies)).enemies.length
    (r2.withBodies (beh.after r2.bodies)) = r4 at hclean
  obtain ⟨⟨c1, c2⟩, calive, csub, cq, ccalled, ccreated⟩ := hclean
  have cq' : r4.newEnemiesQueue = r2.newEnemiesQueue := cq
  have ccalled' : r4.called = r2.called := ccalled
  have ccreated' : r4.created = r2.created := ccreated
  have csub' : (addrs r4.enemies).Sublist (addrs r.enemies) := by
    rw [← haddr3]; exact csub
  obtain ⟨a1, a2, a3, a4, a5⟩ := addQueued_spec r4
  -- facts on addresses
  have hlow : ∀ a ∈ addrs r.enemies ++ addrs r.newEnemiesQueue, a < r.nextAddr := hbound
  obtain ⟨_, hqnd, hdisj⟩ := List.nodup_append.mp hdistinct
  have hqall : (addrs r2.newEnemiesQueue).Nodup := by
    rw [mf', List.nodup_append]
    refine ⟨hqnd, mg, ?_⟩
    intro a h1 h2
    exact absurd (hlow a (List.mem_append_right _ h1)) (not_lt.mpr (md' a h2))
  have hall : (addrs (r4.enemies ++ r2.newEnemiesQueue)).Nodup := by
    rw [addrs_append, List.nodup_append]
    refine ⟨c1, hqall, ?_⟩
    intro a h1 h2
    have h1' : a ∈ addrs r.enemies := csub'.subset h1
    rw [mf'] at h2
    rcases List.mem_append.mp h2 with h3 | h3
    · exact hdisj h1' h3
    · exact absurd (hlow a (List.mem_append_left _ h1')) (not_lt.mpr (md' a h3))
  have hcnt : ∀ a, (r4.AllActors ++ r2.newEnemiesQueue.map
      (fun s => ActorRef.enemy s.addr)).count (ActorRef.enemy a)
        = (addrs (r4.enemies ++ r2.newEnemiesQueue)).count a := by
    intro a
    rw [List.count_append, addrs_append, List.count_append, c2 a]
    congr 1
    have hmap : r2.newEnemiesQueue.map (fun s => ActorRef.enemy s.addr)
        = (addrs r2.newEnemiesQueue).map ActorRef.enemy := by
      simp [addrs]
    rw [hmap]
    exact List.count_map_of_injective _ _ (fun x y hxy => by cases hxy; rfl) a
  have hfinal : r4.addQueued.inSync := by
    refine ⟨?_, fun a => ?_⟩
    · show (addrs r4.addQueued.enemies).Nodup
      rw [a1, cq']; exact hall
    · show r4.addQueued.AllActors.count (ActorRef.enemy a) = (addrs r4.addQueued.enemies).count a
      rw [a1, a2, cq']; exact hcnt a
  rw [a1, a2, a3, a4, a5, cq', ccalled', ccreated']
  refine ⟨?_, rfl, ?_, ?_, ?_, hfinal⟩
  · intro a ha hcall
    exact absurd (hlow a (List.mem_append_left _ (mc' a hcall))) (not_lt.mpr (md' a ha))
  · intro a ha
    have hmem : a ∈ addrs (r4.enemies ++ r2.newEnemiesQueue) := by
      rw [addrs_append, mf']
      exact List.mem_append_right _ ha
    have h1 := List.count_eq_one_of_mem hall hmem
    exact ⟨h1, (hcnt a).trans h1⟩
  · intro s hs
    rcases List.mem_append.mp hs with h1 | h1
    · exact calive s h1
    · exact mh s h1
  · intro a ha
    have hpos : 0 < (r4.AllActors ++ r2.newEnemiesQueue.map
        (fun s => ActorRef.enemy s.addr)).count (ActorRef.enemy a) := List.count_pos_iff.mpr ha
    rw [hcnt a] at hpos
    have hmem : a ∈ addrs (r4.enemies ++ r2.newEnemiesQueue) := List.count_pos_iff.mp hpos
    obtain ⟨s, hs, hsa⟩ := List.mem_map.mp hmem
    refine ⟨s, hs, hsa, ?_⟩
    rcases List.mem_append.mp hs with h1 | h1
    · exact calive s h1
    · exact mh s h1

theorem sampleRoster_inSync : sampleRoster.inSync := by
  refine ⟨by decide, ?_⟩
  intro a
  simp [sampleRoster, addrs, List.count_cons]

theorem sampleRoster_wellFormed : sampleRoster.wellFormed := by
  refine ⟨?_, by decide, ?_⟩
  · intro a ha
    simp [sampleRoster, addrs] at ha
    rcases ha with h | h <;> subst h <;> decide
  · intro s hs
    simp [sampleRoster] at hs

theorem sampleBehaviour_createsAlive : sampleBehaviour.createsAlive := by
  intro i bodies e he
  unfold sampleBehaviour at he
  dsimp only at he
  split_ifs at he
  · rw [List.mem_singleton] at he
    subst he
    rfl
  · cases bodies with
    | nil => simp at he
    | cons b rest => simp at he

/-- Witness for C25: in `sampleRoster` the fish dies and the shrimp shoots a bubble; after
the tick the fish is gone, the bubble (address 2) is registered and was not called. -/
theorem playingUpdate_bookkeeping_witness :
    addrs (sampleRoster.playingUpdate sampleBehaviour).enemies = [1, 2] ∧
      (sampleRoster.playingUpdate sampleBehaviour).AllActors
        = [ActorRef.enemy 1, ActorRef.other 0, ActorRef.enemy 2] ∧
      (sampleRoster.playingUpdate sampleBehaviour).called = [0, 1] ∧
      (sampleRoster.playingUpdate sampleBehaviour).created = [2] ∧
      (∀ a ∈ (sampleRoster.playingUpdate sampleBehaviour).created,
        a ∉ (sampleRoster.playingUpdate sampleBehaviour).called) ∧
      (sampleRoster.playingUpdate sampleBehaviour).newEnemiesQueue = [] ∧
      (sampleRoster.playingUpdate sampleBehaviour).inSync :=
  ⟨by decide!, by decide!, by decide!, by decide!,
    (playingUpdate_bookkeeping sampleBehaviour sampleRoster sampleRoster_inSync
      sampleRoster_wellFormed sampleBehaviour_createsAlive).1,
    (playingUpdate_bookkeeping sampleBehaviour sampleRoster sampleRoster_inSync
      sampleRoster_wellFormed sampleBehaviour_createsAlive).2.1,
    (playingUpdate_bookkeeping sampleBehaviour sampleRoster sampleRoster_inSync
      sampleRoster_wellFormed sampleBehaviour_createsAlive).2.2.2.2.2⟩

/-! ### A segment that enters a rectangle (C30) -/

/-- Claim C30 fails when the segment leaves the rectangle through a corner.  For the
rectangle (0, 0, 10, 10), the point (5, 5) strictly inside and the point (15, 15) strictly
outside, the corner (10, 10) lies on the segment: each of the four edge tests has an
orientation that is 0, none of the strict comparisons holds, and
`checkAABBLineCollision` returns false. -/
theorem corner_crossing_not_detected :
    (0 : ℚ) < (⟨0, 0, 10, 10⟩ : Rect2f).w ∧ (0 : ℚ) < (⟨0, 0, 10, 10⟩ : Rect2f).h ∧
      ((0 : ℚ) < 5 ∧ (5 : ℚ) < 0 + 10) ∧ ((0 : ℚ) + 10 < 15) ∧
      orientation ⟨5, 5⟩ ⟨15, 15⟩ ⟨10, 10⟩ = 0 ∧ orientation ⟨5, 5⟩ ⟨15, 15⟩ ⟨0, 0⟩ = 0 ∧
      isPointInAABB ⟨15, 15⟩ ⟨0, 0, 10, 10⟩ = false ∧
      isLineSegmentIntersectingAABB ⟨5, 5⟩ ⟨15, 15⟩ ⟨0, 0, 10, 10⟩ = false ∧
      checkAABBLineCollision ⟨5, 5⟩ ⟨15, 15⟩ ⟨0, 0, 10, 10⟩ = false := by
  decide!

/-- The algebraic core of the segment test.  `A`, `A'`, `B`, `B'` are the distances of the
inner endpoint to the left, right, top and bottom side, `(u, v)` is the vector to the outer
endpoint; the four products are the values of the orientation at the corners. -/
theorem crossing_core (A A' B B' u v : ℚ) (hA : 0 < A) (hA' : 0 < A') (hB : 0 < B)
    (hB' : 0 < B') (hout : u < -A ∨ A' < u ∨ v < -B ∨ B' < v)
    (hTL : u * B - v * A ≠ 0) (hTR : v * A' + u * B ≠ 0) (hBL : -(v * A) - u * B' ≠ 0)
    (hBR : v * A' - u * B' ≠ 0) :
    ((u * B - v * A < 0 ∧ 0 < v * A' + u * B ∨ 0 < u * B - v * A ∧ v * A' + u * B < 0) ∧
        v < -B) ∨
      ((v * A' + u * B < 0 ∧ 0 < v * A' - u * B' ∨ 0 < v * A' + u * B ∧ v * A' - u * B' < 0) ∧
        A' < u) ∨
      ((v * A' - u * B' < 0 ∧ 0 < -(v * A) - u * B' ∨
          0 < v * A' - u * B' ∧ -(v * A) - u * B' < 0) ∧ B' < v) ∨
      ((-(v * A) - u * B' < 0 ∧ 0 < u * B - v * A ∨ 0 < -(v * A) - u * B' ∧ u * B - v * A < 0) ∧
        u < -A) := by
  rcases hout with h | h | h | h
  · -- beyond the left side
    rcases lt_or_gt_of_ne hTL with t | t
    · rcases lt_or_gt_of_ne hBL with s | s
      · -- both negative: the segment leaves through the bottom
        have hv : B' < v := by
          by_contra hc
          push_neg at hc
          nlinarith [mul_pos hA hB', mul_le_mul_of_nonneg_right hc hA.le,
            mul_lt_mul_of_pos_right h hB']
        have hbr : 0 < v * A' - u * B' := by
          nlinarith [mul_pos (lt_trans hB' hv) hA', mul_pos hA hB',
            mul_lt_mul_of_pos_right h hB']
        exact Or.inr (Or.inr (Or.inl ⟨Or.inr ⟨hbr, s⟩, hv⟩))
      · exact Or.inr (Or.inr (Or.inr ⟨Or.inr ⟨s, t⟩, h⟩))
    · -- the top left corner is on the positive side: the segment leaves through the top
      have hv : v < -B := by
        by_contra hc
        push_neg at hc
        nlinarith [mul_pos hA hB, mul_le_mul_of_nonneg_right hc hA.le,
          mul_lt_mul_of_pos_right h hB]
      have htr : v * A' + u * B < 0 := by
        nlinarith [mul_pos hA hB, mul_lt_mul_of_pos_right h hB,
          mul_lt_mul_of_pos_right hv hA', mul_pos hB hA']
      exact Or.inl ⟨Or.inr ⟨t, htr⟩, hv⟩
  · -- beyond the right side
    rcases lt_or_gt_of_ne hBR with t | t
    · rcases lt_or_gt_of_ne hTR with s | s
      · -- both negative: through the top
        have hv : v < -B := by
          by_contra hc
          push_neg at hc
          nlinarith [mul_pos hA' hB, mul_le_mul_of_nonneg_right hc hA'.le,
            mul_lt_mul_of_pos_right h hB]
        have htl : 0 < u * B - v * A := by
          nlinarith [mul_pos hA' hB, mul_lt_mul_of_pos_right h hB,
            mul_lt_mul_of_pos_right hv hA, mul_pos hB hA]
        exact Or.inl ⟨Or.inr ⟨htl, s⟩, hv⟩
      · exact Or.inr (Or.inl ⟨Or.inr ⟨s, t⟩, h⟩)
    · -- both positive: through the bottom
      have hv : B' < v := by
        by_contra hc
        push_neg at hc
        nlinarith [mul_pos hA' hB', mul_le_mul_of_nonneg_right hc hA'.le,
          mul_lt_mul_of_pos_right h hB']
      have hbl : -(v * A) - u * B' < 0 := by
        nlinarith [mul_pos hA' hB', mul_lt_mul_of_pos_right h hB',
          mul_lt_mul_of_pos_right hv hA, mul_pos hB' hA]
      exact Or.inr (Or.inr (Or.inl ⟨Or.inr ⟨t, hbl⟩, hv⟩))
  · -- beyond the top side
    rcases lt_or_gt_of_ne hTL with t | t
    · -- both negative: through the left
      have hu : u < -A := by
        by_contra hc
        push_neg at hc
        nlinarith [mul_pos hA hB, mul_le_mul_of_nonneg_right hc hB.le,
          mul_lt_mul_of_pos_right h hA]
      have hbl : 0 < -(v * A) - u * B' := by
        nlinarith [mul_pos hA hB, mul_lt_mul_of_pos_right h hA,
          mul_lt_mul_of_pos_right hu hB', mul_pos hA hB']
      exact Or.inr (Or.inr (Or.inr ⟨Or.inr ⟨hbl, t⟩, hu⟩))
    · rcases lt_or_gt_of_ne hTR with s | s
      · exact Or.inl ⟨Or.inr ⟨t, s⟩, h⟩
      · -- both positive: through the right
        have hu : A' < u := by
          by_contra hc
          push_neg at hc
          nlinarith [mul_pos hA' hB, mul_le_mul_of_nonneg_right hc hB.le,
            mul_lt_mul_of_pos_right h hA']
        have hbr : v * A' - u * B' < 0 := by
          nlinarith [mul_pos hA' hB, mul_lt_mul_of_pos_right h hA',
            mul_lt_mul_of_pos_right hu hB', mul_pos hA' hB']
        exact Or.inr (Or.inl ⟨Or.inr ⟨s, hbr⟩, hu⟩)
  · -- beyond the bottom side
    rcases lt_or_gt_of_ne hBR with t | t
    · -- both negative: through the right
      have hu : A' < u := by
        by_contra hc
        push_neg at hc
        nlinarith [mul_pos hA' hB', mul_le_mul_of_nonneg_right hc hB'.le,
          mul_lt_mul_of_pos_right h hA']
      have htr : 0 < v * A' + u * B := by
        nlinarith [mul_pos hA' hB', mul_lt_mul_of_pos_right h hA',
          mul_lt_mul_of_pos_right hu hB, mul_pos hA' hB]
      exact Or.inr (Or.inl ⟨Or.inr ⟨htr, t⟩, hu⟩)
    · rcases lt_or_gt_of_ne hBL with s | s
      · exact Or.inr (Or.inr (Or.inl ⟨Or.inr ⟨t, s⟩, h⟩))
      · -- both positive: through the left
        have hu : u < -A := by
          by_contra hc
          push_neg at hc
          nlinarith [mul_pos hA hB', mul_le_mul_of_nonneg_right hc hB'.le,
            mul_lt_mul_of_pos_right h hA]
        have htl : u * B - v * A < 0 := by
          nlinarith [mul_pos hA hB', mul_lt_mul_of_pos_right h hA,
            mul_lt_mul_of_pos_right hu hB, mul_pos hA hB]
        exact Or.inr (Or.inr (Or.inr ⟨Or.inr ⟨s, htl⟩, hu⟩))

theorem edge_test (p1 p2 q1 q2 : Vector2f)
    (h12 : orientation p1 p2 q1 < 0 ∧ 0 < orientation p1 p2 q2 ∨
      0 < orientation p1 p2 q1 ∧ orientation p1 p2 q2 < 0)
    (h3 : orientation q1 q2 p1 < 0) (h4 : 0 < orientation q1 q2 p2) :
    checkLineSegmentIntersection p1 p2 q1 q2 = true := by
  unfold checkLineSegmentIntersection
  simp only [Bool.and_eq_true, decide_eq_true_eq]
  refine ⟨?_, mul_neg_of_neg_of_pos h3 h4⟩
  rcases h12 with ⟨h1, h2⟩ | ⟨h1, h2⟩
  · exact mul_neg_of_neg_of_pos h1 h2
  · exact mul_neg_of_pos_of_neg h1 h2

/-- Away from the corners the claim of C30 holds: for a rectangle of positive width and
height, a segment with one endpoint strictly inside and the other strictly outside, whose
line passes through no corner of the rectangle, is detected. -/
theorem segment_entering_detected (p1 p2 : Vector2f) (rect : Rect2f) (hw : 0 < rect.w)
    (hh : 0 < rect.h)
    (hin : rect.x < p1.x ∧ p1.x < rect.x + rect.w ∧ rect.y < p1.y ∧ p1.y < rect.y + rect.h)
    (hout : p2.x < rect.x ∨ rect.x + rect.w < p2.x ∨ p2.y < rect.y ∨ rect.y + rect.h < p2.y)
    (hTL : orientation p1 p2 ⟨rect.x, rect.y⟩ ≠ 0)
    (hTR : orientation p1 p2 ⟨rect.x + rect.w, rect.y⟩ ≠ 0)
    (hBL : orientation p1 p2 ⟨rect.x, rect.y + rect.h⟩ ≠ 0)
    (hBR : orientation p1 p2 ⟨rect.x + rect.w, rect.y + rect.h⟩ ≠ 0) :
    checkAABBLineCollision p1 p2 rect = true := by
  obtain ⟨a, b⟩ := p1
  obtain ⟨c, d⟩ := p2
  obtain ⟨x0, y0, w, h⟩ := rect
  simp only at hw hh hin hout hTL hTR hBL hBR
  obtain ⟨i1, i2, i3, i4⟩ := hin
  have eTL : orientation ⟨a, b⟩ ⟨c, d⟩ ⟨x0, y0⟩ = (c - a) * (b - y0) - (d - b) * (a - x0) := by
    simp only [orientation]; ring
  have eTR : orientation ⟨a, b⟩ ⟨c, d⟩ ⟨x0 + w, y0⟩
      = (d - b) * (x0 + w - a) + (c - a) * (b - y0) := by
    simp only [orientation]; ring
  have eBL : orientation ⟨a, b⟩ ⟨c, d⟩ ⟨x0, y0 + h⟩
      = -((d - b) * (a - x0)) - (c - a) * (y0 + h - b) := by
    simp only [orientation]; ring
  have eBR : orientation ⟨a, b⟩ ⟨c, d⟩ ⟨x0 + w, y0 + h⟩
      = (d - b) * (x0 + w - a) - (c - a) * (y0 + h - b) := by
    simp only [orientation]; ring
  have core := crossing_core (a - x0) (x0 + w - a) (b - y0) (y0 + h - b) (c - a) (d - b)
    (by linarith) (by linarith) (by linarith) (by linarith)
    (by rcases hout with g | g | g | g
        · exact Or.inl (by linarith)
        · exact Or.inr (Or.inl (by linarith))
        · exact Or.inr (Or.inr (Or.inl (by linarith)))
        · exact Or.inr (Or.inr (Or.inr (by linarith))))
    (by rw [← eTL]; exact hTL) (by rw [← eTR]; exact hTR) (by rw [← eBL]; exact hBL)
    (by rw [← eBR]; exact hBR)
  rw [← eTL, ← eTR, ← eBL, ← eBR] at core
  have hseg : isLineSegmentIntersectingAABB ⟨a, b⟩ ⟨c, d⟩ ⟨x0, y0, w, h⟩ = true := by
    unfold isLineSegmentIntersectingAABB
    simp only [Bool.or_eq_true]
    rcases core with ⟨k, g⟩ | ⟨k, g⟩ | ⟨k, g⟩ | ⟨k, g⟩
    · -- top edge
      refine Or.inl (Or.inl (Or.inl (edge_test _ _ _ _ k ?_ ?_)))
      · simp only [orientation]; nlinarith [mul_pos hw (by linarith : 0 < b - y0)]
      · simp only [orientation]; nlinarith [mul_pos hw (by linarith : 0 < y0 - d)]
    · -- right edge
      refine Or.inl (Or.inl (Or.inr (edge_test _ _ _ _ k ?_ ?_)))
      · simp only [orientation]; nlinarith [mul_pos hh (by linarith : 0 < x0 + w - a)]
      · simp only [orientation]; nlinarith [mul_pos hh (by linarith : 0 < c - (x0 + w))]
    · -- bottom edge
      refine Or.inl (Or.inr (edge_test _ _ _ _ k ?_ ?_))
      · simp only [orientation]; nlinarith [mul_pos hw (by linarith : 0 < y0 + h - b)]
      · simp only [orientation]; nlinarith [mul_pos hw (by linarith : 0 < d - (y0 + h))]
    · -- left edge
      refine Or.inr (edge_test _ _ _ _ k ?_ ?_)
      · simp only [orientation]; nlinarith [mul_pos hh (by linarith : 0 < a - x0)]
      · simp only [orientation]; nlinarith [mul_pos hh (by linarith : 0 < x0 - c)]
  unfold checkAABBLineCollision
  rw [hseg]
  simp

/-- An instance of `segment_entering_detected`: the segment from (5, 5) to (15, 12) leaves
the rectangle (0, 0, 10, 10) through its right side. -/
theorem segment_entering_detected_witness :
    checkAABBLineCollision ⟨5, 5⟩ ⟨15, 12⟩ ⟨0, 0, 10, 10⟩ = true :=
  segment_entering_detected ⟨5, 5⟩ ⟨15, 12⟩ ⟨0, 0, 10, 10⟩ (by decide!) (by decide!)
    ⟨by decide!, by decide!, by decide!, by decide!⟩ (Or.inr (Or.inl (by decide!)))
    (by decide!) (by decide!) (by decide!) (by decide!)

end Overblown
